import Mathlib

/-!
# KDisplay daemon: reconciliation and persistence engine

A shallow embedding of `src/kded/output.cpp` and `src/kded/config.cpp`.

* Qt value types (`QVariant`, `QSize`, `QPoint`) and the Disman types (`Mode`, `Output`,
  `Config`) are library types; they are modelled here by plain data.
* Objects reached through shared pointers are modelled by explicit state passing: a function
  that mutates an output returns the new output.
* A `double` is modelled by the rational number it denotes.
* The filesystem is a map from full path strings to the `QVariant` that
  `QJsonDocument::fromJson(bytes).toVariant()` yields for the bytes of the file
  (`QVariant.invalid` when the bytes are not JSON).
-/

namespace KDisplay

/-! ## Qt value types -/

/-- The `QVariant` values that occur in JSON documents. `invalid` is the default-constructed
variant, which is also what looking up a missing key yields. -/
inductive QVariant where
  | invalid
  | bool (b : Bool)
  | int (n : Int)
  | double (d : ℚ)
  | string (s : String)
  | list (l : List QVariant)
  | map (m : List (String × QVariant))

/-- Model of `QVariantMap`: association list, the first binding of a key is the live one. -/
abbrev QVariantMap := List (String × QVariant)

/-- Model of `QVariantList`. -/
abbrev QVariantList := List QVariant

/-- Model of `qRound64`: round to nearest, halves away from zero. -/
def qRound (d : ℚ) : Int :=
  if 0 ≤ d then ⌊d + 1 / 2⌋ else ⌈d - 1 / 2⌉

/-- Model of `QVariant::toMap()`: the map, or an empty map for every other kind of value. -/
def QVariant.toMap : QVariant → QVariantMap
  | .map m => m
  | _ => []

/-- Model of `QVariant::toList()`: the list, or an empty list for every other kind of value. -/
def QVariant.toList : QVariant → QVariantList
  | .list l => l
  | _ => []

/-- Model of `QVariant::toInt()`; a string is read as a decimal integer, anything that does not
convert gives 0. -/
def QVariant.toInt : QVariant → Int
  | .int n => n
  | .double d => qRound d
  | .bool b => if b then 1 else 0
  | .string s => s.toInt?.getD 0
  | _ => 0

/-- Model of `QVariant::toDouble()`; a string is read as a decimal integer (Qt also accepts a
decimal fraction there), anything that does not convert gives 0. -/
def QVariant.toDouble : QVariant → ℚ
  | .double d => d
  | .int n => (n : ℚ)
  | .bool b => if b then 1 else 0
  | .string s => ((s.toInt?.getD 0 : Int) : ℚ)
  | _ => 0

/-- Model of `QVariant::toBool()`. -/
def QVariant.toBool : QVariant → Bool
  | .bool b => b
  | .int n => n != 0
  | .double d => d != 0
  | .string s => !(s.isEmpty || s == "0" || s.toLower == "false")
  | _ => false

/-- Model of `QVariant::toString()`; a number that is not integral is printed as a fraction here (Qt
prints a decimal expansion). -/
def QVariant.toString : QVariant → String
  | .string s => s
  | .int n => ToString.toString n
  | .double d => if d.den = 1 then ToString.toString d.num
      else ToString.toString d.num ++ "/" ++ ToString.toString d.den
  | .bool b => if b then "true" else "false"
  | _ => ""

/-- Model of `QVariantMap::operator[]` on a constant map, and `QVariantMap::value(key)`: the
value bound to the key, or an invalid variant. -/
def QVariantMap.get (m : QVariantMap) (key : String) : QVariant :=
  (m.lookup key).getD .invalid

/-- Model of `QVariantMap::value(key, defaultValue)`. -/
def QVariantMap.value (m : QVariantMap) (key : String) (dflt : QVariant) : QVariant :=
  (m.lookup key).getD dflt

/-- Model of `map[key] = v`: rebinds the key if it is bound, adds a binding otherwise. -/
def QVariantMap.insert : QVariantMap → String → QVariant → QVariantMap
  | [], key, v => [(key, v)]
  | (k, w) :: rest, key, v =>
    if k == key then (k, v) :: rest else (k, w) :: QVariantMap.insert rest key v

/-- Model of `QSize`. -/
structure QSize where
  width : Int
  height : Int
  deriving DecidableEq, Repr

/-- Model of `QSize::isValid()`: both extents are non-negative; the default-constructed size is
`(-1, -1)`. -/
def QSize.isValid (s : QSize) : Bool :=
  decide (0 ≤ s.width) && decide (0 ≤ s.height)

/-- Model of `QPoint`. -/
structure QPoint where
  x : Int
  y : Int
  deriving DecidableEq, Repr

/-- Model of `qFuzzyCompare(double, double)`:
`qAbs(p1 - p2) * 1000000000000. <= qMin(qAbs(p1), qAbs(p2))`. -/
def qFuzzyCompare (p1 p2 : ℚ) : Bool :=
  decide (|p1 - p2| * 1000000000000 ≤ min |p1| |p2|)

/-! ## Disman types -/

/-- Model of `Disman::Mode`: id, pixel size and refresh rate. -/
structure Mode where
  id : String
  size : QSize
  refresh : ℚ
  deriving DecidableEq, Repr

/-- Model of `Disman::Output::Retention`. -/
inductive Retention where
  | Undefined
  | Global
  | Individual
  deriving DecidableEq, Repr

/-- Model of `Disman::Output::Type`, as far as the daemon distinguishes it. -/
inductive OutputType where
  | Unknown
  | Panel
  | HDMI
  | DisplayPort
  deriving DecidableEq, Repr

/-- Model of `Disman::Output`, the state the daemon reads and writes. `modes` lists the values of
`modes()` in iteration order; `rotation` is the integer value of the `Rotation` enum
(None = 1, Left = 2, Inverted = 4, Right = 8), which `readInGlobalPartFromInfo` casts from an
arbitrary integer; `mode` is the mode installed by `set_mode`. -/
structure Output where
  id : Int
  hash : String
  name : String
  description : String
  type : OutputType
  connected : Bool
  enabled : Bool
  primary : Bool
  position : QPoint
  rotation : Int
  mode : Option Mode
  modes : List Mode
  preferred_modes : List String
  retention : Retention
  deriving DecidableEq, Repr

/-- Model of `Disman::Output::set_rotation`. -/
def Output.set_rotation (output : Output) (rotation : Int) : Output :=
  { output with rotation := rotation }

/-- Model of `Disman::Output::set_mode`. -/
def Output.set_mode (output : Output) (mode : Mode) : Output :=
  { output with mode := some mode }

/-- Model of `Disman::Output::set_enabled`. -/
def Output.set_enabled (output : Output) (enabled : Bool) : Output :=
  { output with enabled := enabled }

/-- Model of `Disman::Output::set_position`. -/
def Output.set_position (output : Output) (position : QPoint) : Output :=
  { output with position := position }

/-- Modelled from the spec: `Disman::Config::set_primary_output` belongs to the Disman library
and is not part of src/. The spec has at most one output marked primary in a configuration:
the call marks the given output and clears the flag of every other output. This is the update
of the flag of one output. -/
def Output.set_primary (output : Output) (primary : Bool) : Output :=
  { output with primary := primary }

/-- Pixel area of a mode. -/
def Mode.area (m : Mode) : Int :=
  m.size.width * m.size.height

/-- Whether `cand` replaces `best` in the scan for the biggest mode. -/
def Mode.beats (cand best : Mode) : Bool :=
  decide (best.area < cand.area) ||
    (decide (cand.area = best.area) && decide (best.refresh ≤ cand.refresh))

/-- One scan over a list of modes keeping the biggest one. -/
def biggestMode (modes : List Mode) : Option Mode :=
  modes.foldl
    (fun acc m =>
      match acc with
      | none => some m
      | some b => if m.beats b then some m else some b)
    none

/-- Modelled from the spec: `Disman::Output::best_mode()` belongs to the Disman library and is
not part of src/. The spec has it as "the mode with the largest pixel area among the output's
available modes (ties broken by highest refresh rate)". -/
def Output.best_mode (output : Output) : Option Mode :=
  biggestMode output.modes

/-- Modelled from the spec: `Disman::Output::preferred_mode()` belongs to the Disman library
and is not part of src/. The spec has it as the "output's preferred mode, if the output exposes
one": the biggest of the output's modes whose id the output lists as preferred. -/
def Output.preferred_mode (output : Output) : Option Mode :=
  biggestMode (output.modes.filter (fun m => output.preferred_modes.contains m.id))

/-! ## output.cpp -/

/-- The test of the mode loop in `Output::readInGlobalPartFromInfo`: the mode is kept when
neither `continue` is taken. -/
def modeMatches (size : QSize) (refresh : ℚ) (mode : Mode) : Bool :=
  !(mode.size != size) && !(!qFuzzyCompare mode.refresh refresh)

/-- The target size `readInGlobalPartFromInfo` reads from a record. -/
def infoSize (info : QVariantMap) : QSize :=
  let modeInfo := (info.get "mode").toMap
  let modeSize := (modeInfo.get "size").toMap
  ⟨(modeSize.get "width").toInt, (modeSize.get "height").toInt⟩

/-- The target refresh rate `readInGlobalPartFromInfo` reads from a record. -/
def infoRefresh (info : QVariantMap) : ℚ :=
  (((info.get "mode").toMap).get "refresh").toDouble

/-- Model of `Output::readInGlobalPartFromInfo`. -/
def Output.readInGlobalPartFromInfo (output : Output) (info : QVariantMap) : Output :=
  let output := output.set_rotation (info.value "rotation" (.int 1)).toInt
  let size := infoSize info
  let matchingMode : Option Mode := output.modes.find? (modeMatches size (infoRefresh info))
  let matchingMode := if matchingMode.isNone then output.preferred_mode else matchingMode
  let matchingMode := if matchingMode.isNone then output.best_mode else matchingMode
  match matchingMode with
  | none => output.set_enabled false
  | some m => output.set_mode m

/-- Model of `QRectF`, the type of `Disman::Output::geometry()`; a rectangle with integral
coordinates stands for a `QRect`. -/
structure QRectF where
  x : ℚ
  y : ℚ
  width : ℚ
  height : ℚ
  deriving DecidableEq, Repr

/-- Model of `Disman::Config`: the outputs in iteration order (the values of the `OutputList`
map), the hash of the connected outputs, the current size of the screen and whether the tablet
mode is engaged. -/
structure DismanConfig where
  outputs : List Output
  connectedOutputsHash : String
  screenSize : QSize
  tabletModeEngaged : Bool
  deriving DecidableEq, Repr

/-- What the daemon takes from outside `output.cpp` and `config.cpp`:
`Globals::dirPath()`, the `Device` singleton, the control file (`ControlConfig`: the
retention of an output given by hash and name, and its two auto-rotate settings), the Disman
accessors `auto_mode()`, `geometry()` and `isPositionable()`, `Disman::Config::canBeApplied`
(with the validity flags of the `Config`), and the narrowing of the refresh rate to `float` in
`writeGlobalPart` (the identity if `refresh()` is a `float` already). -/
structure Env where
  dirPath : String
  isLaptop : Bool
  isLidClosed : Bool
  getOutputRetention : String → String → Retention
  getAutoRotate : Output → Bool
  getAutoRotateOnlyInTabletMode : Output → Bool
  auto_mode : Output → Option Mode
  geometry : Output → QRectF
  isPositionable : Output → Bool
  canBeApplied : DismanConfig → Bool
  toFloat : ℚ → ℚ

/-- The files of the disk: `files path` is the parsed content of the file at `path`, if there
is one; `writable path` tells whether the file at `path` can be created, truncated or removed;
`mkpath dir` tells whether `QDir().mkpath(dir)` succeeds. -/
structure FileSystem where
  files : String → Option QVariant
  writable : String → Bool
  mkpath : String → Bool

/-- The disk with the file at `path` replaced by `content`, or removed when `content` is
`none`. -/
def FileSystem.setFile (fs : FileSystem) (path : String) (content : Option QVariant) :
    FileSystem :=
  { fs with files := Function.update fs.files path content }

/-- Model of `QFile::exists(path)`. -/
def FileSystem.fileExists (fs : FileSystem) (path : String) : Bool :=
  path != "" && (fs.files path).isSome

/-- Model of `file.open(QIODevice::ReadOnly)` followed by
`QJsonDocument::fromJson(file.readAll()).toVariant()`; `none` when the file cannot be opened. -/
def FileSystem.read (fs : FileSystem) (path : String) : Option QVariant :=
  if path = "" then none else fs.files path

/-- Model of `file.open(QIODevice::WriteOnly)` followed by
`file.write(QJsonDocument::fromVariant(v).toJson())`; `none` when the file cannot be opened. -/
def FileSystem.write (fs : FileSystem) (path : String) (v : QVariant) : Option FileSystem :=
  if path != "" && fs.writable path then
    some (fs.setFile path (some v))
  else none

/-- Model of `QFile::remove(path)`, the result of which the daemon never inspects. -/
def FileSystem.remove (fs : FileSystem) (path : String) : FileSystem :=
  if fs.fileExists path && fs.writable path then
    fs.setFile path none
  else fs

/-- Model of `QFile::copy(src, dst)`: fails when the source is missing, when the destination
exists or when it cannot be created; `none` stands for the result `false`. -/
def FileSystem.copy (fs : FileSystem) (src dst : String) : Option FileSystem :=
  match fs.read src with
  | none => none
  | some v =>
    if dst != "" && !fs.fileExists dst && fs.writable dst then
      some (fs.setFile dst (some v))
    else none

/-- Model of `Output::dirPath()`. -/
def Output.dirPath (env : Env) : String :=
  env.dirPath ++ "outputs/"

/-- Model of `Output::path(hash)`. -/
def Output.path (env : Env) (hash : String) : String :=
  Output.dirPath env ++ hash ++ ".json"

/-- Model of `Output::createPath(hash)`. -/
def Output.createPath (env : Env) (fs : FileSystem) (hash : String) : String :=
  if !fs.mkpath (Output.dirPath env) then "" else Output.path env hash

/-- Model of `Output::getGlobalData`. -/
def Output.getGlobalData (env : Env) (fs : FileSystem) (output : Output) : QVariantMap :=
  match fs.read (Output.path env output.hash) with
  | none => []
  | some doc => doc.toMap

/-- Model of `Output::readInGlobal`: the output after the call and the result. -/
def Output.readInGlobal (env : Env) (fs : FileSystem) (output : Output) : Output × Bool :=
  let info := Output.getGlobalData env fs output
  if info.isEmpty then (output, false)
  else (output.readInGlobalPartFromInfo info, true)

/-- Model of `Output::readIn`: the output after the call and the value left in `primary`. -/
def Output.readIn (env : Env) (fs : FileSystem) (output : Output) (info : QVariantMap)
    (retention : Retention) : Output × Bool :=
  let posInfo := (info.get "pos").toMap
  let point : QPoint := ⟨(posInfo.get "x").toInt, (posInfo.get "y").toInt⟩
  let output := output.set_position point
  let output := output.set_enabled (info.get "enabled").toBool
  let primary := (info.get "primary").toBool
  if retention != Retention.Individual && (Output.readInGlobal env fs output).2 then
    ((Output.readInGlobal env fs output).1, primary)
  else
    (output.readInGlobalPartFromInfo info, primary)

/-- The first block of `Output::readInOutputs`: the loop that collects `duplicateIds`. -/
def duplicateIdsLoop : List String → List String → List Output → List String
  | _, duplicateIds, [] => duplicateIds
  | allIds, duplicateIds, output :: rest =>
    let outputId := output.hash
    let duplicateIds :=
      if allIds.contains outputId && !duplicateIds.contains outputId then
        duplicateIds ++ [outputId]
      else duplicateIds
    duplicateIdsLoop (allIds ++ [outputId]) duplicateIds rest

/-- The list `duplicateIds` of `Output::readInOutputs`. -/
def duplicateIds (outputs : List Output) : List String :=
  duplicateIdsLoop [] [] outputs

/-- The body of the inner loop of `Output::readInOutputs` up to `infoFound = true`: whether
the record is the one read in for the output (neither `continue` is taken). -/
def infoMatches (duplicateIds : List String) (output : Output) (info : QVariantMap) : Bool :=
  if output.hash != (info.get "id").toString then false
  else if output.name != "" && duplicateIds.contains output.hash then
    let metadata := (info.get "metadata").toMap
    let outputName := (metadata.get "name").toString
    if output.name != outputName then false else true
  else true

/-- The inner loop of `Output::readInOutputs`: the first record that is read in for the output,
`none` when the loop ends with `infoFound` false. -/
def findInfo (duplicateIds : List String) (output : Output) (outputsInfo : QVariantList) :
    Option QVariantMap :=
  (outputsInfo.map QVariant.toMap).find? (infoMatches duplicateIds output)

/-- The body of the outer loop of `Output::readInOutputs` for one output: the output after the
iteration, and whether `config->set_primary_output(output)` is called. -/
def readInOutput (env : Env) (fs : FileSystem) (duplicateIds : List String)
    (outputsInfo : QVariantList) (output : Output) : Output × Bool :=
  match findInfo duplicateIds output outputsInfo with
  | some info => Output.readIn env fs output info output.retention
  | none =>
    if (Output.readInGlobal env fs output).2 then ((Output.readInGlobal env fs output).1, false)
    else (output.readInGlobalPartFromInfo [], false)

/-- The outer loop of `Output::readInOutputs` over the outputs still to visit, `done` being the
outputs already visited. `Disman::Config::set_primary_output(output)` makes `output` the one
primary output of the configuration, clearing the flag on all others; `cleared` records that
such a call has cleared the flag of the outputs still to visit. -/
def readInOutputsLoop (step : Output → Output × Bool) :
    Bool → List Output → List Output → List Output
  | _, done, [] => done
  | cleared, done, next :: todo =>
    let output := if cleared then next.set_primary false else next
    if (step output).2 then
      readInOutputsLoop step true
        (done.map (fun o => o.set_primary false) ++ [(step output).1.set_primary true])
        todo
    else
      readInOutputsLoop step cleared (done ++ [(step output).1]) todo

/-- Model of `Output::readInOutputs`; the call of `adjustPositions` at its end is compiled out
in the source. -/
def Output.readInOutputs (env : Env) (fs : FileSystem) (config : DismanConfig)
    (outputsInfo : QVariantList) : DismanConfig :=
  { config with
    outputs :=
      readInOutputsLoop (readInOutput env fs (duplicateIds config.outputs) outputsInfo) false []
        config.outputs }

/-- The static function `metadata` of output.cpp. -/
def metadata (output : Output) : QVariantMap :=
  (QVariantMap.insert [] "name" (.string output.name)).insert "description"
    (.string output.description)

/-- Model of `Output::writeGlobalPart`: the result and the record `info` after the call. -/
def Output.writeGlobalPart (env : Env) (output : Output) (info : QVariantMap)
    (fallback : Option Output) : Bool × QVariantMap :=
  let info := info.insert "id" (.string output.hash)
  let info := info.insert "metadata" (.map (metadata output))
  let info := info.insert "rotation" (.int output.rotation)
  let start : ℚ × QSize := (-1, ⟨-1, -1⟩)
  let found : ℚ × QSize :=
    match env.auto_mode output, output.enabled with
    | some mode, true => (env.toFloat mode.refresh, mode.size)
    | _, _ =>
      match fallback with
      | some fb =>
        match env.auto_mode fb with
        | some mode => (env.toFloat mode.refresh, mode.size)
        | none => start
      | none => start
  let refresh := found.1
  let modeSize := found.2
  if decide (refresh < 0) || !modeSize.isValid then (false, info)
  else
    let modeInfo := QVariantMap.insert [] "refresh" (.double refresh)
    let modeSizeMap :=
      (QVariantMap.insert [] "width" (.int modeSize.width)).insert "height" (.int modeSize.height)
    let modeInfo := modeInfo.insert "size" (.map modeSizeMap)
    (true, info.insert "mode" (.map modeInfo))

/-- Model of `Output::writeGlobal`. -/
def Output.writeGlobal (env : Env) (fs : FileSystem) (output : Output) : FileSystem :=
  let info := Output.getGlobalData env fs output
  if !(Output.writeGlobalPart env output info none).1 then fs
  else
    match fs.write (Output.createPath env fs output.hash)
        (.map (Output.writeGlobalPart env output info none).2) with
    | none => fs
    | some fs1 => fs1

/-! ## config.cpp

The class `Config` wraps a `Disman::ConfigPtr m_data`, which may be null; its methods are
functions of `m_data : Option DismanConfig`. A returned `std::unique_ptr<Config>` is modelled
by the data of the new `Config`, `none` standing for `nullptr`. -/

/-- The older accessor names of `Disman::Output` that config.cpp still uses. -/
def Output.hashMd5 (output : Output) : String :=
  output.hash

/-- Model of `Disman::Output::isConnected()`. -/
def Output.isConnected (output : Output) : Bool :=
  output.connected

/-- Model of `Disman::Output::isEnabled()`. -/
def Output.isEnabled (output : Output) : Bool :=
  output.enabled

/-- Model of `Disman::Output::isPrimary()`. -/
def Output.isPrimary (output : Output) : Bool :=
  output.primary

/-- Model of `Config::s_fixedConfigFileName`. -/
def Config.s_fixedConfigFileName : String :=
  "fixed-config"

/-- Model of `Config::s_configsDirName`. -/
def Config.s_configsDirName : String :=
  ""

/-- Model of `Config::configsDirPath()`. -/
def Config.configsDirPath (env : Env) : String :=
  env.dirPath ++ Config.s_configsDirName

/-- Model of `Config::id()`. -/
def Config.id (m_data : Option DismanConfig) : String :=
  match m_data with
  | none => ""
  | some data => data.connectedOutputsHash

/-- Model of `Config::filePath()`. -/
def Config.filePath (env : Env) (fs : FileSystem) (m_data : Option DismanConfig) : String :=
  if !fs.mkpath (Config.configsDirPath env) then ""
  else Config.configsDirPath env ++ Config.id m_data

/-- Coordinates of a `QRectF` are stored into the `int` extents of a `QSize` by truncation. -/
def truncToInt (d : ℚ) : Int :=
  if 0 ≤ d then ⌊d⌋ else ⌈d⌉

/-- The loop of `Config::readFile(fileName)` that grows `screenSize` over the positionable
outputs. -/
def screenSizeLoop (env : Env) (outputs : List Output) : QSize :=
  outputs.foldl
    (fun (screenSize : QSize) output =>
      if !env.isPositionable output then screenSize
      else
        let geom := env.geometry output
        let screenSize :=
          if geom.x + geom.width > (screenSize.width : ℚ) then
            { screenSize with width := truncToInt (geom.x + geom.width) }
          else screenSize
        if geom.y + geom.height > (screenSize.height : ℚ) then
          { screenSize with height := truncToInt (geom.y + geom.height) }
        else screenSize)
    ⟨-1, -1⟩

/-- The part of `Config::readFile(fileName)` that follows the parsing of the record list:
read the records into the clone `data` of the configuration, set the size of the screen and
check the result with `canBeApplied`. -/
def Config.applyRecords (env : Env) (fs : FileSystem) (data : DismanConfig)
    (outputs : QVariantList) : Option DismanConfig :=
  let config := Output.readInOutputs env fs data outputs
  let config := { config with screenSize := screenSizeLoop env config.outputs }
  if !env.canBeApplied config then none else some config

/-- Model of `Config::readFile(const QString &fileName)`. -/
def Config.readFile (env : Env) (fs : FileSystem) (m_data : Option DismanConfig)
    (fileName : String) : Option DismanConfig :=
  match m_data with
  | none => none
  | some data =>
    let file :=
      if fs.fileExists (Config.configsDirPath env ++ Config.s_fixedConfigFileName) then
        Config.configsDirPath env ++ Config.s_fixedConfigFileName
      else Config.configsDirPath env ++ fileName
    match fs.read file with
    | none => none
    | some doc => Config.applyRecords env fs data doc.toList

/-- Model of `Config::readFile()`: the filesystem after the call and the result. -/
def Config.readFile0 (env : Env) (fs : FileSystem) (m_data : Option DismanConfig) :
    FileSystem × Option DismanConfig :=
  let fs :=
    if env.isLaptop && !env.isLidClosed then
      let lidOpenedFilePath := Config.filePath env fs m_data ++ "_lidOpened"
      if fs.fileExists lidOpenedFilePath then
        let fs1 := fs.remove (Config.filePath env fs m_data)
        match fs1.copy lidOpenedFilePath (Config.filePath env fs1 m_data) with
        | some fs2 => fs2.remove lidOpenedFilePath
        | none => fs1
      else fs
    else fs
  (fs, Config.readFile env fs m_data (Config.id m_data))

/-- The record `info` that the loop of `Config::writeFile` builds for a connected output,
`oldOutput` being the output of the old configuration with the same hash. -/
def writeFileInfo (env : Env) (oldOutput : Option Output) (output : Output) : QVariantMap :=
  let info := (Output.writeGlobalPart env output [] oldOutput).2
  let info := info.insert "primary" (.bool output.isPrimary)
  let info := info.insert "enabled" (.bool output.isEnabled)
  match (if output.isEnabled then some output else oldOutput) with
  | none => info
  | some out =>
    let pos := (QVariantMap.insert [] "x" (.int out.position.x)).insert "y" (.int out.position.y)
    info.insert "pos" (.map pos)

/-- The body of the loop of `Config::writeFile` for one output: the filesystem and the list
`outputList` after the iteration. -/
def writeFileStep (env : Env) (oldOutputs : List Output) (acc : FileSystem × QVariantList)
    (output : Output) : FileSystem × QVariantList :=
  let oldOutput := oldOutputs.find? (fun out => out.hashMd5 == output.hashMd5)
  if !output.isConnected then acc
  else
    let info := writeFileInfo env oldOutput output
    let fs :=
      if output.isEnabled
          && env.getOutputRetention output.hash output.name != Retention.Individual then
        Output.writeGlobal env acc.1 output
      else acc.1
    (fs, acc.2 ++ [.map info])

/-- The part of `Config::writeFile(filePath)` from the call of `readFile()` to the end of the
loop over the outputs: the filesystem and the list `outputList` after the loop. -/
def Config.writeFileLoop (env : Env) (fs : FileSystem) (data : DismanConfig) :
    FileSystem × QVariantList :=
  let old := Config.readFile0 env fs (some data)
  let oldOutputs :=
    match old.2 with
    | some oldConfig => oldConfig.outputs
    | none => []
  data.outputs.foldl (writeFileStep env oldOutputs) (old.1, [])

/-- Model of `Config::writeFile(const QString &filePath)`: the filesystem after the call and
the result. -/
def Config.writeFile (env : Env) (fs : FileSystem) (m_data : Option DismanConfig)
    (filePath : String) : FileSystem × Bool :=
  if Config.id m_data = "" then (fs, false)
  else
    match m_data with
    | none => (fs, false)
    | some data =>
      let acc := Config.writeFileLoop env fs data
      match acc.1.write filePath (.list acc.2) with
      | none => (acc.1, false)
      | some fs1 => (fs1, true)

/-- Model of `Config::writeFile()`. -/
def Config.writeFile0 (env : Env) (fs : FileSystem) (m_data : Option DismanConfig) :
    FileSystem × Bool :=
  Config.writeFile env fs m_data (Config.filePath env fs m_data)

/-- Model of `Config::writeOpenLidFile()`. -/
def Config.writeOpenLidFile (env : Env) (fs : FileSystem) (m_data : Option DismanConfig) :
    FileSystem × Bool :=
  Config.writeFile env fs m_data (Config.filePath env fs m_data ++ "_lidOpened")

/-! ## Auxiliary notions used in the statements -/

/-- The output with its primary flag cleared. -/
def Output.clearPrimary (o : Output) : Output :=
  o.set_primary false

/-- The stored display name of a record: `metadata.name`. -/
def infoName (info : QVariantMap) : String :=
  (((info.get "metadata").toMap).get "name").toString

/-- The identity hash of a record: `id`. -/
def infoId (info : QVariantMap) : String :=
  (info.get "id").toString

/-- The order of the scan for the biggest mode: `m` is not bigger than `b`. -/
def Mode.noBigger (m b : Mode) : Prop :=
  m.area < b.area ∨ (m.area = b.area ∧ m.refresh ≤ b.refresh)

/-- The mode `readInGlobalPartFromInfo` settles on: the first success of the chain. -/
def chosenMode (output : Output) (info : QVariantMap) : Option Mode :=
  match output.modes.find? (modeMatches (infoSize info) (infoRefresh info)) with
  | some m => some m
  | none =>
    match output.preferred_mode with
    | some p => some p
    | none => output.best_mode

/-- The three entries every call of `writeGlobalPart` sets. -/
def globalPartBase (output : Output) (info : QVariantMap) : QVariantMap :=
  ((info.insert "id" (.string output.hash)).insert "metadata" (.map (metadata output))).insert
    "rotation" (.int output.rotation)

/-- The entry `mode` that `writeGlobalPart` sets for a size and a refresh rate. -/
def modeEntry (refresh : ℚ) (size : QSize) : QVariant :=
  .map ((QVariantMap.insert [] "refresh" (.double refresh)).insert "size"
    (.map ((QVariantMap.insert [] "width" (.int size.width)).insert "height"
      (.int size.height))))

/-- What `readInGlobalPartFromInfo` reads from a record: rotation, size and refresh rate. -/
def InfoTarget (info : QVariantMap) (rotation : Int) (size : QSize) (refresh : ℚ) : Prop :=
  (info.value "rotation" (.int 1)).toInt = rotation ∧ infoSize info = size ∧
    infoRefresh info = refresh

/-- The record list the loop of `Config::writeFile` builds for a list of outputs. -/
def writtenRecords (env : Env) (oldOutputs : List Output) (outputs : List Output) :
    QVariantList :=
  (outputs.filter Output.isConnected).map (fun x =>
    QVariant.map (writeFileInfo env (oldOutputs.find? (fun out => out.hashMd5 == x.hashMd5)) x))

/-! ## Device orientation -/

/-- Model of `QOrientationReading::Orientation`. -/
inductive Orientation where
  | Undefined
  | TopUp
  | TopDown
  | LeftUp
  | RightUp
  | FaceUp
  | FaceDown
  deriving DecidableEq, Repr

/-- Value of `Disman::Output::Rotation::None`. -/
def Rotation.None : Int := 1

/-- Value of `Disman::Output::Rotation::Left`. -/
def Rotation.Left : Int := 2

/-- Value of `Disman::Output::Rotation::Inverted`. -/
def Rotation.Inverted : Int := 4

/-- Value of `Disman::Output::Rotation::Right`. -/
def Rotation.Right : Int := 8

/-- Model of `orientationToRotation` of `output.cpp`. -/
def orientationToRotation (orientation : Orientation) (fallback : Int) : Int :=
  match orientation with
  | .TopUp => Rotation.None
  | .TopDown => Rotation.Inverted
  | .LeftUp => Rotation.Right
  | .RightUp => Rotation.Left
  | .Undefined => fallback
  | .FaceUp => fallback
  | .FaceDown => fallback

/-- Model of `Output::updateOrientation`: the output after the call and the returned flag. -/
def Output.updateOrientation (output : Output) (orientation : Orientation) : Output × Bool :=
  if output.type != OutputType.Panel then (output, false)
  else
    let currentRotation := output.rotation
    let rotation := orientationToRotation orientation currentRotation
    if rotation == currentRotation then (output, true)
    else (output.set_rotation rotation, true)

/-- The loop of `Config::setDeviceOrientation` over the outputs in iteration order; it returns
at the first output for which `Output::updateOrientation` gives true. -/
def setDeviceOrientationLoop (env : Env) (tabletModeEngaged : Bool)
    (orientation : Orientation) : List Output → List Output
  | [] => []
  | output :: rest =>
    if !env.getAutoRotate output then
      output :: setDeviceOrientationLoop env tabletModeEngaged orientation rest
    else
      let finalOrientation :=
        if env.getAutoRotateOnlyInTabletMode output && !tabletModeEngaged then Orientation.TopUp
        else orientation
      let updated := Output.updateOrientation output finalOrientation
      if updated.2 then updated.1 :: rest
      else updated.1 :: setDeviceOrientationLoop env tabletModeEngaged orientation rest

/-- Model of `Config::setDeviceOrientation` on the configuration `m_data`. -/
def Config.setDeviceOrientation (env : Env) (data : DismanConfig) (orientation : Orientation) :
    DismanConfig :=
  { data with
    outputs := setDeviceOrientationLoop env data.tabletModeEngaged orientation data.outputs }

/-! ## Adjusting positions -/

/-- Model of `QRect` as `QRect(pos, size)` builds it: top-left corner and extents. -/
structure QRect where
  x : Int
  y : Int
  width : Int
  height : Int
  deriving DecidableEq, Repr

/-- Model of `QVariant::canConvert<int>()`: a bool, a number or a string can be converted, a
list, a map or an invalid value cannot. -/
def QVariant.canConvertInt : QVariant → Bool
  | .bool _ => true
  | .int _ => true
  | .double _ => true
  | .string _ => true
  | _ => false

/-- The flag `ok` of `QVariant::toInt(&ok)`. -/
def QVariant.toIntOk : QVariant → Bool
  | .bool _ => true
  | .int _ => true
  | .double _ => true
  | .string s => s.toInt?.isSome
  | _ => false

/-- The lambda `isPortrait` of `Output::adjustPositions`: the bits of `Rotation::Left` (2) or
`Rotation::Right` (8) are set in the stored rotation. -/
def isPortrait (info : QVariant) : Bool :=
  let rot := info.toInt
  if !info.toIntOk then false
  else rot.testBit 1 || rot.testBit 3

/-- The lambda `getOutputInfoProperties` of `Output::adjustPositions`: the rectangle stored for
the output in the first record whose `id` is the hash of the output, `none` where the lambda
returns false. -/
def getOutputInfoProperties (outputsInfo : QVariantList) (output : Output) : Option QRect :=
  match outputsInfo.find? (fun v => (v.toMap.get "id").toString == output.hash) with
  | none => none
  | some it =>
    let outputInfo := it.toMap
    let posInfo := (outputInfo.get "pos").toMap
    let scaleInfo := outputInfo.get "scale"
    let modeInfo := (outputInfo.get "mode").toMap
    let modeSize := (modeInfo.get "size").toMap
    let portrait := isPortrait (outputInfo.get "rotation")
    if posInfo.isEmpty || modeSize.isEmpty || !scaleInfo.canConvertInt then none
    else
      let scale := scaleInfo.toDouble
      if scale ≤ 0 then none
      else
        let width := truncToInt (((modeSize.get "width").toInt : ℚ) / scale)
        let height := truncToInt (((modeSize.get "height").toInt : ℚ) / scale)
        let size : QSize := if portrait then ⟨height, width⟩ else ⟨width, height⟩
        some ⟨(posInfo.get "x").toInt, (posInfo.get "y").toInt, size.width, size.height⟩

/-- The position `Output::adjustPositions` computes for the current output of a pair, from the
live geometries and the stored rectangles of the previous and the current output. The
arithmetic on `double` is done in ℚ, a value stored into an `int` is truncated; a division by a
stored extent of 0, for which the source gets an infinity or a NaN, gives 0 here. -/
def adjustedPosition (prevGeo curGeo : QRectF) (prevInfoGeo curInfoGeo : QRect) : QPoint :=
  let xInfoDiff : Int := curInfoGeo.x - (prevInfoGeo.x + prevInfoGeo.width)
  let prevRight : Int := truncToInt (prevGeo.x + prevGeo.width)
  let xCorrected : Int :=
    truncToInt ((prevRight : ℚ) + prevGeo.width * (xInfoDiff : ℚ) / (prevInfoGeo.width : ℚ))
  let xDiff : Int := truncToInt (curGeo.x - (prevRight : ℚ))
  let yOverlap : Bool :=
    decide (prevInfoGeo.y + prevInfoGeo.height > curInfoGeo.y)
      && decide (prevInfoGeo.y < curInfoGeo.y + curInfoGeo.height)
  let topToTopDiffAbs : Int := |prevInfoGeo.y - curInfoGeo.y|
  let topToBottomDiffAbs : Int := |prevInfoGeo.y - curInfoGeo.y - curInfoGeo.height|
  let bottomToBottomDiffAbs : Int :=
    |prevInfoGeo.y + prevInfoGeo.height - curInfoGeo.y - curInfoGeo.height|
  let bottomToTopDiffAbs : Int := |prevInfoGeo.y + prevInfoGeo.height - curInfoGeo.y|
  let yTopAligned : Bool :=
    (decide (topToTopDiffAbs < bottomToBottomDiffAbs)
        && decide (topToTopDiffAbs ≤ bottomToTopDiffAbs))
      || decide (topToBottomDiffAbs < bottomToBottomDiffAbs)
  let yInfoDiff : Int := curInfoGeo.y - prevInfoGeo.y
  let yDiff : Int := truncToInt (curGeo.y - prevGeo.y)
  let ys : Int × Int × Int :=
    if yTopAligned then
      let yInfoDiff := if !yOverlap then yInfoDiff + curInfoGeo.height else yInfoDiff
      let yDiff := if !yOverlap then truncToInt ((yDiff : ℚ) + curGeo.height) else yDiff
      let yInfoRel : ℚ := (yInfoDiff : ℚ) / (curInfoGeo.height : ℚ)
      (yInfoDiff, yDiff, truncToInt (prevGeo.y + yInfoRel * curGeo.height))
    else
      let yInfoDiff := yInfoDiff - prevInfoGeo.height
      let yDiff := truncToInt ((yDiff : ℚ) - prevGeo.height)
      let yCorrected := truncToInt (prevGeo.y + prevGeo.height)
      let yInfoDiff := if yOverlap then yInfoDiff + curInfoGeo.height else yInfoDiff
      let yDiff := if yOverlap then truncToInt ((yDiff : ℚ) + curGeo.height) else yDiff
      let yCorrected :=
        if yOverlap then truncToInt ((yCorrected : ℚ) - curGeo.height) else yCorrected
      let yInfoRel : ℚ := (yInfoDiff : ℚ) / (prevInfoGeo.height : ℚ)
      (yInfoDiff, yDiff, truncToInt ((yCorrected : ℚ) + yInfoRel * prevGeo.height))
  let x : Int := if xDiff = xInfoDiff then truncToInt curGeo.x else xCorrected
  let y : Int := if ys.2.1 = ys.1 then truncToInt curGeo.y else ys.2.2
  ⟨x, y⟩

/-- One pass of the loop body of `Output::adjustPositions` for the outputs at the places
`prev` and `cur` of the list (the keys `sortedOutputs[cnt - 1].first` and
`sortedOutputs[cnt].first` of the source). -/
def adjustPositionsStep (env : Env) (outputsInfo : QVariantList) (outputs : List Output)
    (prev cur : Nat) : List Output :=
  match outputs[prev]?, outputs[cur]? with
  | some prevPtr, some curPtr =>
    match getOutputInfoProperties outputsInfo prevPtr,
      getOutputInfoProperties outputsInfo curPtr with
    | some prevInfoGeo, some curInfoGeo =>
      outputs.set cur (curPtr.set_position
        (adjustedPosition (env.geometry prevPtr) (env.geometry curPtr) prevInfoGeo curInfoGeo))
    | _, _ => outputs
  | _, _ => outputs

/-- The loop of `Output::adjustPositions` over the sorted vector `sortedOutputs` of pairs of
a place in the output list and the position the output had before the loop: the pairs of
neighbours are handled from left to right. -/
def adjustPositionsLoop (env : Env) (outputsInfo : QVariantList)
    (sortedOutputs : List (Nat × QPoint)) (outputs : List Output) : List Output :=
  (sortedOutputs.zip sortedOutputs.tail).foldl
    (fun outs pair => adjustPositionsStep env outputsInfo outs pair.1.1 pair.2.1) outputs

/-- The comparison `std::sort` is called with in `Output::adjustPositions`: left to right, top
to bottom. -/
def positionLess (o1 o2 : Nat × QPoint) : Bool :=
  decide (o1.2.x < o2.2.x) || (decide (o1.2.x = o2.2.x) && decide (o1.2.y < o2.2.y))

/-- The sorted vector of `Output::adjustPositions`. `std::sort` leaves the order of outputs at
the same position open; the insertion sort used here keeps them in iteration order. -/
def sortOutputs (outputs : List Output) : List (Nat × QPoint) :=
  (outputs.enum.map (fun p => (p.1, p.2.position))).insertionSort
    (fun a b => positionLess b a = false)

/-- Model of `Output::adjustPositions`. -/
def Output.adjustPositions (env : Env) (config : DismanConfig) (outputsInfo : QVariantList) :
    DismanConfig :=
  { config with
    outputs := adjustPositionsLoop env outputsInfo (sortOutputs config.outputs) config.outputs }

/-- At most one output of the list is marked primary. -/
def AtMostOnePrimary (outputs : List Output) : Prop :=
  ∀ (j k : Nat) (a b : Output), outputs[j]? = some a → outputs[k]? = some b →
    a.primary = true → b.primary = true → j = k

/-- Whether `Output::readInOutputs` matches the live output to a record whose entry `primary`
is true. -/
def matchedPrimary (duplicateIds : List String) (outputsInfo : QVariantList)
    (output : Output) : Bool :=
  match findInfo duplicateIds output outputsInfo with
  | some info => (info.get "primary").toBool
  | none => false

/-! ## Notions for the records and for the pairs of `adjustPositions` -/

/-- Model of `QMap::contains(key)`. -/
def QVariantMap.hasKey (m : QVariantMap) (key : String) : Bool :=
  (m.lookup key).isSome

/-- The list `oldOutputs` of `Config::writeFile`: the outputs of the configuration `readFile()`
returns, none when it returns null. -/
def Config.oldOutputs (env : Env) (fs : FileSystem) (data : DismanConfig) : List Output :=
  match (Config.readFile0 env fs (some data)).2 with
  | some oldConfig => oldConfig.outputs
  | none => []

/-- The value `xInfoDiff` of `Output::adjustPositions`: the stored gap between the right edge
of the previous output and the left edge of the current one. -/
def xInfoDiff (prevInfoGeo curInfoGeo : QRect) : Int :=
  curInfoGeo.x - (prevInfoGeo.x + prevInfoGeo.width)

/-- The value `prevRight` of `Output::adjustPositions`. -/
def prevRight (prevGeo : QRectF) : Int :=
  truncToInt (prevGeo.x + prevGeo.width)

/-- The value `xCorrected` of `Output::adjustPositions`. -/
def xCorrected (prevGeo : QRectF) (prevInfoGeo curInfoGeo : QRect) : Int :=
  truncToInt ((prevRight prevGeo : ℚ)
    + prevGeo.width * (xInfoDiff prevInfoGeo curInfoGeo : ℚ) / (prevInfoGeo.width : ℚ))

/-- The value `xDiff` of `Output::adjustPositions`: the live gap. -/
def xDiff (prevGeo curGeo : QRectF) : Int :=
  truncToInt (curGeo.x - (prevRight prevGeo : ℚ))

/-- The flag `yOverlap` of `Output::adjustPositions`. -/
def yOverlap (prevInfoGeo curInfoGeo : QRect) : Bool :=
  decide (prevInfoGeo.y + prevInfoGeo.height > curInfoGeo.y)
    && decide (prevInfoGeo.y < curInfoGeo.y + curInfoGeo.height)

/-- The flag `yTopAligned` of `Output::adjustPositions`. -/
def yTopAligned (prevInfoGeo curInfoGeo : QRect) : Bool :=
  let topToTopDiffAbs : Int := |prevInfoGeo.y - curInfoGeo.y|
  let topToBottomDiffAbs : Int := |prevInfoGeo.y - curInfoGeo.y - curInfoGeo.height|
  let bottomToBottomDiffAbs : Int :=
    |prevInfoGeo.y + prevInfoGeo.height - curInfoGeo.y - curInfoGeo.height|
  let bottomToTopDiffAbs : Int := |prevInfoGeo.y + prevInfoGeo.height - curInfoGeo.y|
  (decide (topToTopDiffAbs < bottomToBottomDiffAbs)
      && decide (topToTopDiffAbs ≤ bottomToTopDiffAbs))
    || decide (topToBottomDiffAbs < bottomToBottomDiffAbs)

/-- The condition the claim C22 gives for a top-aligned pair: the first of the two alternatives
of `yTopAligned` alone. -/
def claimedTopAligned (prevInfoGeo curInfoGeo : QRect) : Bool :=
  decide (|prevInfoGeo.y - curInfoGeo.y|
      < |prevInfoGeo.y + prevInfoGeo.height - curInfoGeo.y - curInfoGeo.height|)
    && decide (|prevInfoGeo.y - curInfoGeo.y| ≤ |prevInfoGeo.y + prevInfoGeo.height - curInfoGeo.y|)

/-- The branch `if (yTopAligned)` of `Output::adjustPositions` ("align to previous top"): the
values of `yInfoDiff`, `yDiff` and `yCorrected` at its end. -/
def alignTop (prevGeo curGeo : QRectF) (prevInfoGeo curInfoGeo : QRect) : Int × Int × Int :=
  let yInfoDiff : Int := curInfoGeo.y - prevInfoGeo.y
  let yDiff : Int := truncToInt (curGeo.y - prevGeo.y)
  let yInfoDiff :=
    if !yOverlap prevInfoGeo curInfoGeo then yInfoDiff + curInfoGeo.height else yInfoDiff
  let yDiff :=
    if !yOverlap prevInfoGeo curInfoGeo then truncToInt ((yDiff : ℚ) + curGeo.height) else yDiff
  let yInfoRel : ℚ := (yInfoDiff : ℚ) / (curInfoGeo.height : ℚ)
  (yInfoDiff, yDiff, truncToInt (prevGeo.y + yInfoRel * curGeo.height))

/-- The `else` branch of `if (yTopAligned)` in `Output::adjustPositions` ("align previous
bottom"): the values of `yInfoDiff`, `yDiff` and `yCorrected` at its end. -/
def alignBottom (prevGeo curGeo : QRectF) (prevInfoGeo curInfoGeo : QRect) :
    Int × Int × Int :=
  let yInfoDiff : Int := curInfoGeo.y - prevInfoGeo.y
  let yDiff : Int := truncToInt (curGeo.y - prevGeo.y)
  let yInfoDiff := yInfoDiff - prevInfoGeo.height
  let yDiff := truncToInt ((yDiff : ℚ) - prevGeo.height)
  let yCorrected := truncToInt (prevGeo.y + prevGeo.height)
  let yInfoDiff :=
    if yOverlap prevInfoGeo curInfoGeo then yInfoDiff + curInfoGeo.height else yInfoDiff
  let yDiff :=
    if yOverlap prevInfoGeo curInfoGeo then truncToInt ((yDiff : ℚ) + curGeo.height) else yDiff
  let yCorrected :=
    if yOverlap prevInfoGeo curInfoGeo then truncToInt ((yCorrected : ℚ) - curGeo.height)
    else yCorrected
  let yInfoRel : ℚ := (yInfoDiff : ℚ) / (prevInfoGeo.height : ℚ)
  (yInfoDiff, yDiff, truncToInt ((yCorrected : ℚ) + yInfoRel * prevGeo.height))

/-- The values of `yInfoDiff`, `yDiff` and `yCorrected` of `Output::adjustPositions` after
the alignment branch. -/
def verticalCorrection (prevGeo curGeo : QRectF) (prevInfoGeo curInfoGeo : QRect) :
    Int × Int × Int :=
  if yTopAligned prevInfoGeo curInfoGeo then alignTop prevGeo curGeo prevInfoGeo curInfoGeo
  else alignBottom prevGeo curGeo prevInfoGeo curInfoGeo

/-- The keys of the persisted shape that do not depend on a mode or a position: `id`,
`metadata` with `name` and `description`, `rotation`, `enabled` and `primary`. -/
def hasBaseShape (info : QVariantMap) : Bool :=
  info.hasKey "id" && info.hasKey "metadata"
    && QVariantMap.hasKey (info.get "metadata").toMap "name"
    && QVariantMap.hasKey (info.get "metadata").toMap "description"
    && info.hasKey "rotation" && info.hasKey "enabled" && info.hasKey "primary"

/-- The key `mode` of the persisted shape, with `refresh` and `size.width`, `size.height`. -/
def hasModeShape (info : QVariantMap) : Bool :=
  info.hasKey "mode" && QVariantMap.hasKey (info.get "mode").toMap "refresh"
    && QVariantMap.hasKey (info.get "mode").toMap "size"
    && QVariantMap.hasKey (((info.get "mode").toMap).get "size").toMap "width"
    && QVariantMap.hasKey (((info.get "mode").toMap).get "size").toMap "height"

/-- The key `pos` of the persisted shape, with `x` and `y`. -/
def hasPosShape (info : QVariantMap) : Bool :=
  info.hasKey "pos" && QVariantMap.hasKey (info.get "pos").toMap "x"
    && QVariantMap.hasKey (info.get "pos").toMap "y"

/-- The position `Output::readIn` reads from a record: the entries `x` and `y` of `pos`. -/
def infoPos (info : QVariantMap) : QPoint :=
  ⟨(((info.get "pos").toMap).get "x").toInt, (((info.get "pos").toMap).get "y").toInt⟩

/-- The file `Config::readFile(fileName)` opens: the fixed configuration if there is one. -/
def Config.fileToRead (env : Env) (fs : FileSystem) (fileName : String) : String :=
  if fs.fileExists (Config.configsDirPath env ++ Config.s_fixedConfigFileName) then
    Config.configsDirPath env ++ Config.s_fixedConfigFileName
  else Config.configsDirPath env ++ fileName

/-! ## daemon.cpp

The members of `KDisplayDaemon` that take part in applying a configuration, and the slots that
change them. A `Disman::SetConfigOperation` that the daemon creates is recorded in the list
`setConfigOperations`; its signal `finished` is the event `applied`. -/

/-- The state of `KDisplayDaemon`: `m_monitoredConfig`, `m_monitoring`, `m_configDirty`, and
the configurations for which a `SetConfigOperation` has been created, oldest first. -/
structure Daemon where
  m_monitoredConfig : Option DismanConfig
  m_monitoring : Bool
  m_configDirty : Bool
  setConfigOperations : List (Option DismanConfig)

/-- What `KDisplayDaemon::updateOrientation` reads from outside the daemon: the features
`AutoRotation` and `TabletMode` of the monitored configuration, and the orientation sensor. -/
structure Sensor where
  featureAutoRotation : Bool
  featureTabletMode : Bool
  available : Bool
  enabled : Bool
  value : Orientation

/-- The state right after the constructor: `m_monitoring(true)`, `m_configDirty = true`, no
configuration yet. -/
def KDisplayDaemon.initial : Daemon :=
  ⟨none, true, true, []⟩

/-- Model of `KDisplayDaemon::setMonitorForChanges`; connecting and disconnecting the signal
`configuration_changed` is not part of the state. -/
def KDisplayDaemon.setMonitorForChanges (d : Daemon) (enabled : Bool) : Daemon :=
  if d.m_monitoring == enabled then d
  else { d with m_monitoring := enabled }

/-- Model of `KDisplayDaemon::doApplyConfig(Disman::ConfigPtr const&)`: the function logs
"Currently all KDisplay daemon config control is disabled. Doing nothing" and returns; the
statements `m_monitoredConfig = config; refreshConfig();` that follow the `return` are never
executed. -/
def KDisplayDaemon.doApplyConfig (d : Daemon) (_config : Option DismanConfig) : Daemon :=
  d

/-- Model of `KDisplayDaemon::refreshConfig` up to the creation of the `SetConfigOperation`. -/
def KDisplayDaemon.refreshConfig (d : Daemon) : Daemon :=
  let d := KDisplayDaemon.setMonitorForChanges d false
  let d := { d with m_configDirty := false }
  { d with setConfigOperations := d.setConfigOperations ++ [d.m_monitoredConfig] }

/-- The lambda `KDisplayDaemon::refreshConfig` connects to `SetConfigOperation::finished`. -/
def KDisplayDaemon.applied (d : Daemon) : Daemon :=
  if d.m_configDirty then KDisplayDaemon.doApplyConfig d d.m_monitoredConfig
  else KDisplayDaemon.setMonitorForChanges d true

/-- Model of `KDisplayDaemon::updateOrientation`. -/
def KDisplayDaemon.updateOrientation (env : Env) (sensor : Sensor) (d : Daemon) : Daemon :=
  match d.m_monitoredConfig with
  | none => d
  | some config =>
    if !sensor.featureAutoRotation || !sensor.featureTabletMode then d
    else if !sensor.available || !sensor.enabled then d
    else if sensor.value == Orientation.Undefined then d
    else if sensor.value == Orientation.FaceUp || sensor.value == Orientation.FaceDown then d
    else
      let d :=
        { d with m_monitoredConfig := some (Config.setDeviceOrientation env config sensor.value) }
      if d.m_monitoring then KDisplayDaemon.doApplyConfig d d.m_monitoredConfig
      else { d with m_configDirty := true }

/-- The events of the apply cycle: a reading of the orientation sensor, which runs
`updateOrientation`, and the signal `finished` of a `SetConfigOperation`. -/
inductive DaemonEvent where
  | orientation (sensor : Sensor)
  | applied

/-- One step of the daemon. -/
def KDisplayDaemon.step (env : Env) (d : Daemon) : DaemonEvent → Daemon
  | .orientation sensor => KDisplayDaemon.updateOrientation env sensor d
  | .applied => KDisplayDaemon.applied d

/-- The state after a sequence of events. -/
def KDisplayDaemon.run (env : Env) (d : Daemon) (events : List DaemonEvent) : Daemon :=
  events.foldl (KDisplayDaemon.step env) d

/-! ## Example data -/

/-- An environment: a laptop with the lid open, every output retained globally, refresh rates
that are `float` values already, and `canBeApplied` accepting every configuration. -/
def exEnv : Env where
  dirPath := "/kdisplay/"
  isLaptop := true
  isLidClosed := false
  getOutputRetention := fun _ _ => Retention.Global
  getAutoRotate := fun _ => true
  getAutoRotateOnlyInTabletMode := fun _ => false
  auto_mode := fun o => o.mode
  geometry := fun o => ⟨o.position.x, o.position.y, 0, 0⟩
  isPositionable := fun o => o.enabled
  canBeApplied := fun _ => true
  toFloat := fun r => r

/-- An empty disk on which every file can be written. -/
def exFs : FileSystem where
  files := fun _ => none
  writable := fun _ => true
  mkpath := fun _ => true

/-- A mode of size 0×0 at 0 Hz. -/
def zeroMode : Mode :=
  ⟨"0", ⟨0, 0⟩, 0⟩

/-- The mode 1920×1080 at 60 Hz. -/
def fullMode : Mode :=
  ⟨"1", ⟨1920, 1080⟩, 60⟩

/-- An output whose preferred mode is `fullMode` and which also lists `zeroMode`. -/
def zeroOutput : Output where
  id := 1
  hash := "a"
  name := "DP-1"
  description := ""
  type := OutputType.DisplayPort
  connected := true
  enabled := true
  primary := false
  position := ⟨0, 0⟩
  rotation := 1
  mode := none
  modes := [zeroMode, fullMode]
  preferred_modes := ["1"]
  retention := Retention.Global

/-- The configuration of `zeroOutput` alone. -/
def zeroConfig : DismanConfig :=
  ⟨[zeroOutput], "t", ⟨0, 0⟩, false⟩

/-- An output with the single mode `fullMode`, no preferred mode, placed at (10, 20). -/
def plainOutput : Output where
  id := 1
  hash := "a"
  name := "DP-1"
  description := ""
  type := OutputType.DisplayPort
  connected := true
  enabled := true
  primary := false
  position := ⟨10, 20⟩
  rotation := 4
  mode := none
  modes := [fullMode]
  preferred_modes := []
  retention := Retention.Global

/-- The configuration of `plainOutput` alone. -/
def plainConfig : DismanConfig :=
  ⟨[plainOutput], "t", ⟨0, 0⟩, false⟩

/-- The output `plainOutput` running in `fullMode`: the configuration that is saved when the
lid closes has it at (10, 20). -/
def lidOutput : Output :=
  plainOutput.set_mode fullMode

/-- The configuration saved as the lid-opened snapshot. -/
def lidConfig : DismanConfig :=
  ⟨[lidOutput], "t", ⟨0, 0⟩, false⟩

/-- The live configuration at the time the files are read: the same output, now at
(500, 0). -/
def liveConfig : DismanConfig :=
  ⟨[lidOutput.set_position ⟨500, 0⟩], "t", ⟨0, 0⟩, false⟩

/-- A record for the output with hash "a" placed at the origin. -/
def staleRecord : QVariant :=
  .map [("id", .string "a"), ("metadata", .map [("name", .string "DP-1")]),
    ("rotation", .int 1), ("pos", .map [("x", .int 0), ("y", .int 0)]),
    ("enabled", .bool true), ("primary", .bool false)]

/-- A disk whose topology file "t" holds `staleRecord`. -/
def staleFs : FileSystem :=
  exFs.setFile "/kdisplay/t" (some (.list [staleRecord]))

/-- The positions of the outputs of a result of `readFile`. -/
def positionsOf (config : Option DismanConfig) : Option (List QPoint) :=
  config.map (fun c => c.outputs.map (fun o => o.position))

/-- The first of two identical monitors: hash "h", connector DP-1, not rotated. -/
def twinA : Output where
  id := 1
  hash := "h"
  name := "DP-1"
  description := "monitor"
  type := OutputType.DisplayPort
  connected := true
  enabled := true
  primary := true
  position := ⟨0, 0⟩
  rotation := 1
  mode := some fullMode
  modes := [fullMode]
  preferred_modes := ["1"]
  retention := Retention.Global

/-- The second of two identical monitors: hash "h", connector DP-2, rotated left. -/
def twinB : Output where
  id := 2
  hash := "h"
  name := "DP-2"
  description := "monitor"
  type := OutputType.DisplayPort
  connected := true
  enabled := true
  primary := false
  position := ⟨1920, 0⟩
  rotation := 2
  mode := some fullMode
  modes := [fullMode]
  preferred_modes := ["1"]
  retention := Retention.Global

/-- The configuration of the two identical monitors. -/
def twinConfig : DismanConfig :=
  ⟨[twinA, twinB], "tt", ⟨0, 0⟩, false⟩

/-- A monitor with the hash of `twinB` whose name is empty. -/
def unnamedTwin : Output :=
  { twinA with name := "" }

/-- The configuration of `unnamedTwin` and `twinB`. -/
def unnamedConfig : DismanConfig :=
  ⟨[unnamedTwin, twinB], "tt", ⟨0, 0⟩, false⟩

/-- A record stored for the monitor at connector DP-2. -/
def recordB : QVariant :=
  .map [("id", .string "h"), ("metadata", .map [("name", .string "DP-2")]),
    ("rotation", .int 2), ("pos", .map [("x", .int 1920), ("y", .int 0)]),
    ("enabled", .bool true), ("primary", .bool false)]

/-- A monitor with another hash, placed right of `twinA`. -/
def otherOutput : Output :=
  { twinB with hash := "b", name := "HDMI-1" }

/-- The configuration of `twinA` and `otherOutput`. -/
def pairConfig : DismanConfig :=
  ⟨[twinA, otherOutput], "p", ⟨0, 0⟩, false⟩

/-- An output without any mode. -/
def noModeOutput : Output :=
  { plainOutput with modes := [] }

/-- A disk with a fixed-config file. -/
def fixedFs : FileSystem :=
  exFs.setFile "/kdisplay/fixed-config" (some (.list [staleRecord]))

/-- A disk whose topology file "t" holds bytes that are not JSON. -/
def garbageFs : FileSystem :=
  exFs.setFile "/kdisplay/t" (some .invalid)

/-- The rotations of the outputs of a result of `readFile`. -/
def rotationsOf (config : Option DismanConfig) : Option (List Int) :=
  config.map (fun c => c.outputs.map (fun o => o.rotation))

/-- The geometry of an output at scale 1 and without rotation: its position and the size of its
mode. -/
def modeGeometry (o : Output) : QRectF :=
  match o.mode with
  | some m => ⟨o.position.x, o.position.y, m.size.width, m.size.height⟩
  | none => ⟨o.position.x, o.position.y, 0, 0⟩

/-- The environment `exEnv` with `modeGeometry` as the geometry of an output. -/
def geoEnv : Env :=
  { exEnv with geometry := modeGeometry }

/-- A stored record with a position, a mode size, scale 1 and no rotation. -/
def storedRecord (id : String) (x y width height : Int) : QVariant :=
  .map [("id", .string id), ("pos", .map [("x", .int x), ("y", .int y)]),
    ("mode", .map [("size", .map [("width", .int width), ("height", .int height)]),
      ("refresh", .double 60)]),
    ("scale", .int 1), ("rotation", .int 1)]

/-- The mode 2560×1440 at 60 Hz. -/
def wideMode : Mode :=
  ⟨"2", ⟨2560, 1440⟩, 60⟩

/-- The live output A: at (0, 0), running 2560×1440. -/
def liveA : Output :=
  { plainOutput with hash := "A", position := ⟨0, 0⟩, rotation := 1, mode := some wideMode,
                     modes := [wideMode] }

/-- The live output B: at (1920, 0), running 1920×1080. -/
def liveB : Output :=
  { plainOutput with id := 2, hash := "B", name := "DP-2", position := ⟨1920, 0⟩, rotation := 1,
                     mode := some fullMode }

/-- The live configuration of A and B. -/
def sideBySideConfig : DismanConfig :=
  ⟨[liveA, liveB], "ab", ⟨0, 0⟩, false⟩

/-- The stored records: A at (0, 0) and B at (1920, 0), both 1920×1080. -/
def sideBySideRecords : QVariantList :=
  [storedRecord "A" 0 0 1920 1080, storedRecord "B" 1920 0 1920 1080]

/-- The built-in panel of a laptop, rotated to the left. -/
def panelOutput : Output :=
  { plainOutput with hash := "panel", name := "eDP-1", type := OutputType.Panel, rotation := 2,
                     mode := some fullMode }

/-- An environment in which the panel turns with the device in tablet mode only. -/
def tabletEnv : Env :=
  { exEnv with getAutoRotateOnlyInTabletMode := fun o => o.type == OutputType.Panel }

/-- A monitor and the panel behind it in iteration order; tablet mode is not engaged. -/
def panelConfig : DismanConfig :=
  ⟨[lidOutput, panelOutput], "p", ⟨0, 0⟩, false⟩

/-- A record for the panel with hash "panel" that marks it primary. -/
def primaryRecord : QVariant :=
  .map [("id", .string "panel"), ("metadata", .map [("name", .string "eDP-1")]),
    ("rotation", .int 1), ("pos", .map [("x", .int 0), ("y", .int 0)]),
    ("enabled", .bool true), ("primary", .bool true)]

/-- A connected monitor and a disconnected one. -/
def halfConfig : DismanConfig :=
  ⟨[lidOutput, { otherOutput with connected := false }], "t", ⟨0, 0⟩, false⟩

/-- An empty disk on which the topology file "/kdisplay/t" cannot be opened for writing. -/
def lockedFs : FileSystem where
  files := fun _ => none
  writable := fun p => p != "/kdisplay/t"
  mkpath := fun _ => true

/-- The output `plainOutput` with the retention Individual. -/
def individualOutput : Output :=
  { plainOutput with retention := Retention.Individual }

/-- The configuration of `individualOutput` alone. -/
def individualConfig : DismanConfig :=
  ⟨[individualOutput], "t", ⟨0, 0⟩, false⟩

/-- A disk whose global record of the hash "a" has the rotation Right (8). -/
def globalFs : FileSystem :=
  exFs.setFile "/kdisplay/outputs/a.json"
    (some (.map [("id", .string "a"), ("rotation", .int 8)]))

/-- The environment `exEnv` with a control file that retains every output individually. -/
def individualEnv : Env :=
  { exEnv with getOutputRetention := fun _ _ => Retention.Individual }

/-- The configuration of A and B as it was stored: both 1920×1080, side by side. -/
def storedConfig : DismanConfig :=
  ⟨[liveA.set_mode fullMode, liveB], "ab", ⟨0, 0⟩, false⟩

/-- The configuration of the monitor `lidOutput`, at (10, 20), switched off. -/
def disabledConfig : DismanConfig :=
  ⟨[lidOutput.set_enabled false], "t", ⟨0, 0⟩, false⟩

/-- A sensor reading that passes every check of `updateOrientation`: top down. -/
def topDownSensor : Sensor :=
  ⟨true, true, true, true, Orientation.TopDown⟩

/-- A daemon state with an apply request outstanding and a change noted in the meantime. -/
def dirtyDaemon : Daemon :=
  ⟨some panelConfig, false, true, [some panelConfig]⟩

/-! # Theorems -/

set_option maxRecDepth 100000

/-! ## Projections of the setters -/

@[simp]
theorem Output.set_rotation_id (o : Output) (r : Int) : (o.set_rotation r).id = o.id := rfl
@[simp]
theorem Output.set_rotation_hash (o : Output) (r : Int) : (o.set_rotation r).hash = o.hash := rfl
@[simp]
theorem Output.set_rotation_name (o : Output) (r : Int) : (o.set_rotation r).name = o.name := rfl
@[simp]
theorem Output.set_rotation_description (o : Output) (r : Int) :
    (o.set_rotation r).description = o.description := rfl
@[simp]
theorem Output.set_rotation_type (o : Output) (r : Int) : (o.set_rotation r).type = o.type := rfl
@[simp]
theorem Output.set_rotation_connected (o : Output) (r : Int) :
    (o.set_rotation r).connected = o.connected := rfl
@[simp]
theorem Output.set_rotation_enabled (o : Output) (r : Int) :
    (o.set_rotation r).enabled = o.enabled := rfl
@[simp]
theorem Output.set_rotation_primary (o : Output) (r : Int) :
    (o.set_rotation r).primary = o.primary := rfl
@[simp]
theorem Output.set_rotation_position (o : Output) (r : Int) :
    (o.set_rotation r).position = o.position := rfl
@[simp]
theorem Output.set_rotation_rotation (o : Output) (r : Int) : (o.set_rotation r).rotation = r := rfl
@[simp]
theorem Output.set_rotation_mode (o : Output) (r : Int) : (o.set_rotation r).mode = o.mode := rfl
@[simp]
theorem Output.set_rotation_modes (o : Output) (r : Int) : (o.set_rotation r).modes = o.modes := rfl
@[simp]
theorem Output.set_rotation_preferred_modes (o : Output) (r : Int) :
    (o.set_rotation r).preferred_modes = o.preferred_modes := rfl
@[simp]
theorem Output.set_rotation_retention (o : Output) (r : Int) :
    (o.set_rotation r).retention = o.retention := rfl

@[simp]
theorem Output.set_mode_id (o : Output) (m : Mode) : (o.set_mode m).id = o.id := rfl
@[simp]
theorem Output.set_mode_hash (o : Output) (m : Mode) : (o.set_mode m).hash = o.hash := rfl
@[simp]
theorem Output.set_mode_name (o : Output) (m : Mode) : (o.set_mode m).name = o.name := rfl
@[simp]
theorem Output.set_mode_description (o : Output) (m : Mode) :
    (o.set_mode m).description = o.description := rfl
@[simp]
theorem Output.set_mode_type (o : Output) (m : Mode) : (o.set_mode m).type = o.type := rfl
@[simp]
theorem Output.set_mode_connected (o : Output) (m : Mode) :
    (o.set_mode m).connected = o.connected := rfl
@[simp]
theorem Output.set_mode_enabled (o : Output) (m : Mode) : (o.set_mode m).enabled = o.enabled := rfl
@[simp]
theorem Output.set_mode_primary (o : Output) (m : Mode) : (o.set_mode m).primary = o.primary := rfl
@[simp]
theorem Output.set_mode_position (o : Output) (m : Mode) :
    (o.set_mode m).position = o.position := rfl
@[simp]
theorem Output.set_mode_rotation (o : Output) (m : Mode) :
    (o.set_mode m).rotation = o.rotation := rfl
@[simp]
theorem Output.set_mode_mode (o : Output) (m : Mode) : (o.set_mode m).mode = some m := rfl
@[simp]
theorem Output.set_mode_modes (o : Output) (m : Mode) : (o.set_mode m).modes = o.modes := rfl
@[simp]
theorem Output.set_mode_preferred_modes (o : Output) (m : Mode) :
    (o.set_mode m).preferred_modes = o.preferred_modes := rfl
@[simp]
theorem Output.set_mode_retention (o : Output) (m : Mode) :
    (o.set_mode m).retention = o.retention := rfl

@[simp]
theorem Output.set_enabled_id (o : Output) (b : Bool) : (o.set_enabled b).id = o.id := rfl
@[simp]
theorem Output.set_enabled_hash (o : Output) (b : Bool) : (o.set_enabled b).hash = o.hash := rfl
@[simp]
theorem Output.set_enabled_name (o : Output) (b : Bool) : (o.set_enabled b).name = o.name := rfl
@[simp]
theorem Output.set_enabled_description (o : Output) (b : Bool) :
    (o.set_enabled b).description = o.description := rfl
@[simp]
theorem Output.set_enabled_type (o : Output) (b : Bool) : (o.set_enabled b).type = o.type := rfl
@[simp]
theorem Output.set_enabled_connected (o : Output) (b : Bool) :
    (o.set_enabled b).connected = o.connected := rfl
@[simp]
theorem Output.set_enabled_enabled (o : Output) (b : Bool) : (o.set_enabled b).enabled = b := rfl
@[simp]
theorem Output.set_enabled_primary (o : Output) (b : Bool) :
    (o.set_enabled b).primary = o.primary := rfl
@[simp]
theorem Output.set_enabled_position (o : Output) (b : Bool) :
    (o.set_enabled b).position = o.position := rfl
@[simp]
theorem Output.set_enabled_rotation (o : Output) (b : Bool) :
    (o.set_enabled b).rotation = o.rotation := rfl
@[simp]
theorem Output.set_enabled_mode (o : Output) (b : Bool) : (o.set_enabled b).mode = o.mode := rfl
@[simp]
theorem Output.set_enabled_modes (o : Output) (b : Bool) : (o.set_enabled b).modes = o.modes := rfl
@[simp]
theorem Output.set_enabled_preferred_modes (o : Output) (b : Bool) :
    (o.set_enabled b).preferred_modes = o.preferred_modes := rfl
@[simp]
theorem Output.set_enabled_retention (o : Output) (b : Bool) :
    (o.set_enabled b).retention = o.retention := rfl

@[simp]
theorem Output.set_position_id (o : Output) (p : QPoint) : (o.set_position p).id = o.id := rfl
@[simp]
theorem Output.set_position_hash (o : Output) (p : QPoint) : (o.set_position p).hash = o.hash := rfl
@[simp]
theorem Output.set_position_name (o : Output) (p : QPoint) : (o.set_position p).name = o.name := rfl
@[simp]
theorem Output.set_position_description (o : Output) (p : QPoint) :
    (o.set_position p).description = o.description := rfl
@[simp]
theorem Output.set_position_type (o : Output) (p : QPoint) : (o.set_position p).type = o.type := rfl
@[simp]
theorem Output.set_position_connected (o : Output) (p : QPoint) :
    (o.set_position p).connected = o.connected := rfl
@[simp]
theorem Output.set_position_enabled (o : Output) (p : QPoint) :
    (o.set_position p).enabled = o.enabled := rfl
@[simp]
theorem Output.set_position_primary (o : Output) (p : QPoint) :
    (o.set_position p).primary = o.primary := rfl
@[simp]
theorem Output.set_position_position (o : Output) (p : QPoint) :
    (o.set_position p).position = p := rfl
@[simp]
theorem Output.set_position_rotation (o : Output) (p : QPoint) :
    (o.set_position p).rotation = o.rotation := rfl
@[simp]
theorem Output.set_position_mode (o : Output) (p : QPoint) : (o.set_position p).mode = o.mode := rfl
@[simp]
theorem Output.set_position_modes (o : Output) (p : QPoint) :
    (o.set_position p).modes = o.modes := rfl
@[simp]
theorem Output.set_position_preferred_modes (o : Output) (p : QPoint) :
    (o.set_position p).preferred_modes = o.preferred_modes := rfl
@[simp]
theorem Output.set_position_retention (o : Output) (p : QPoint) :
    (o.set_position p).retention = o.retention := rfl

@[simp]
theorem Output.set_primary_id (o : Output) (b : Bool) : (o.set_primary b).id = o.id := rfl
@[simp]
theorem Output.set_primary_hash (o : Output) (b : Bool) : (o.set_primary b).hash = o.hash := rfl
@[simp]
theorem Output.set_primary_name (o : Output) (b : Bool) : (o.set_primary b).name = o.name := rfl
@[simp]
theorem Output.set_primary_description (o : Output) (b : Bool) :
    (o.set_primary b).description = o.description := rfl
@[simp]
theorem Output.set_primary_type (o : Output) (b : Bool) : (o.set_primary b).type = o.type := rfl
@[simp]
theorem Output.set_primary_connected (o : Output) (b : Bool) :
    (o.set_primary b).connected = o.connected := rfl
@[simp]
theorem Output.set_primary_enabled (o : Output) (b : Bool) :
    (o.set_primary b).enabled = o.enabled := rfl
@[simp]
theorem Output.set_primary_primary (o : Output) (b : Bool) : (o.set_primary b).primary = b := rfl
@[simp]
theorem Output.set_primary_position (o : Output) (b : Bool) :
    (o.set_primary b).position = o.position := rfl
@[simp]
theorem Output.set_primary_rotation (o : Output) (b : Bool) :
    (o.set_primary b).rotation = o.rotation := rfl
@[simp]
theorem Output.set_primary_mode (o : Output) (b : Bool) : (o.set_primary b).mode = o.mode := rfl
@[simp]
theorem Output.set_primary_modes (o : Output) (b : Bool) : (o.set_primary b).modes = o.modes := rfl
@[simp]
theorem Output.set_primary_preferred_modes (o : Output) (b : Bool) :
    (o.set_primary b).preferred_modes = o.preferred_modes := rfl
@[simp]
theorem Output.set_primary_retention (o : Output) (b : Bool) :
    (o.set_primary b).retention = o.retention := rfl

/-! ## Mode resolution -/

theorem Mode.noBigger_refl (m : Mode) : m.noBigger m :=
  Or.inr ⟨rfl, le_refl _⟩

theorem Mode.noBigger_trans {a b c : Mode} (h1 : a.noBigger b) (h2 : b.noBigger c) :
    a.noBigger c := by
  unfold Mode.noBigger at *
  rcases h1 with h1 | ⟨h1, h1r⟩ <;> rcases h2 with h2 | ⟨h2, h2r⟩
  · left; omega
  · left; omega
  · left; omega
  · right; exact ⟨by omega, le_trans h1r h2r⟩

theorem Mode.noBigger_of_beats {m b : Mode} (h : m.beats b = true) : b.noBigger m := by
  unfold Mode.beats at h
  unfold Mode.noBigger
  simp only [Bool.or_eq_true, decide_eq_true_eq, Bool.and_eq_true] at h
  rcases h with h | ⟨h1, h2⟩
  · left; exact h
  · right; exact ⟨h1.symm, h2⟩

theorem Mode.noBigger_of_not_beats {m b : Mode} (h : m.beats b = false) : m.noBigger b := by
  unfold Mode.beats at h
  unfold Mode.noBigger
  simp only [Bool.or_eq_false_iff, decide_eq_false_iff_not, Bool.and_eq_false_iff, not_lt] at h
  rcases h with ⟨h1, h2⟩
  rcases lt_or_eq_of_le h1 with h3 | h3
  · left; exact h3
  · right
    refine ⟨h3, ?_⟩
    rcases h2 with h2 | h2
    · exact absurd h3 h2
    · exact le_of_lt (not_le.mp h2)

/-- The step of the scan for the biggest mode. -/
theorem biggestMode_foldl_some (ms : List Mode) (a : Mode) :
    ∃ b, ms.foldl
        (fun acc m =>
          match acc with
          | none => some m
          | some b => if m.beats b then some m else some b)
        (some a) = some b ∧ (b = a ∨ b ∈ ms) ∧ a.noBigger b ∧ ∀ m ∈ ms, m.noBigger b := by
  induction ms generalizing a with
  | nil => exact ⟨a, rfl, Or.inl rfl, Mode.noBigger_refl a, by simp⟩
  | cons m ms ih =>
    simp only [List.foldl_cons]
    by_cases hb : m.beats a = true
    · simp only [hb, if_true]
      obtain ⟨b, hb1, hb2, hb3, hb4⟩ := ih m
      refine ⟨b, hb1, ?_, Mode.noBigger_trans (Mode.noBigger_of_beats hb) hb3, ?_⟩
      · rcases hb2 with h | h
        · right; simp [h]
        · right; simp [h]
      · intro x hx
        rcases List.mem_cons.mp hx with h | h
        · subst h; exact hb3
        · exact hb4 x h
    · simp only [hb]
      obtain ⟨b, hb1, hb2, hb3, hb4⟩ := ih a
      refine ⟨b, hb1, ?_, hb3, ?_⟩
      · rcases hb2 with h | h
        · left; exact h
        · right; simp [h]
      · intro x hx
        rcases List.mem_cons.mp hx with h | h
        · subst h
          exact Mode.noBigger_trans (Mode.noBigger_of_not_beats (by simpa using hb)) hb3
        · exact hb4 x h

theorem biggestMode_nil : biggestMode [] = none := rfl

theorem biggestMode_cons (m : Mode) (ms : List Mode) :
    ∃ b, biggestMode (m :: ms) = some b ∧ b ∈ m :: ms ∧ ∀ x ∈ m :: ms, x.noBigger b := by
  obtain ⟨b, hb1, hb2, hb3, hb4⟩ := biggestMode_foldl_some ms m
  refine ⟨b, ?_, ?_, ?_⟩
  · simpa [biggestMode] using hb1
  · rcases hb2 with h | h
    · simp [h]
    · simp [h]
  · intro x hx
    rcases List.mem_cons.mp hx with h | h
    · subst h; exact hb3
    · exact hb4 x h

theorem biggestMode_spec {ms : List Mode} {b : Mode} (h : biggestMode ms = some b) :
    b ∈ ms ∧ ∀ x ∈ ms, x.noBigger b := by
  cases ms with
  | nil => simp [biggestMode] at h
  | cons m ms =>
    obtain ⟨b1, h1, h2, h3⟩ := biggestMode_cons m ms
    rw [h1] at h
    cases h
    exact ⟨h2, h3⟩

theorem biggestMode_isSome {ms : List Mode} (h : ms ≠ []) : ∃ b, biggestMode ms = some b := by
  cases ms with
  | nil => exact absurd rfl h
  | cons m ms =>
    obtain ⟨b1, h1, _, _⟩ := biggestMode_cons m ms
    exact ⟨b1, h1⟩

theorem readInGlobalPartFromInfo_eq (output : Output) (info : QVariantMap) :
    output.readInGlobalPartFromInfo info =
      match chosenMode output info with
      | none => (output.set_rotation (info.value "rotation" (.int 1)).toInt).set_enabled false
      | some m => (output.set_rotation (info.value "rotation" (.int 1)).toInt).set_mode m := by
  unfold Output.readInGlobalPartFromInfo chosenMode Output.preferred_mode Output.best_mode
  simp only [Output.set_rotation_modes, Output.set_rotation_preferred_modes]
  cases output.modes.find? (modeMatches (infoSize info) (infoRefresh info)) with
  | some m => simp
  | none =>
    simp only [Option.isNone_none, if_true]
    cases biggestMode (output.modes.filter (fun m => output.preferred_modes.contains m.id)) with
    | some p => simp
    | none => simp only [Option.isNone_none, if_true]

theorem find?_modeMatches_some {ms : List Mode} {size : QSize} {refresh : ℚ} {m : Mode}
    (h : ms.find? (modeMatches size refresh) = some m) :
    m ∈ ms ∧ m.size = size ∧ qFuzzyCompare m.refresh refresh = true := by
  have h1 := List.find?_some h
  have h2 := List.mem_of_find?_eq_some h
  unfold modeMatches at h1
  simp only [Bool.not_not, Bool.and_eq_true, Bool.not_eq_true', bne_eq_false_iff_eq] at h1
  exact ⟨h2, h1.1, h1.2⟩

theorem find?_modeMatches_none {ms : List Mode} {size : QSize} {refresh : ℚ}
    (h : ms.find? (modeMatches size refresh) = none) :
    ∀ m ∈ ms, ¬ (m.size = size ∧ qFuzzyCompare m.refresh refresh = true) := by
  intro m hm hc
  have h1 := List.find?_eq_none.mp h m hm
  apply h1
  unfold modeMatches
  simp [hc.1, hc.2]

/-- C5. For every output with at least one available mode and every record,
`Output::readInGlobalPartFromInfo` installs a mode on the output and leaves its enabled flag as
it was. -/
theorem readInGlobalPartFromInfo_sets_mode (output : Output) (info : QVariantMap)
    (hmodes : output.modes ≠ []) :
    (∃ m, (output.readInGlobalPartFromInfo info).mode = some m) ∧
      (output.readInGlobalPartFromInfo info).enabled = output.enabled := by
  rw [readInGlobalPartFromInfo_eq]
  obtain ⟨b, hb⟩ := biggestMode_isSome hmodes
  have hc : ∃ m, chosenMode output info = some m := by
    unfold chosenMode
    cases output.modes.find? (modeMatches (infoSize info) (infoRefresh info)) with
    | some m => exact ⟨m, rfl⟩
    | none =>
      cases output.preferred_mode with
      | some p => exact ⟨p, rfl⟩
      | none => exact ⟨b, hb⟩
  obtain ⟨m, hm⟩ := hc
  rw [hm]
  exact ⟨⟨m, rfl⟩, rfl⟩

/-- C6. For every output with no available mode and every record,
`Output::readInGlobalPartFromInfo` returns the output with the rotation of the record, no mode
installed and the enabled flag cleared. -/
theorem readInGlobalPartFromInfo_no_modes (output : Output) (info : QVariantMap)
    (hmodes : output.modes = []) :
    output.readInGlobalPartFromInfo info =
        (output.set_rotation (info.value "rotation" (.int 1)).toInt).set_enabled false ∧
      (output.readInGlobalPartFromInfo info).mode = output.mode ∧
      (output.readInGlobalPartFromInfo info).enabled = false := by
  have hc : chosenMode output info = none := by
    unfold chosenMode Output.preferred_mode Output.best_mode
    rw [hmodes]
    rfl
  rw [readInGlobalPartFromInfo_eq, hc]
  exact ⟨rfl, rfl, rfl⟩

/-- C7. The mode `Output::readInGlobalPartFromInfo` installs is the first success of the chain:
a mode of the output with the size of the record and a refresh rate fuzzily equal to the
record's, whatever the preferred mode is; otherwise the preferred mode; otherwise the mode with
the largest area and, among those, the highest refresh rate. -/
theorem readInGlobalPartFromInfo_mode_chain (output : Output) (info : QVariantMap) :
    ((∃ m ∈ output.modes,
          m.size = infoSize info ∧ qFuzzyCompare m.refresh (infoRefresh info) = true) →
        ∃ m ∈ output.modes,
          m.size = infoSize info ∧ qFuzzyCompare m.refresh (infoRefresh info) = true ∧
            output.modes.find? (modeMatches (infoSize info) (infoRefresh info)) = some m ∧
            (output.readInGlobalPartFromInfo info).mode = some m) ∧
      ((∀ m ∈ output.modes,
          ¬ (m.size = infoSize info ∧ qFuzzyCompare m.refresh (infoRefresh info) = true)) →
        (∀ p, output.preferred_mode = some p →
          (output.readInGlobalPartFromInfo info).mode = some p) ∧
        (output.preferred_mode = none → output.modes ≠ [] →
          ∃ b ∈ output.modes, output.best_mode = some b ∧
            (output.readInGlobalPartFromInfo info).mode = some b ∧
            ∀ m ∈ output.modes,
              m.area < b.area ∨ (m.area = b.area ∧ m.refresh ≤ b.refresh))) := by
  constructor
  · rintro ⟨m, hm, hsize, hfuzzy⟩
    cases hfind : output.modes.find? (modeMatches (infoSize info) (infoRefresh info)) with
    | none => exact absurd ⟨hsize, hfuzzy⟩ (find?_modeMatches_none hfind m hm)
    | some m1 =>
      obtain ⟨h1, h2, h3⟩ := find?_modeMatches_some hfind
      refine ⟨m1, h1, h2, h3, rfl, ?_⟩
      rw [readInGlobalPartFromInfo_eq]
      simp [chosenMode, hfind]
  · intro hnone
    have hfind : output.modes.find? (modeMatches (infoSize info) (infoRefresh info)) = none := by
      cases hfind : output.modes.find? (modeMatches (infoSize info) (infoRefresh info)) with
      | none => rfl
      | some m1 =>
        obtain ⟨h1, h2, h3⟩ := find?_modeMatches_some hfind
        exact absurd ⟨h2, h3⟩ (hnone m1 h1)
    constructor
    · intro p hp
      rw [readInGlobalPartFromInfo_eq]
      simp [chosenMode, hfind, hp]
    · intro hp hmodes
      obtain ⟨b, hb⟩ := biggestMode_isSome hmodes
      obtain ⟨hb1, hb2⟩ := biggestMode_spec hb
      refine ⟨b, hb1, hb, ?_, hb2⟩
      rw [readInGlobalPartFromInfo_eq]
      have : output.best_mode = some b := hb
      simp [chosenMode, hfind, hp, this]

/-! ## Matching of records to outputs -/

theorem mem_duplicateIdsLoop (h : String) (rest : List Output) :
    ∀ allIds dup : List String,
      (h ∈ duplicateIdsLoop allIds dup rest ↔
        h ∈ dup ∨ (h ∈ rest.map Output.hash ∧
          (h ∈ allIds ∨ 2 ≤ (rest.map Output.hash).count h))) := by
  induction rest with
  | nil => intro allIds dup; simp [duplicateIdsLoop]
  | cons o rest ih =>
    intro allIds dup
    simp only [duplicateIdsLoop, List.map_cons, List.mem_cons, List.count_cons]
    rw [ih]
    have hc : 1 ≤ (rest.map Output.hash).count h ↔ h ∈ rest.map Output.hash :=
      List.one_le_count_iff
    by_cases hh : o.hash = h
    · subst hh
      by_cases h1 : o.hash ∈ allIds <;> by_cases h2 : o.hash ∈ dup <;>
        by_cases h3 : o.hash ∈ rest.map Output.hash <;>
        simp [h1, h2, h3]
    · have hh2 : ¬ h = o.hash := fun e => hh e.symm
      by_cases h1 : o.hash ∈ allIds <;> by_cases h2 : o.hash ∈ dup <;>
        simp [h1, h2, hh, hh2]

theorem mem_duplicateIds (h : String) (outputs : List Output) :
    h ∈ duplicateIds outputs ↔ 2 ≤ (outputs.map Output.hash).count h := by
  unfold duplicateIds
  rw [mem_duplicateIdsLoop]
  simp only [List.not_mem_nil, false_or]
  constructor
  · rintro ⟨_, h2⟩; exact h2
  · intro h2
    exact ⟨List.one_le_count_iff.mp (by omega), h2⟩

theorem contains_duplicateIds_perm {outputs1 outputs2 : List Output}
    (hperm : outputs1.Perm outputs2) (h : String) :
    (duplicateIds outputs1).contains h = (duplicateIds outputs2).contains h := by
  have hc : (outputs1.map Output.hash).count h = (outputs2.map Output.hash).count h :=
    (hperm.map Output.hash).count_eq h
  have e : h ∈ duplicateIds outputs1 ↔ h ∈ duplicateIds outputs2 := by
    rw [mem_duplicateIds, mem_duplicateIds, hc]
  by_cases h1 : h ∈ duplicateIds outputs1
  · have h2 := e.mp h1
    simp [h1, h2]
  · have h2 : h ∉ duplicateIds outputs2 := fun x => h1 (e.mpr x)
    simp [h1, h2]

theorem infoMatches_named_duplicate {dup : List String} {output : Output}
    (hname : output.name ≠ "") (hdup : output.hash ∈ dup) (info : QVariantMap) :
    infoMatches dup output info = true ↔
      infoId info = output.hash ∧ infoName info = output.name := by
  unfold infoMatches infoId infoName
  by_cases h1 : output.hash = (info.get "id").toString
  · by_cases h2 : output.name = (((info.get "metadata").toMap).get "name").toString
    · simp [← h1, ← h2, hname, hdup]
    · have h3 : ¬ (((info.get "metadata").toMap).get "name").toString = output.name :=
        fun e => h2 e.symm
      simp [← h1, h2, h3, hname, hdup]
  · have h3 : ¬ (info.get "id").toString = output.hash := fun e => h1 e.symm
    simp [h1, h3]

theorem infoMatches_id {dup : List String} {output : Output} {info : QVariantMap}
    (h : infoMatches dup output info = true) : infoId info = output.hash := by
  unfold infoMatches at h
  unfold infoId
  by_cases h1 : output.hash = (info.get "id").toString
  · exact h1.symm
  · simp [h1] at h

theorem infoMatches_congr {dup1 dup2 : List String} (output : Output)
    (h : dup1.contains output.hash = dup2.contains output.hash) :
    infoMatches dup1 output = infoMatches dup2 output := by
  funext info
  unfold infoMatches
  rw [h]

/-- C8, amended. For every live output with a non-empty name whose identity hash occurs more
than once among the live outputs, the record `Output::readInOutputs` reads in for it is a
record of the list with the same hash and with a stored name equal to the name of the output,
and the output is unmatched exactly when no record of the list satisfies both conditions. -/
theorem findInfo_duplicate_hash (outputs : List Output) (output : Output)
    (outputsInfo : QVariantList) (hname : output.name ≠ "")
    (hdup : 2 ≤ (outputs.map Output.hash).count output.hash) :
    (∀ info, findInfo (duplicateIds outputs) output outputsInfo = some info →
        info ∈ outputsInfo.map QVariant.toMap ∧ infoId info = output.hash ∧
          infoName info = output.name) ∧
      (findInfo (duplicateIds outputs) output outputsInfo = none ↔
        ∀ info ∈ outputsInfo.map QVariant.toMap,
          ¬ (infoId info = output.hash ∧ infoName info = output.name)) := by
  have hmem : output.hash ∈ duplicateIds outputs := (mem_duplicateIds _ _).mpr hdup
  constructor
  · intro info hfind
    have h1 := List.find?_some hfind
    have h2 := List.mem_of_find?_eq_some hfind
    exact ⟨h2, (infoMatches_named_duplicate hname hmem info).mp h1⟩
  · unfold findInfo
    rw [List.find?_eq_none]
    constructor
    · intro h info hinfo hc
      exact h info hinfo ((infoMatches_named_duplicate hname hmem info).mpr hc)
    · intro h info hinfo hc
      exact h info hinfo ((infoMatches_named_duplicate hname hmem info).mp hc)

/-! ## The loop of `readInOutputs` -/

theorem Output.set_primary_set_primary (o : Output) (a b : Bool) :
    (o.set_primary a).set_primary b = o.set_primary b := rfl

theorem Output.set_rotation_set_primary (o : Output) (r : Int) (b : Bool) :
    (o.set_primary b).set_rotation r = (o.set_rotation r).set_primary b := rfl

theorem Output.set_mode_set_primary (o : Output) (m : Mode) (b : Bool) :
    (o.set_primary b).set_mode m = (o.set_mode m).set_primary b := rfl

theorem Output.set_enabled_set_primary (o : Output) (e : Bool) (b : Bool) :
    (o.set_primary b).set_enabled e = (o.set_enabled e).set_primary b := rfl

theorem Output.set_position_set_primary (o : Output) (p : QPoint) (b : Bool) :
    (o.set_primary b).set_position p = (o.set_position p).set_primary b := rfl

theorem readInGlobalPartFromInfo_primary (o : Output) (b : Bool) (info : QVariantMap) :
    (o.set_primary b).readInGlobalPartFromInfo info =
      (o.readInGlobalPartFromInfo info).set_primary b := by
  rw [readInGlobalPartFromInfo_eq, readInGlobalPartFromInfo_eq]
  have hc : chosenMode (o.set_primary b) info = chosenMode o info := rfl
  rw [hc]
  cases chosenMode o info <;> rfl

theorem readInGlobal_primary (env : Env) (fs : FileSystem) (o : Output) (b : Bool) :
    Output.readInGlobal env fs (o.set_primary b) =
      ((Output.readInGlobal env fs o).1.set_primary b, (Output.readInGlobal env fs o).2) := by
  unfold Output.readInGlobal
  have hg : Output.getGlobalData env fs (o.set_primary b) = Output.getGlobalData env fs o := rfl
  rw [hg]
  by_cases h : (Output.getGlobalData env fs o).isEmpty = true
  · simp [h]
  · simp [h, readInGlobalPartFromInfo_primary]

theorem readIn_primary (env : Env) (fs : FileSystem) (o : Output) (b : Bool)
    (info : QVariantMap) (r : Retention) :
    Output.readIn env fs (o.set_primary b) info r =
      ((Output.readIn env fs o info r).1.set_primary b, (Output.readIn env fs o info r).2) := by
  unfold Output.readIn
  simp only [Output.set_position_set_primary, Output.set_enabled_set_primary,
    readInGlobal_primary, readInGlobalPartFromInfo_primary]
  split <;> rfl

theorem readInOutput_primary (env : Env) (fs : FileSystem) (dup : List String)
    (outputsInfo : QVariantList) (o : Output) (b : Bool) :
    readInOutput env fs dup outputsInfo (o.set_primary b) =
      ((readInOutput env fs dup outputsInfo o).1.set_primary b,
        (readInOutput env fs dup outputsInfo o).2) := by
  unfold readInOutput
  have hf : findInfo dup (o.set_primary b) outputsInfo = findInfo dup o outputsInfo := rfl
  rw [hf]
  cases findInfo dup o outputsInfo with
  | some info => exact readIn_primary env fs o b info o.retention
  | none =>
    simp only []
    rw [readInGlobal_primary, readInGlobalPartFromInfo_primary]
    split <;> rfl

theorem readInOutputsLoop_map (step : Output → Output × Bool)
    (hstep : ∀ o b, step (o.set_primary b) = ((step o).1.set_primary b, (step o).2))
    (todo : List Output) :
    ∀ (cleared : Bool) (done : List Output),
      (readInOutputsLoop step cleared done todo).map Output.clearPrimary =
        done.map Output.clearPrimary ++ todo.map (fun o => Output.clearPrimary (step o).1) := by
  induction todo with
  | nil => intro cleared done; simp [readInOutputsLoop]
  | cons next todo ih =>
    intro cleared done
    have hcur : ∀ c : Bool,
        (step (if c then next.set_primary false else next)).2 = (step next).2 ∧
        Output.clearPrimary (step (if c then next.set_primary false else next)).1 =
          Output.clearPrimary (step next).1 := by
      intro c
      cases c
      · exact ⟨rfl, rfl⟩
      · rw [if_pos rfl, hstep]
        exact ⟨rfl, rfl⟩
    simp only [readInOutputsLoop]
    by_cases hp : (step (if cleared then next.set_primary false else next)).2 = true
    · rw [if_pos hp, ih]
      simp only [List.map_append, List.map_map, List.map_cons, List.map_nil, List.append_assoc,
        List.singleton_append]
      have e1 : (Output.clearPrimary ∘ fun o => o.set_primary false) = Output.clearPrimary := by
        funext o; rfl
      have e2 : Output.clearPrimary
          ((step (if cleared then next.set_primary false else next)).1.set_primary true) =
          Output.clearPrimary (step next).1 := by
        rw [← (hcur cleared).2]; rfl
      rw [e1, e2]
    · rw [if_neg hp, ih]
      simp only [List.map_append, List.map_cons, List.map_nil, List.append_assoc,
        List.singleton_append]
      rw [(hcur cleared).2]

theorem readInOutputs_map (env : Env) (fs : FileSystem) (config : DismanConfig)
    (outputsInfo : QVariantList) :
    (Output.readInOutputs env fs config outputsInfo).outputs.map Output.clearPrimary =
      config.outputs.map (fun o =>
        Output.clearPrimary
          (readInOutput env fs (duplicateIds config.outputs) outputsInfo o).1) := by
  unfold Output.readInOutputs
  simp only []
  rw [readInOutputsLoop_map _ (readInOutput_primary env fs _ outputsInfo)]
  simp

theorem readInOutputs_getElem? (env : Env) (fs : FileSystem) (config : DismanConfig)
    (outputsInfo : QVariantList) (i : Nat) (o : Output) (hi : config.outputs[i]? = some o) :
    ∃ o1, (Output.readInOutputs env fs config outputsInfo).outputs[i]? = some o1 ∧
      Output.clearPrimary o1 =
        Output.clearPrimary
          (readInOutput env fs (duplicateIds config.outputs) outputsInfo o).1 := by
  have h := congrArg (fun l => l[i]?) (readInOutputs_map env fs config outputsInfo)
  simp only [List.getElem?_map, hi, Option.map_some'] at h
  cases hr : (Output.readInOutputs env fs config outputsInfo).outputs[i]? with
  | none => rw [hr] at h; simp at h
  | some o1 =>
    rw [hr] at h
    simp only [Option.map_some', Option.some.injEq] at h
    exact ⟨o1, rfl, h⟩

/-- C9. The record `Output::readInOutputs` reads in for a live output, or the fact that there
is none, and with it the whole effect of the loop body on that output, is the same for every
ordering of the live outputs; the outputs after the call are, up to the primary flag, the same
outputs in the other order. -/
theorem findInfo_order_independent (env : Env) (fs : FileSystem) (config1 config2 : DismanConfig)
    (hperm : config1.outputs.Perm config2.outputs) (outputsInfo : QVariantList) :
    (∀ output : Output,
      findInfo (duplicateIds config1.outputs) output outputsInfo =
          findInfo (duplicateIds config2.outputs) output outputsInfo ∧
        readInOutput env fs (duplicateIds config1.outputs) outputsInfo output =
          readInOutput env fs (duplicateIds config2.outputs) outputsInfo output) ∧
      ((Output.readInOutputs env fs config1 outputsInfo).outputs.map Output.clearPrimary).Perm
        ((Output.readInOutputs env fs config2 outputsInfo).outputs.map Output.clearPrimary) := by
  have key : ∀ output : Output,
      findInfo (duplicateIds config1.outputs) output outputsInfo =
          findInfo (duplicateIds config2.outputs) output outputsInfo ∧
        readInOutput env fs (duplicateIds config1.outputs) outputsInfo output =
          readInOutput env fs (duplicateIds config2.outputs) outputsInfo output := by
    intro output
    have h := infoMatches_congr output (contains_duplicateIds_perm hperm output.hash)
    have hf : findInfo (duplicateIds config1.outputs) output outputsInfo =
        findInfo (duplicateIds config2.outputs) output outputsInfo := by
      unfold findInfo
      rw [h]
    refine ⟨hf, ?_⟩
    unfold readInOutput
    rw [hf]
  refine ⟨key, ?_⟩
  rw [readInOutputs_map, readInOutputs_map]
  have hfun : (fun o => Output.clearPrimary
      (readInOutput env fs (duplicateIds config1.outputs) outputsInfo o).1) =
      (fun o => Output.clearPrimary
        (readInOutput env fs (duplicateIds config2.outputs) outputsInfo o).1) := by
    funext o
    rw [(key o).2]
  rw [hfun]
  exact hperm.map _

/-! ## Unmatched outputs -/

theorem clearPrimary_fields {a b : Output} (h : Output.clearPrimary a = Output.clearPrimary b) :
    a.position = b.position ∧ a.rotation = b.rotation ∧ a.mode = b.mode ∧
      a.enabled = b.enabled := by
  have h1 := congrArg Output.position h
  have h2 := congrArg Output.rotation h
  have h3 := congrArg Output.mode h
  have h4 := congrArg Output.enabled h
  exact ⟨h1, h2, h3, h4⟩

theorem readInGlobalPartFromInfo_position (o : Output) (info : QVariantMap) :
    (o.readInGlobalPartFromInfo info).position = o.position := by
  rw [readInGlobalPartFromInfo_eq]
  cases chosenMode o info <;> rfl

theorem readInGlobalPartFromInfo_rotation (o : Output) (info : QVariantMap) :
    (o.readInGlobalPartFromInfo info).rotation = (info.value "rotation" (.int 1)).toInt := by
  rw [readInGlobalPartFromInfo_eq]
  cases chosenMode o info <;> rfl

theorem readInOutput_unmatched (env : Env) (fs : FileSystem) (dup : List String)
    (outputsInfo : QVariantList) (o : Output) (hun : findInfo dup o outputsInfo = none) :
    (readInOutput env fs dup outputsInfo o).1 =
      if (Output.getGlobalData env fs o).isEmpty then o.readInGlobalPartFromInfo []
      else o.readInGlobalPartFromInfo (Output.getGlobalData env fs o) := by
  unfold readInOutput
  rw [hun]
  unfold Output.readInGlobal
  by_cases h : (Output.getGlobalData env fs o).isEmpty = true
  · simp [h]
  · simp [h]

/-- C10, amended. For every live output that `Output::readInOutputs` leaves unmatched the
position is left unchanged. If the global record of its hash is not empty, rotation, mode and
enabled state are those `readInGlobalPartFromInfo` resolves from that record. Otherwise the
rotation becomes None (1) and, provided no mode of the output has size 0×0 with a refresh rate
fuzzily equal to 0, the mode is the preferred mode, else the biggest mode, else the output is
disabled. -/
theorem readInOutputs_unmatched (env : Env) (fs : FileSystem) (config : DismanConfig)
    (outputsInfo : QVariantList) (i : Nat) (o : Output)
    (hi : config.outputs[i]? = some o)
    (hun : findInfo (duplicateIds config.outputs) o outputsInfo = none) :
    ∃ o1, (Output.readInOutputs env fs config outputsInfo).outputs[i]? = some o1 ∧
      o1.position = o.position ∧
      (Output.getGlobalData env fs o ≠ [] →
        o1.rotation = (o.readInGlobalPartFromInfo (Output.getGlobalData env fs o)).rotation ∧
        o1.mode = (o.readInGlobalPartFromInfo (Output.getGlobalData env fs o)).mode ∧
        o1.enabled = (o.readInGlobalPartFromInfo (Output.getGlobalData env fs o)).enabled) ∧
      (Output.getGlobalData env fs o = [] →
        o1.rotation = 1 ∧
        ((∀ m ∈ o.modes, ¬ (m.size = ⟨0, 0⟩ ∧ qFuzzyCompare m.refresh 0 = true)) →
          (∀ p, o.preferred_mode = some p → o1.mode = some p ∧ o1.enabled = o.enabled) ∧
          (o.preferred_mode = none → ∀ b, o.best_mode = some b →
            o1.mode = some b ∧ o1.enabled = o.enabled) ∧
          (o.preferred_mode = none → o.best_mode = none →
            o1.mode = o.mode ∧ o1.enabled = false))) := by
  obtain ⟨o1, h1, h2⟩ := readInOutputs_getElem? env fs config outputsInfo i o hi
  rw [readInOutput_unmatched env fs _ outputsInfo o hun] at h2
  obtain ⟨hpos, hrot, hmode, hen⟩ := clearPrimary_fields h2
  refine ⟨o1, h1, ?_, ?_, ?_⟩
  · rw [hpos]
    split <;> exact readInGlobalPartFromInfo_position _ _
  · intro hg
    have he : (Output.getGlobalData env fs o).isEmpty = false := by
      cases hd : Output.getGlobalData env fs o with
      | nil => exact absurd hd hg
      | cons a l => rfl
    rw [he] at hrot hmode hen
    exact ⟨hrot, hmode, hen⟩
  · intro hg
    have he : (Output.getGlobalData env fs o).isEmpty = true := by rw [hg]; rfl
    rw [he] at hrot hmode hen
    simp only [if_true] at hrot hmode hen
    refine ⟨?_, ?_⟩
    · rw [hrot, readInGlobalPartFromInfo_rotation]; rfl
    · intro hz
      have hfind : o.modes.find? (modeMatches (infoSize []) (infoRefresh [])) = none := by
        rw [List.find?_eq_none]
        intro m hm hc
        have hc2 := @find?_modeMatches_some [m] (infoSize []) (infoRefresh []) m
          (by simp [List.find?, hc])
        exact hz m hm ⟨hc2.2.1, hc2.2.2⟩
      rw [hmode, hen, readInGlobalPartFromInfo_eq]
      refine ⟨?_, ?_, ?_⟩
      · intro p hp
        simp [chosenMode, hfind, hp]
      · intro hp b hb
        simp [chosenMode, hfind, hp, hb]
      · intro hp hb
        simp [chosenMode, hfind, hp, hb]

/-- C10, as stated, fails: `zeroOutput` is unmatched and has no global record, its preferred
mode is `fullMode`, and yet `readInOutputs` installs `zeroMode`, the mode of size 0×0 at 0 Hz
that equals the target read from the empty record. -/
theorem readInOutputs_unmatched_zero_mode :
    (findInfo (duplicateIds zeroConfig.outputs) zeroOutput []).isNone = true ∧
      (Output.getGlobalData exEnv exFs zeroOutput).isEmpty = true ∧
      zeroOutput.preferred_mode = some fullMode ∧
      (Output.readInOutputs exEnv exFs zeroConfig []).outputs.map (fun o => o.mode) =
        [some zeroMode] := by
  refine ⟨by decide, by decide, ?_, ?_⟩
  · with_unfolding_all decide
  · with_unfolding_all decide

/-- Witness for `readInOutputs_unmatched`: `plainOutput` at (10, 20) with no record and no
global file keeps its position. -/
theorem readInOutputs_unmatched_witness :
    ∃ o1, (Output.readInOutputs exEnv exFs plainConfig []).outputs[0]? = some o1 ∧
      o1.position = ⟨10, 20⟩ :=
  (readInOutputs_unmatched exEnv exFs plainConfig [] 0 plainOutput rfl rfl).imp
    (fun _ h => ⟨h.1, h.2.1⟩)

/-! ## Reading a configuration file -/

theorem getGlobalData_congr (env : Env) {fs1 fs2 : FileSystem} (o : Output)
    (h : fs1.read (Output.path env o.hash) = fs2.read (Output.path env o.hash)) :
    Output.getGlobalData env fs1 o = Output.getGlobalData env fs2 o := by
  unfold Output.getGlobalData
  rw [h]

theorem readInGlobal_congr (env : Env) {fs1 fs2 : FileSystem} (o : Output)
    (h : fs1.read (Output.path env o.hash) = fs2.read (Output.path env o.hash)) :
    Output.readInGlobal env fs1 o = Output.readInGlobal env fs2 o := by
  unfold Output.readInGlobal
  rw [getGlobalData_congr env o h]

theorem readIn_congr (env : Env) {fs1 fs2 : FileSystem} (o : Output) (info : QVariantMap)
    (r : Retention)
    (h : fs1.read (Output.path env o.hash) = fs2.read (Output.path env o.hash)) :
    Output.readIn env fs1 o info r = Output.readIn env fs2 o info r := by
  unfold Output.readIn
  simp only []
  rw [readInGlobal_congr env _ (by simpa using h)]

theorem readInOutput_congr (env : Env) {fs1 fs2 : FileSystem} (dup : List String)
    (outputsInfo : QVariantList) (o : Output)
    (h : fs1.read (Output.path env o.hash) = fs2.read (Output.path env o.hash)) :
    readInOutput env fs1 dup outputsInfo o = readInOutput env fs2 dup outputsInfo o := by
  unfold readInOutput
  rw [readInGlobal_congr env o h]
  cases findInfo dup o outputsInfo with
  | some info => exact readIn_congr env o info o.retention h
  | none => rfl

theorem readInOutputsLoop_congr (step1 step2 : Output → Output × Bool) (todo : List Output)
    (h : ∀ o ∈ todo, ∀ b, step1 o = step2 o ∧ step1 (o.set_primary b) = step2 (o.set_primary b)) :
    ∀ (cleared : Bool) (done : List Output),
      readInOutputsLoop step1 cleared done todo = readInOutputsLoop step2 cleared done todo := by
  induction todo with
  | nil => intro cleared done; rfl
  | cons next todo ih =>
    intro cleared done
    have hn : step1 (if cleared then next.set_primary false else next) =
        step2 (if cleared then next.set_primary false else next) := by
      cases cleared
      · exact (h next (List.mem_cons_self _ _) false).1
      · exact (h next (List.mem_cons_self _ _) false).2
    have ih2 := ih (fun o ho b => h o (List.mem_cons_of_mem _ ho) b)
    simp only [readInOutputsLoop]
    rw [hn, ih2, ih2]

theorem readInOutputs_congr (env : Env) {fs1 fs2 : FileSystem} (config : DismanConfig)
    (outputsInfo : QVariantList)
    (h : ∀ o ∈ config.outputs,
      fs1.read (Output.path env o.hash) = fs2.read (Output.path env o.hash)) :
    Output.readInOutputs env fs1 config outputsInfo =
      Output.readInOutputs env fs2 config outputsInfo := by
  unfold Output.readInOutputs
  rw [readInOutputsLoop_congr _ _ config.outputs]
  intro o ho b
  exact ⟨readInOutput_congr env _ _ o (h o ho),
    readInOutput_congr env _ _ (o.set_primary b) (h o ho)⟩

theorem applyRecords_congr (env : Env) {fs1 fs2 : FileSystem} (data : DismanConfig)
    (outputsInfo : QVariantList)
    (h : ∀ o ∈ data.outputs,
      fs1.read (Output.path env o.hash) = fs2.read (Output.path env o.hash)) :
    Config.applyRecords env fs1 data outputsInfo =
      Config.applyRecords env fs2 data outputsInfo := by
  unfold Config.applyRecords
  rw [readInOutputs_congr env data outputsInfo h]

theorem FileSystem.fileExists_eq_true {fs : FileSystem} {path : String}
    (h : fs.fileExists path = true) :
    ∃ doc, fs.read path = some doc ∧ fs.files path = some doc := by
  unfold FileSystem.fileExists at h
  simp only [Bool.and_eq_true, bne_iff_ne, ne_eq] at h
  obtain ⟨h1, h2⟩ := h
  obtain ⟨doc, hdoc⟩ := Option.isSome_iff_exists.mp h2
  exact ⟨doc, by simp [FileSystem.read, h1, hdoc], hdoc⟩

@[simp]
theorem FileSystem.setFile_writable (fs : FileSystem) (p : String)
    (v : Option QVariant) : (fs.setFile p v).writable = fs.writable := rfl

@[simp]
theorem FileSystem.setFile_mkpath (fs : FileSystem) (p : String)
    (v : Option QVariant) : (fs.setFile p v).mkpath = fs.mkpath := rfl

theorem FileSystem.setFile_files_same (fs : FileSystem) (p : String) (v : Option QVariant) :
    (fs.setFile p v).files p = v := by
  simp [FileSystem.setFile]

theorem FileSystem.setFile_files_ne (fs : FileSystem) (p q : String) (v : Option QVariant)
    (h : q ≠ p) : (fs.setFile p v).files q = fs.files q := by
  simp [FileSystem.setFile, Function.update_noteq h]

theorem FileSystem.read_setFile_ne (fs : FileSystem) (p q : String) (v : Option QVariant)
    (h : q ≠ p) : (fs.setFile p v).read q = fs.read q := by
  unfold FileSystem.read
  rw [FileSystem.setFile_files_ne _ _ _ _ h]

theorem FileSystem.fileExists_setFile_ne (fs : FileSystem) (p q : String) (v : Option QVariant)
    (h : q ≠ p) : (fs.setFile p v).fileExists q = fs.fileExists q := by
  unfold FileSystem.fileExists
  rw [FileSystem.setFile_files_ne _ _ _ _ h]

/-- C2. Whenever the fixed-config file exists, `Config::readFile(fileName)` gives for every
file name the result of reading the records of the fixed-config file into the configuration,
and the content of the file named `fileName` has no influence on it. -/
theorem readFile_fixed_config (env : Env) (fs : FileSystem) (m_data : Option DismanConfig)
    (fileName : String)
    (hfixed : fs.fileExists (Config.configsDirPath env ++ Config.s_fixedConfigFileName) = true) :
    (∃ doc, fs.files (Config.configsDirPath env ++ Config.s_fixedConfigFileName) = some doc ∧
        Config.readFile env fs m_data fileName =
          m_data.bind (fun data => Config.applyRecords env fs data doc.toList)) ∧
      (∀ otherName, Config.readFile env fs m_data fileName =
        Config.readFile env fs m_data otherName) ∧
      (∀ content : Option QVariant,
        Config.configsDirPath env ++ fileName ≠
            Config.configsDirPath env ++ Config.s_fixedConfigFileName →
        (∀ data, m_data = some data → ∀ o ∈ data.outputs,
            Output.path env o.hash ≠ Config.configsDirPath env ++ fileName) →
        Config.readFile env (fs.setFile (Config.configsDirPath env ++ fileName) content) m_data
            fileName =
          Config.readFile env fs m_data fileName) := by
  obtain ⟨doc, hread, hfiles⟩ := FileSystem.fileExists_eq_true hfixed
  have key : ∀ name, Config.readFile env fs m_data name =
      m_data.bind (fun data => Config.applyRecords env fs data doc.toList) := by
    intro name
    unfold Config.readFile
    cases m_data with
    | none => rfl
    | some data => simp [hfixed, hread]
  refine ⟨⟨doc, hfiles, key fileName⟩, ?_, ?_⟩
  · intro otherName
    rw [key fileName, key otherName]
  · intro content hne hglob
    rw [key fileName]
    unfold Config.readFile
    cases m_data with
    | none => rfl
    | some data =>
      have hne2 : Config.configsDirPath env ++ Config.s_fixedConfigFileName ≠
          Config.configsDirPath env ++ fileName := fun e => hne e.symm
      simp only [FileSystem.fileExists_setFile_ne _ _ _ _ hne2, hfixed, if_true,
        FileSystem.read_setFile_ne _ _ _ _ hne2, hread, Option.bind_some]
      apply applyRecords_congr
      intro o ho
      exact FileSystem.read_setFile_ne _ _ _ _ (hglob data rfl o ho)

/-- C3, amended. With no fixed-config file, `Config::readFile(fileName)` returns `nullptr`
when the file cannot be opened. When the file is there and its content is no JSON array, the
record list is empty and the call returns what reading an empty record list into the
configuration gives, which is `nullptr` only when `canBeApplied` rejects the result. -/
theorem readFile_missing_or_unparsable (env : Env) (fs : FileSystem) (data : DismanConfig)
    (fileName : String)
    (hnofixed :
      fs.fileExists (Config.configsDirPath env ++ Config.s_fixedConfigFileName) = false) :
    (fs.read (Config.configsDirPath env ++ fileName) = none →
        Config.readFile env fs (some data) fileName = none) ∧
      (∀ doc, fs.read (Config.configsDirPath env ++ fileName) = some doc → doc.toList = [] →
        Config.readFile env fs (some data) fileName = Config.applyRecords env fs data [] ∧
        (Config.readFile env fs (some data) fileName = none ↔
          env.canBeApplied
            { Output.readInOutputs env fs data [] with
              screenSize := screenSizeLoop env (Output.readInOutputs env fs data []).outputs } =
            false)) := by
  constructor
  · intro h
    unfold Config.readFile
    simp [hnofixed, h]
  · intro doc h hl
    have e : Config.readFile env fs (some data) fileName = Config.applyRecords env fs data [] := by
      unfold Config.readFile
      simp [hnofixed, h, hl]
    refine ⟨e, ?_⟩
    rw [e]
    unfold Config.applyRecords
    simp only []
    cases env.canBeApplied
      { Output.readInOutputs env fs data [] with
        screenSize := screenSizeLoop env (Output.readInOutputs env fs data []).outputs } <;> simp

/-! ## Paths -/

theorem string_append_left_cancel {a b c : String} (h : a ++ b = a ++ c) : b = c := by
  have h1 := congrArg String.data h
  simp only [String.data_append] at h1
  exact String.ext (List.append_cancel_left h1)

theorem string_append_right_cancel {a b c : String} (h : a ++ c = b ++ c) : a = b := by
  have h1 := congrArg String.data h
  simp only [String.data_append] at h1
  exact String.ext (List.append_cancel_right h1)

theorem string_append_ne_empty {a b : String} (h : b ≠ "") : a ++ b ≠ "" := by
  intro e
  apply h
  have h1 := congrArg String.data e
  simp only [String.data_append] at h1
  have h2 : b.data = [] := (List.append_eq_nil.mp h1).2
  exact String.ext h2

theorem lidOpened_ne_self (t : String) : t ++ "_lidOpened" ≠ t := by
  intro e
  have h1 := congrArg String.length e
  simp only [String.length_append] at h1
  have h2 : "_lidOpened".length = 10 := by decide
  omega

theorem lidOpened_ne_fixed (dir id : String) :
    dir ++ id ++ "_lidOpened" ≠ dir ++ "fixed-config" := by
  intro e
  rw [String.append_assoc] at e
  have h1 := congrArg (fun s => s.data.reverse.head?) (string_append_left_cancel e)
  simp only [String.data_append, List.reverse_append] at h1
  have h2 : ∀ l : List Char,
      (['_', 'l', 'i', 'd', 'O', 'p', 'e', 'n', 'e', 'd'].reverse ++ l).head? = some 'd' :=
    fun _ => rfl
  rw [h2] at h1
  revert h1
  decide

/-! ## Operations on files keep `writable` and `mkpath` -/

theorem FileSystem.write_eq_some {fs fs1 : FileSystem} {p : String} {v : QVariant}
    (h : fs.write p v = some fs1) :
    fs1 = fs.setFile p (some v) ∧ p ≠ "" ∧ fs.writable p = true := by
  unfold FileSystem.write at h
  by_cases hc : (p != "" && fs.writable p) = true
  · rw [if_pos hc] at h
    simp only [Bool.and_eq_true, bne_iff_ne, ne_eq] at hc
    exact ⟨(Option.some.inj h).symm, hc.1, hc.2⟩
  · rw [if_neg hc] at h
    cases h

theorem FileSystem.write_of_writable (fs : FileSystem) (p : String) (v : QVariant)
    (hp : p ≠ "") (hw : fs.writable p = true) : fs.write p v = some (fs.setFile p (some v)) := by
  unfold FileSystem.write
  simp [hp, hw]

theorem FileSystem.remove_writable (fs : FileSystem) (p : String) :
    (fs.remove p).writable = fs.writable := by
  unfold FileSystem.remove
  split <;> rfl

theorem FileSystem.remove_mkpath (fs : FileSystem) (p : String) :
    (fs.remove p).mkpath = fs.mkpath := by
  unfold FileSystem.remove
  split <;> rfl

theorem FileSystem.copy_eq_some {fs fs1 : FileSystem} {src dst : String}
    (h : fs.copy src dst = some fs1) : fs1.writable = fs.writable ∧ fs1.mkpath = fs.mkpath := by
  unfold FileSystem.copy at h
  cases hr : fs.read src with
  | none => rw [hr] at h; cases h
  | some v =>
    rw [hr] at h
    simp only [] at h
    split at h
    · cases h; exact ⟨rfl, rfl⟩
    · cases h

theorem writeGlobal_attrs (env : Env) (fs : FileSystem) (o : Output) :
    (Output.writeGlobal env fs o).writable = fs.writable ∧
      (Output.writeGlobal env fs o).mkpath = fs.mkpath := by
  unfold Output.writeGlobal
  simp only []
  split
  · exact ⟨rfl, rfl⟩
  · split
    · exact ⟨rfl, rfl⟩
    · rename_i fs1 h
      rw [(FileSystem.write_eq_some h).1]
      exact ⟨rfl, rfl⟩

theorem writeFileStep_attrs (env : Env) (old : List Output) (acc : FileSystem × QVariantList)
    (o : Output) :
    (writeFileStep env old acc o).1.writable = acc.1.writable ∧
      (writeFileStep env old acc o).1.mkpath = acc.1.mkpath := by
  unfold writeFileStep
  simp only []
  split
  · exact ⟨rfl, rfl⟩
  · simp only []
    split
    · exact writeGlobal_attrs env acc.1 o
    · exact ⟨rfl, rfl⟩

theorem writeFileLoop_attrs (env : Env) (old : List Output) (outputs : List Output) :
    ∀ acc : FileSystem × QVariantList,
      (outputs.foldl (writeFileStep env old) acc).1.writable = acc.1.writable ∧
        (outputs.foldl (writeFileStep env old) acc).1.mkpath = acc.1.mkpath := by
  induction outputs with
  | nil => intro acc; exact ⟨rfl, rfl⟩
  | cons o rest ih =>
    intro acc
    simp only [List.foldl_cons]
    obtain ⟨h1, h2⟩ := ih (writeFileStep env old acc o)
    obtain ⟨h3, h4⟩ := writeFileStep_attrs env old acc o
    exact ⟨h1.trans h3, h2.trans h4⟩

theorem readFile0_attrs (env : Env) (fs : FileSystem) (m_data : Option DismanConfig) :
    (Config.readFile0 env fs m_data).1.writable = fs.writable ∧
      (Config.readFile0 env fs m_data).1.mkpath = fs.mkpath := by
  unfold Config.readFile0
  simp only []
  split
  · split
    · split
      · rename_i fs2 h
        obtain ⟨h1, h2⟩ := FileSystem.copy_eq_some h
        rw [FileSystem.remove_writable, FileSystem.remove_mkpath, h1, h2,
          FileSystem.remove_writable, FileSystem.remove_mkpath]
        exact ⟨rfl, rfl⟩
      · rw [FileSystem.remove_writable, FileSystem.remove_mkpath]
        exact ⟨rfl, rfl⟩
    · exact ⟨rfl, rfl⟩
  · exact ⟨rfl, rfl⟩

/-! ## The lid-opened file -/

theorem writeFileLoop_fs_attrs (env : Env) (fs : FileSystem) (data : DismanConfig) :
    (Config.writeFileLoop env fs data).1.writable = fs.writable ∧
      (Config.writeFileLoop env fs data).1.mkpath = fs.mkpath := by
  unfold Config.writeFileLoop
  simp only []
  obtain ⟨h1, h2⟩ := writeFileLoop_attrs env
    (match (Config.readFile0 env fs (some data)).2 with
      | some oldConfig => oldConfig.outputs
      | none => [])
    data.outputs ((Config.readFile0 env fs (some data)).1, [])
  obtain ⟨h3, h4⟩ := readFile0_attrs env fs (some data)
  exact ⟨h1.trans h3, h2.trans h4⟩

theorem writeFile_some (env : Env) (fs : FileSystem) (data : DismanConfig) (p : String)
    (hid : data.connectedOutputsHash ≠ "") :
    Config.writeFile env fs (some data) p =
      match (Config.writeFileLoop env fs data).1.write p
          (.list (Config.writeFileLoop env fs data).2) with
      | none => ((Config.writeFileLoop env fs data).1, false)
      | some fs1 => (fs1, true) := by
  unfold Config.writeFile
  have h : ¬ Config.id (some data) = "" := hid
  rw [if_neg h]

theorem writeFile_attrs (env : Env) (fs : FileSystem) (m_data : Option DismanConfig)
    (p : String) :
    (Config.writeFile env fs m_data p).1.writable = fs.writable ∧
      (Config.writeFile env fs m_data p).1.mkpath = fs.mkpath := by
  cases m_data with
  | none => unfold Config.writeFile; split <;> exact ⟨rfl, rfl⟩
  | some data =>
    by_cases hid : data.connectedOutputsHash = ""
    · unfold Config.writeFile
      have h : Config.id (some data) = "" := hid
      rw [if_pos h]
      exact ⟨rfl, rfl⟩
    · rw [writeFile_some env fs data p hid]
      obtain ⟨h1, h2⟩ := writeFileLoop_fs_attrs env fs data
      cases hw : (Config.writeFileLoop env fs data).1.write p
          (.list (Config.writeFileLoop env fs data).2) with
      | none => exact ⟨h1, h2⟩
      | some fs1 =>
        simp only []
        rw [(FileSystem.write_eq_some hw).1]
        exact ⟨h1, h2⟩

theorem writeFile_eq_true {env : Env} {fs : FileSystem} {data : DismanConfig}
    {p : String} (h : (Config.writeFile env fs (some data) p).2 = true) :
    data.connectedOutputsHash ≠ "" ∧ p ≠ "" ∧ fs.writable p = true ∧
      (Config.writeFile env fs (some data) p).1 =
        (Config.writeFileLoop env fs data).1.setFile p
          (some (.list (Config.writeFileLoop env fs data).2)) := by
  by_cases hid : data.connectedOutputsHash = ""
  · unfold Config.writeFile at h
    have h2 : Config.id (some data) = "" := hid
    rw [if_pos h2] at h
    cases h
  · rw [writeFile_some env fs data p hid] at h ⊢
    obtain ⟨h1, _⟩ := writeFileLoop_fs_attrs env fs data
    cases hw : (Config.writeFileLoop env fs data).1.write p
        (.list (Config.writeFileLoop env fs data).2) with
    | none => rw [hw] at h; cases h
    | some fs1 =>
      obtain ⟨e1, e2, e3⟩ := FileSystem.write_eq_some hw
      refine ⟨hid, e2, ?_, ?_⟩
      · rw [← h1]; exact e3
      · simp only []
        exact e1

theorem FileSystem.remove_fileExists (fs : FileSystem) (p : String)
    (hw : fs.writable p = true) : (fs.remove p).fileExists p = false := by
  unfold FileSystem.remove
  by_cases he : fs.fileExists p = true
  · simp only [he, hw, Bool.and_self, if_true]
    unfold FileSystem.fileExists
    rw [FileSystem.setFile_files_same]
    simp
  · have he2 : fs.fileExists p = false := by simpa using he
    rw [he2]
    simpa using he2

theorem FileSystem.remove_files_ne (fs : FileSystem) (p q : String) (h : q ≠ p) :
    (fs.remove p).files q = fs.files q := by
  unfold FileSystem.remove
  split
  · exact FileSystem.setFile_files_ne _ _ _ _ h
  · rfl

theorem FileSystem.remove_of_exists (fs : FileSystem) (p : String)
    (he : fs.fileExists p = true) (hw : fs.writable p = true) :
    fs.remove p = fs.setFile p none := by
  unfold FileSystem.remove
  simp [he, hw]

theorem FileSystem.fileExists_of_files {fs : FileSystem} {p : String} {v : QVariant}
    (hp : p ≠ "") (h : fs.files p = some v) : fs.fileExists p = true := by
  unfold FileSystem.fileExists
  simp [hp, h]

theorem FileSystem.fileExists_congr {fs1 fs2 : FileSystem} {p : String}
    (h : fs1.files p = fs2.files p) : fs1.fileExists p = fs2.fileExists p := by
  unfold FileSystem.fileExists
  rw [h]

theorem FileSystem.read_congr {fs1 fs2 : FileSystem} {p : String}
    (h : fs1.files p = fs2.files p) : fs1.read p = fs2.read p := by
  unfold FileSystem.read
  rw [h]

/-- The effect of `Config::readFile()` on a laptop with the lid open when the lid-opened file
exists: the file is promoted to the topology file and deleted, and its records are read in. -/
theorem readFile0_promotes (env : Env) (fs : FileSystem) (data : DismanConfig) (doc : QVariant)
    (hlaptop : env.isLaptop = true) (hopen : env.isLidClosed = false)
    (hid : data.connectedOutputsHash ≠ "")
    (hmk : fs.mkpath (Config.configsDirPath env) = true)
    (hwT : fs.writable (Config.configsDirPath env ++ data.connectedOutputsHash) = true)
    (hwL : fs.writable (Config.configsDirPath env ++ data.connectedOutputsHash ++ "_lidOpened")
      = true)
    (hlid : fs.files (Config.configsDirPath env ++ data.connectedOutputsHash ++ "_lidOpened")
      = some doc)
    (hnofixed :
      fs.fileExists (Config.configsDirPath env ++ Config.s_fixedConfigFileName) = false)
    (hidfixed : data.connectedOutputsHash ≠ Config.s_fixedConfigFileName) :
    (Config.readFile0 env fs (some data)).1 =
        ((fs.remove (Config.configsDirPath env ++ data.connectedOutputsHash)).setFile
          (Config.configsDirPath env ++ data.connectedOutputsHash) (some doc)).setFile
          (Config.configsDirPath env ++ data.connectedOutputsHash ++ "_lidOpened") none ∧
      (Config.readFile0 env fs (some data)).2 =
        Config.applyRecords env (Config.readFile0 env fs (some data)).1 data doc.toList := by
  have hT : Config.configsDirPath env ++ data.connectedOutputsHash ≠ "" :=
    string_append_ne_empty hid
  have hL : Config.configsDirPath env ++ data.connectedOutputsHash ++ "_lidOpened" ≠ "" :=
    string_append_ne_empty (by decide)
  have hLT : Config.configsDirPath env ++ data.connectedOutputsHash ++ "_lidOpened" ≠
      Config.configsDirPath env ++ data.connectedOutputsHash := lidOpened_ne_self _
  have hFT : Config.configsDirPath env ++ Config.s_fixedConfigFileName ≠
      Config.configsDirPath env ++ data.connectedOutputsHash :=
    fun e => hidfixed (string_append_left_cancel e).symm
  have hFL : Config.configsDirPath env ++ Config.s_fixedConfigFileName ≠
      Config.configsDirPath env ++ data.connectedOutputsHash ++ "_lidOpened" :=
    fun e => lidOpened_ne_fixed _ _ e.symm
  have hfp : ∀ fs1 : FileSystem, fs1.mkpath = fs.mkpath →
      Config.filePath env fs1 (some data) =
        Config.configsDirPath env ++ data.connectedOutputsHash := by
    intro fs1 h1
    unfold Config.filePath
    rw [h1, hmk]
    rfl
  have hexL : fs.fileExists
      (Config.configsDirPath env ++ data.connectedOutputsHash ++ "_lidOpened") = true :=
    FileSystem.fileExists_of_files hL hlid
  have hrm := FileSystem.remove_fileExists fs _ hwT
  have hcopy : (fs.remove (Config.configsDirPath env ++ data.connectedOutputsHash)).copy
      (Config.configsDirPath env ++ data.connectedOutputsHash ++ "_lidOpened")
      (Config.configsDirPath env ++ data.connectedOutputsHash) =
      some ((fs.remove (Config.configsDirPath env ++ data.connectedOutputsHash)).setFile
          (Config.configsDirPath env ++ data.connectedOutputsHash) (some doc)) := by
    unfold FileSystem.copy
    have hr : (fs.remove (Config.configsDirPath env ++ data.connectedOutputsHash)).read
        (Config.configsDirPath env ++ data.connectedOutputsHash ++ "_lidOpened") = some doc := by
      unfold FileSystem.read
      rw [if_neg hL, FileSystem.remove_files_ne _ _ _ hLT, hlid]
    rw [hr]
    simp [hT, hrm, FileSystem.remove_writable, hwT]
  have hrmL : ((fs.remove (Config.configsDirPath env ++ data.connectedOutputsHash)).setFile
      (Config.configsDirPath env ++ data.connectedOutputsHash) (some doc)).remove
      (Config.configsDirPath env ++ data.connectedOutputsHash ++ "_lidOpened") =
      ((fs.remove (Config.configsDirPath env ++ data.connectedOutputsHash)).setFile
          (Config.configsDirPath env ++ data.connectedOutputsHash) (some doc)).setFile
          (Config.configsDirPath env ++ data.connectedOutputsHash ++ "_lidOpened") none := by
    apply FileSystem.remove_of_exists
    · apply @FileSystem.fileExists_of_files _ _ doc hL
      rw [FileSystem.setFile_files_ne _ _ _ _ hLT, FileSystem.remove_files_ne _ _ _ hLT, hlid]
    · simp [FileSystem.remove_writable, hwL]
  have h1 : (Config.readFile0 env fs (some data)).1 =
      ((fs.remove (Config.configsDirPath env ++ data.connectedOutputsHash)).setFile
          (Config.configsDirPath env ++ data.connectedOutputsHash) (some doc)).setFile
          (Config.configsDirPath env ++ data.connectedOutputsHash ++ "_lidOpened") none := by
    unfold Config.readFile0
    simp only [hlaptop, hopen, Bool.not_false, Bool.and_self, if_true, hfp fs rfl, hexL,
      hfp _ (FileSystem.remove_mkpath fs _), hcopy, hrmL]
  refine ⟨h1, ?_⟩
  have h2 : (Config.readFile0 env fs (some data)).2 =
      Config.readFile env (Config.readFile0 env fs (some data)).1 (some data)
        (Config.id (some data)) := rfl
  rw [h2, h1]
  unfold Config.readFile
  have hnf : (((fs.remove (Config.configsDirPath env ++ data.connectedOutputsHash)).setFile
          (Config.configsDirPath env ++ data.connectedOutputsHash) (some doc)).setFile
          (Config.configsDirPath env ++ data.connectedOutputsHash ++ "_lidOpened") none).fileExists
      (Config.configsDirPath env ++ Config.s_fixedConfigFileName) = false := by
    rw [FileSystem.fileExists_setFile_ne _ _ _ _ hFL, FileSystem.fileExists_setFile_ne _ _ _ _ hFT,
      ← hnofixed]
    exact FileSystem.fileExists_congr (FileSystem.remove_files_ne _ _ _ hFT)
  have hrd : (((fs.remove (Config.configsDirPath env ++ data.connectedOutputsHash)).setFile
          (Config.configsDirPath env ++ data.connectedOutputsHash) (some doc)).setFile
          (Config.configsDirPath env ++ data.connectedOutputsHash ++ "_lidOpened") none).read
      (Config.configsDirPath env ++ data.connectedOutputsHash) = some doc := by
    rw [FileSystem.read_setFile_ne _ _ _ _ (fun e => hLT e.symm)]
    unfold FileSystem.read
    rw [if_neg hT, FileSystem.setFile_files_same]
  simp only [hnf, Bool.false_eq_true, if_false, Config.id, hrd]

theorem readFile0_no_lid_file (env : Env) (fs : FileSystem) (m_data : Option DismanConfig)
    (h : fs.fileExists (Config.filePath env fs m_data ++ "_lidOpened") = false) :
    Config.readFile0 env fs m_data = (fs, Config.readFile env fs m_data (Config.id m_data)) := by
  unfold Config.readFile0
  simp only [h, Bool.false_eq_true, if_false, ite_self]

/-! ## The primary flag after `readInOutputs` -/

theorem step_primary (step : Output → Output × Bool)
    (hstep : ∀ o b, step (o.set_primary b) = ((step o).1.set_primary b, (step o).2))
    (o : Output) : (step o).1.primary = o.primary := by
  have h := hstep o o.primary
  have e : o.set_primary o.primary = o := rfl
  rw [e] at h
  have h2 := congrArg (fun p => p.1.primary) h
  simp only [Output.set_primary_primary] at h2
  exact h2

theorem readInOutputsLoop_done (step : Output → Output × Bool)
    (hstep : ∀ o b, step (o.set_primary b) = ((step o).1.set_primary b, (step o).2))
    (todo : List Output) :
    ∀ (cleared : Bool) (done : List Output) (k : Nat) (d : Output), done[k]? = some d →
      ∃ d1, (readInOutputsLoop step cleared done todo)[k]? = some d1 ∧
        d1.primary = (d.primary && !(todo.any (fun x => (step x).2))) := by
  induction todo with
  | nil =>
    intro cleared done k d hk
    exact ⟨d, hk, by simp⟩
  | cons next todo ih =>
    intro cleared done k d hk
    have hk2 : k < done.length := (List.getElem?_eq_some_iff.mp hk).1
    have hcur : (step (if cleared then next.set_primary false else next)).2 = (step next).2 := by
      cases cleared
      · rfl
      · rw [if_pos rfl, hstep]
    simp only [readInOutputsLoop]
    rw [hcur]
    by_cases hp : (step next).2 = true
    · rw [if_pos hp]
      have hk3 : (done.map (fun o => o.set_primary false) ++
          [(step (if cleared then next.set_primary false else next)).1.set_primary true])[k]? =
          some (d.set_primary false) := by
        rw [List.getElem?_append_left (by simpa using hk2), List.getElem?_map, hk]
        rfl
      obtain ⟨d1, h1, h2⟩ := ih true _ k _ hk3
      exact ⟨d1, h1, by simp [h2, hp]⟩
    · rw [if_neg hp]
      have hk3 : (done ++ [(step (if cleared then next.set_primary false else next)).1])[k]? =
          some d := by
        rw [List.getElem?_append_left hk2, hk]
      obtain ⟨d1, h1, h2⟩ := ih cleared _ k _ hk3
      exact ⟨d1, h1, by simp [h2, hp]⟩

theorem readInOutputsLoop_primary (step : Output → Output × Bool)
    (hstep : ∀ o b, step (o.set_primary b) = ((step o).1.set_primary b, (step o).2))
    (o : Output) (post : List Output) (pre : List Output) :
    ∀ (cleared : Bool) (done : List Output),
      ∃ o1, (readInOutputsLoop step cleared done (pre ++ o :: post))[done.length + pre.length]? =
          some o1 ∧
        o1.primary =
          ((if (step o).2 then true
            else if cleared || pre.any (fun x => (step x).2) then false else o.primary) &&
            !(post.any (fun x => (step x).2))) := by
  induction pre with
  | nil =>
    intro cleared done
    have hcur : (step (if cleared then o.set_primary false else o)).2 = (step o).2 := by
      cases cleared
      · rfl
      · rw [if_pos rfl, hstep]
    simp only [List.nil_append, readInOutputsLoop, List.length_nil, Nat.add_zero]
    rw [hcur]
    by_cases hp : (step o).2 = true
    · rw [if_pos hp]
      have hk : (done.map (fun o => o.set_primary false) ++
          [(step (if cleared then o.set_primary false else o)).1.set_primary true])[done.length]? =
          some ((step (if cleared then o.set_primary false else o)).1.set_primary true) := by
        rw [List.getElem?_append_right (by simp)]
        simp
      obtain ⟨d1, h1, h2⟩ := readInOutputsLoop_done step hstep post true _ _ _ hk
      exact ⟨d1, h1, by simp [h2, hp]⟩
    · rw [if_neg hp]
      have hk : (done ++ [(step (if cleared then o.set_primary false else o)).1])[done.length]? =
          some (step (if cleared then o.set_primary false else o)).1 := by
        rw [List.getElem?_append_right (le_refl _)]
        simp
      obtain ⟨d1, h1, h2⟩ := readInOutputsLoop_done step hstep post cleared _ _ _ hk
      refine ⟨d1, h1, ?_⟩
      rw [h2, step_primary step hstep]
      cases cleared <;> simp [hp]
  | cons p pre ih =>
    intro cleared done
    have hcur : (step (if cleared then p.set_primary false else p)).2 = (step p).2 := by
      cases cleared
      · rfl
      · rw [if_pos rfl, hstep]
    simp only [List.cons_append, readInOutputsLoop, List.length_cons]
    rw [hcur]
    by_cases hp : (step p).2 = true
    · rw [if_pos hp]
      obtain ⟨o1, h1, h2⟩ := ih true (done.map (fun o => o.set_primary false) ++
          [(step (if cleared then p.set_primary false else p)).1.set_primary true])
      refine ⟨o1, ?_, ?_⟩
      · rw [← h1]
        congr 1
        simp only [List.length_append, List.length_map, List.length_singleton]
        omega
      · rw [h2]
        simp [hp]
    · rw [if_neg hp]
      obtain ⟨o1, h1, h2⟩ := ih cleared
        (done ++ [(step (if cleared then p.set_primary false else p)).1])
      refine ⟨o1, ?_, ?_⟩
      · rw [← h1]
        congr 1
        simp only [List.length_append, List.length_singleton]
        omega
      · rw [h2]
        simp [hp]

/-! ## Records written by `writeFile` -/

theorem QVariantMap.lookup_insert_same (m : QVariantMap) (k : String) (v : QVariant) :
    (QVariantMap.insert m k v).lookup k = some v := by
  induction m with
  | nil => simp [QVariantMap.insert, List.lookup]
  | cons e rest ih =>
    obtain ⟨k1, w⟩ := e
    unfold QVariantMap.insert
    by_cases h : k1 = k
    · subst h
      simp [List.lookup]
    · have h2 : (k == k1) = false := by simpa using fun e => h e.symm
      simp only [beq_iff_eq, h, if_false, List.lookup, h2]
      exact ih

theorem QVariantMap.lookup_insert_ne (m : QVariantMap) (k k2 : String) (v : QVariant)
    (hne : k2 ≠ k) : (QVariantMap.insert m k v).lookup k2 = m.lookup k2 := by
  induction m with
  | nil =>
    have h2 : (k2 == k) = false := by simpa using hne
    simp [QVariantMap.insert, List.lookup, h2]
  | cons e rest ih =>
    obtain ⟨k1, w⟩ := e
    unfold QVariantMap.insert
    by_cases h : k1 = k
    · subst h
      have h2 : (k2 == k1) = false := by simpa using hne
      simp [List.lookup, h2]
    · simp only [beq_iff_eq, h, if_false, List.lookup]
      rw [ih]

theorem QVariantMap.get_insert_same (m : QVariantMap) (k : String) (v : QVariant) :
    QVariantMap.get (QVariantMap.insert m k v) k = v := by
  unfold QVariantMap.get
  rw [QVariantMap.lookup_insert_same]
  rfl

theorem QVariantMap.get_insert_ne (m : QVariantMap) (k k2 : String) (v : QVariant)
    (hne : k2 ≠ k) : QVariantMap.get (QVariantMap.insert m k v) k2 = QVariantMap.get m k2 := by
  unfold QVariantMap.get
  rw [QVariantMap.lookup_insert_ne _ _ _ _ hne]

theorem QVariantMap.value_insert_same (m : QVariantMap) (k : String) (v d : QVariant) :
    QVariantMap.value (QVariantMap.insert m k v) k d = v := by
  unfold QVariantMap.value
  rw [QVariantMap.lookup_insert_same]
  rfl

theorem QVariantMap.value_insert_ne (m : QVariantMap) (k k2 : String) (v d : QVariant)
    (hne : k2 ≠ k) :
    QVariantMap.value (QVariantMap.insert m k v) k2 d = QVariantMap.value m k2 d := by
  unfold QVariantMap.value
  rw [QVariantMap.lookup_insert_ne _ _ _ _ hne]

theorem QVariantMap.insert_isEmpty (m : QVariantMap) (k : String) (v : QVariant) :
    List.isEmpty (QVariantMap.insert m k v) = false := by
  cases m with
  | nil => rfl
  | cons e rest =>
    obtain ⟨k1, w⟩ := e
    unfold QVariantMap.insert
    split <;> rfl

theorem writeGlobalPart_cases (env : Env) (output : Output) (info : QVariantMap)
    (fallback : Option Output) :
    (Output.writeGlobalPart env output info fallback).2 = globalPartBase output info ∨
      ∃ refresh size, (Output.writeGlobalPart env output info fallback).2 =
        (globalPartBase output info).insert "mode" (modeEntry refresh size) := by
  unfold Output.writeGlobalPart
  simp only []
  split
  · left; rfl
  · right; exact ⟨_, _, rfl⟩

theorem writeGlobalPart_valid (env : Env) (output : Output) (info : QVariantMap)
    (fallback : Option Output) (am : Mode) (hauto : env.auto_mode output = some am)
    (hen : output.enabled = true) (hnn : ¬ env.toFloat am.refresh < 0)
    (hvalid : am.size.isValid = true) :
    Output.writeGlobalPart env output info fallback =
      (true, (globalPartBase output info).insert "mode"
        (modeEntry (env.toFloat am.refresh) am.size)) := by
  unfold Output.writeGlobalPart
  simp only [hauto, hen]
  simp [hnn, hvalid, globalPartBase, modeEntry]

theorem modeEntry_size (refresh : ℚ) (size : QSize) (m : QVariantMap) :
    infoSize (m.insert "mode" (modeEntry refresh size)) = size := by
  unfold infoSize modeEntry
  simp only [QVariantMap.get_insert_same, QVariant.toMap, QVariant.toInt,
    QVariantMap.get_insert_ne _ "height" "width" _ (by decide)]

theorem modeEntry_refresh (refresh : ℚ) (size : QSize) (m : QVariantMap) :
    infoRefresh (m.insert "mode" (modeEntry refresh size)) = refresh := by
  unfold infoRefresh modeEntry
  simp only [QVariantMap.get_insert_same, QVariant.toMap, QVariant.toDouble,
    QVariantMap.get_insert_ne _ "size" "refresh" _ (by decide)]

theorem infoSize_insert_ne (m : QVariantMap) (k : String) (v : QVariant) (h : "mode" ≠ k) :
    infoSize (m.insert k v) = infoSize m := by
  unfold infoSize
  rw [QVariantMap.get_insert_ne _ _ _ _ h]

theorem infoRefresh_insert_ne (m : QVariantMap) (k : String) (v : QVariant) (h : "mode" ≠ k) :
    infoRefresh (m.insert k v) = infoRefresh m := by
  unfold infoRefresh
  rw [QVariantMap.get_insert_ne _ _ _ _ h]

theorem infoId_insert_ne (m : QVariantMap) (k : String) (v : QVariant) (h : "id" ≠ k) :
    infoId (m.insert k v) = infoId m := by
  unfold infoId
  rw [QVariantMap.get_insert_ne _ _ _ _ h]

theorem infoName_insert_ne (m : QVariantMap) (k : String) (v : QVariant)
    (h : "metadata" ≠ k) : infoName (m.insert k v) = infoName m := by
  unfold infoName
  rw [QVariantMap.get_insert_ne _ _ _ _ h]

theorem globalPartBase_id (output : Output) (info : QVariantMap) :
    infoId (globalPartBase output info) = output.hash := by
  unfold globalPartBase
  rw [infoId_insert_ne _ _ _ (by decide), infoId_insert_ne _ _ _ (by decide)]
  unfold infoId
  rw [QVariantMap.get_insert_same]
  rfl

theorem globalPartBase_name (output : Output) (info : QVariantMap) :
    infoName (globalPartBase output info) = output.name := by
  unfold globalPartBase
  rw [infoName_insert_ne _ _ _ (by decide)]
  unfold infoName metadata
  rw [QVariantMap.get_insert_same]
  simp only [QVariant.toMap, QVariantMap.get_insert_ne _ "description" "name" _ (by decide),
    QVariantMap.get_insert_same, QVariant.toString]

theorem globalPartBase_rotation (output : Output) (info : QVariantMap) (d : QVariant) :
    (globalPartBase output info).value "rotation" d = .int output.rotation := by
  unfold globalPartBase
  rw [QVariantMap.value_insert_same]

theorem writeGlobalPart_id (env : Env) (output : Output) (info : QVariantMap)
    (fallback : Option Output) :
    infoId (Output.writeGlobalPart env output info fallback).2 = output.hash ∧
      infoName (Output.writeGlobalPart env output info fallback).2 = output.name ∧
      ((Output.writeGlobalPart env output info fallback).2.value "rotation" (.int 1)).toInt =
        output.rotation := by
  rcases writeGlobalPart_cases env output info fallback with h | ⟨r, s, h⟩
  · rw [h]
    exact ⟨globalPartBase_id _ _, globalPartBase_name _ _, by
      rw [globalPartBase_rotation]; rfl⟩
  · rw [h]
    refine ⟨?_, ?_, ?_⟩
    · rw [infoId_insert_ne _ _ _ (by decide)]; exact globalPartBase_id _ _
    · rw [infoName_insert_ne _ _ _ (by decide)]; exact globalPartBase_name _ _
    · rw [QVariantMap.value_insert_ne _ _ _ _ _ (by decide), globalPartBase_rotation]; rfl

theorem InfoTarget_insert (info : QVariantMap) (rotation : Int) (size : QSize) (refresh : ℚ)
    (k : String) (v : QVariant) (h1 : "rotation" ≠ k) (h2 : "mode" ≠ k)
    (h : InfoTarget info rotation size refresh) :
    InfoTarget (info.insert k v) rotation size refresh := by
  unfold InfoTarget at h ⊢
  rw [QVariantMap.value_insert_ne _ _ _ _ _ h1, infoSize_insert_ne _ _ _ h2,
    infoRefresh_insert_ne _ _ _ h2]
  exact h

theorem writeGlobalPart_target (env : Env) (output : Output) (info : QVariantMap)
    (fallback : Option Output) (am : Mode) (hauto : env.auto_mode output = some am)
    (hen : output.enabled = true) (hnn : ¬ env.toFloat am.refresh < 0)
    (hvalid : am.size.isValid = true) :
    InfoTarget (Output.writeGlobalPart env output info fallback).2 output.rotation am.size
      (env.toFloat am.refresh) := by
  rw [writeGlobalPart_valid env output info fallback am hauto hen hnn hvalid]
  refine ⟨?_, modeEntry_size _ _ _, modeEntry_refresh _ _ _⟩
  simp only []
  rw [QVariantMap.value_insert_ne _ _ _ _ _ (by decide), globalPartBase_rotation]
  rfl

theorem writeFileInfo_id (env : Env) (old : Option Output) (output : Output) :
    infoId (writeFileInfo env old output) = output.hash ∧
      infoName (writeFileInfo env old output) = output.name ∧
      ((writeFileInfo env old output).get "primary").toBool = output.primary := by
  obtain ⟨h1, h2, _⟩ := writeGlobalPart_id env output [] old
  unfold writeFileInfo
  simp only []
  split
  · refine ⟨?_, ?_, ?_⟩
    · rw [infoId_insert_ne _ _ _ (by decide), infoId_insert_ne _ _ _ (by decide)]; exact h1
    · rw [infoName_insert_ne _ _ _ (by decide), infoName_insert_ne _ _ _ (by decide)]; exact h2
    · rw [QVariantMap.get_insert_ne _ _ _ _ (by decide), QVariantMap.get_insert_same]; rfl
  · refine ⟨?_, ?_, ?_⟩
    · rw [infoId_insert_ne _ _ _ (by decide), infoId_insert_ne _ _ _ (by decide),
        infoId_insert_ne _ _ _ (by decide)]; exact h1
    · rw [infoName_insert_ne _ _ _ (by decide), infoName_insert_ne _ _ _ (by decide),
        infoName_insert_ne _ _ _ (by decide)]; exact h2
    · rw [QVariantMap.get_insert_ne _ _ _ _ (by decide),
        QVariantMap.get_insert_ne _ _ _ _ (by decide), QVariantMap.get_insert_same]; rfl

theorem writeFileInfo_enabled (env : Env) (old : Option Output) (output : Output) (am : Mode)
    (hauto : env.auto_mode output = some am) (hen : output.enabled = true)
    (hnn : ¬ env.toFloat am.refresh < 0) (hvalid : am.size.isValid = true) :
    InfoTarget (writeFileInfo env old output) output.rotation am.size (env.toFloat am.refresh) ∧
      ((writeFileInfo env old output).get "enabled").toBool = true ∧
      ((((writeFileInfo env old output).get "pos").toMap).get "x").toInt = output.position.x ∧
      ((((writeFileInfo env old output).get "pos").toMap).get "y").toInt = output.position.y := by
  have ht := writeGlobalPart_target env output [] old am hauto hen hnn hvalid
  unfold writeFileInfo
  simp only [Output.isEnabled, hen, if_true]
  refine ⟨?_, ?_, ?_, ?_⟩
  · exact InfoTarget_insert _ _ _ _ _ _ (by decide) (by decide)
      (InfoTarget_insert _ _ _ _ _ _ (by decide) (by decide)
        (InfoTarget_insert _ _ _ _ _ _ (by decide) (by decide) ht))
  · rw [QVariantMap.get_insert_ne _ _ _ _ (by decide), QVariantMap.get_insert_same]; rfl
  · rw [QVariantMap.get_insert_same]
    simp only [QVariant.toMap, QVariantMap.get_insert_ne _ "y" "x" _ (by decide),
      QVariantMap.get_insert_same, QVariant.toInt]
  · rw [QVariantMap.get_insert_same]
    simp only [QVariant.toMap, QVariantMap.get_insert_same, QVariant.toInt]

theorem writeFileLoop_records (env : Env) (old : List Output) (outputs : List Output) :
    ∀ acc : FileSystem × QVariantList,
      (outputs.foldl (writeFileStep env old) acc).2 = acc.2 ++ writtenRecords env old outputs := by
  induction outputs with
  | nil => intro acc; simp [writtenRecords]
  | cons o rest ih =>
    intro acc
    simp only [List.foldl_cons]
    rw [ih]
    unfold writeFileStep writtenRecords
    by_cases hc : o.isConnected = true
    · simp [hc, List.filter_cons]
    · simp [hc, List.filter_cons]

theorem infoMatches_eq (dup : List String) (o : Output) (info : QVariantMap) :
    infoMatches dup o info =
      (decide (o.hash = infoId info) &&
        (!(o.name != "" && dup.contains o.hash) || decide (o.name = infoName info))) := by
  unfold infoMatches infoId infoName
  by_cases h1 : o.hash = (info.get "id").toString
  · by_cases h2 : (o.name != "" && dup.contains o.hash) = true
    · by_cases h3 : o.name = (((info.get "metadata").toMap).get "name").toString
      · simp [← h1, h2, ← h3]
      · have h3b : (o.name != (((info.get "metadata").toMap).get "name").toString) = true := by
          simpa using h3
        simp only [← h1, bne_self_eq_false, Bool.false_eq_true, if_false, h2, if_true, h3b,
          Bool.not_true, Bool.false_or, h3, decide_False, Bool.and_false]
    · have h2f : (o.name != "" && dup.contains o.hash) = false := by simpa using h2
      simp only [← h1, bne_self_eq_false, Bool.false_eq_true, if_false, h2f, Bool.not_false,
        Bool.true_or, decide_True, Bool.and_self]
  · simp [h1]

theorem hash_mem_duplicateIds_of_mem {pre post : List Output} {o x : Output}
    (hx : x ∈ pre ++ post) (hh : x.hash = o.hash) :
    o.hash ∈ duplicateIds (pre ++ o :: post) := by
  rw [mem_duplicateIds]
  simp only [List.map_append, List.map_cons, List.count_append, List.count_cons_self]
  rcases List.mem_append.mp hx with h | h
  · have : 0 < (pre.map Output.hash).count o.hash :=
      List.count_pos_iff.mpr (List.mem_map.mpr ⟨x, h, hh⟩)
    omega
  · have : 0 < (post.map Output.hash).count o.hash :=
      List.count_pos_iff.mpr (List.mem_map.mpr ⟨x, h, hh⟩)
    omega

/-- A record written for another output that shares no hash-and-name ambiguity with `o` is
not read in for `o`, and the record of `o` is not read in for that output. -/
theorem infoMatches_other (env : Env) (old1 old2 : Option Output) {pre post : List Output}
    {o x : Output} (hx : x ∈ pre ++ post)
    (hnames : ∀ y ∈ pre ++ post, y.hash = o.hash → o.name ≠ "" ∧ y.name ≠ "" ∧ y.name ≠ o.name) :
    infoMatches (duplicateIds (pre ++ o :: post)) o (writeFileInfo env old1 x) = false ∧
      infoMatches (duplicateIds (pre ++ o :: post)) x (writeFileInfo env old2 o) = false := by
  rw [infoMatches_eq, infoMatches_eq]
  obtain ⟨i1, n1, _⟩ := writeFileInfo_id env old1 x
  obtain ⟨i2, n2, _⟩ := writeFileInfo_id env old2 o
  rw [i1, n1, i2, n2]
  by_cases hh : x.hash = o.hash
  · obtain ⟨e1, e2, e3⟩ := hnames x hx hh
    have hd := hash_mem_duplicateIds_of_mem hx hh
    have e4 : ¬ o.name = x.name := fun e => e3 e.symm
    simp [hh, hd, e1, e2, e3, e4]
  · have hh2 : ¬ o.hash = x.hash := fun e => hh e.symm
    simp [hh, hh2]

theorem infoMatches_own (env : Env) (old : Option Output) (dup : List String) (o : Output) :
    infoMatches dup o (writeFileInfo env old o) = true := by
  rw [infoMatches_eq]
  obtain ⟨i1, n1, _⟩ := writeFileInfo_id env old o
  rw [i1, n1]
  simp

theorem findInfo_own_record (env : Env) (old : List Output) (pre post : List Output)
    (o : Output) (hconn : o.connected = true)
    (hnames : ∀ y ∈ pre ++ post, y.hash = o.hash → o.name ≠ "" ∧ y.name ≠ "" ∧ y.name ≠ o.name) :
    findInfo (duplicateIds (pre ++ o :: post)) o (writtenRecords env old (pre ++ o :: post)) =
      some (writeFileInfo env (old.find? (fun out => out.hashMd5 == o.hashMd5)) o) := by
  unfold findInfo writtenRecords
  have hc : o.isConnected = true := hconn
  simp only [List.filter_append, List.filter_cons, hc, if_true, List.map_append, List.map_cons,
    List.map_map]
  rw [List.find?_append]
  have hpre : List.find? (infoMatches (duplicateIds (pre ++ o :: post)) o)
      (List.map (QVariant.toMap ∘ fun x =>
        QVariant.map (writeFileInfo env (old.find? (fun out => out.hashMd5 == x.hashMd5)) x))
        (pre.filter Output.isConnected)) = none := by
    rw [List.find?_eq_none]
    intro info hinfo
    obtain ⟨x, hx, rfl⟩ := List.mem_map.mp hinfo
    have hx2 : x ∈ pre ++ post := List.mem_append_left _ (List.mem_of_mem_filter hx)
    simp only [Function.comp, QVariant.toMap]
    rw [(infoMatches_other env _ none hx2 hnames).1]
    simp
  rw [hpre]
  simp only [Option.none_or, Function.comp, QVariant.toMap, List.find?_cons,
    infoMatches_own]

/-! ## The global file after `writeFile` -/

theorem Output.path_injective (env : Env) {h1 h2 : String}
    (h : Output.path env h1 = Output.path env h2) : h1 = h2 := by
  unfold Output.path at h
  exact string_append_left_cancel (string_append_right_cancel h)

theorem Output.path_ne_empty (env : Env) (h : String) : Output.path env h ≠ "" := by
  unfold Output.path
  exact string_append_ne_empty (by decide)

theorem writeGlobal_files_ne (env : Env) (fs : FileSystem) (x : Output) (p : String)
    (hp : p ≠ Output.path env x.hash) : (Output.writeGlobal env fs x).files p = fs.files p := by
  unfold Output.writeGlobal
  simp only []
  split
  · rfl
  · split
    · rfl
    · rename_i fs1 hw
      obtain ⟨e1, e2, _⟩ := FileSystem.write_eq_some hw
      rw [e1]
      apply FileSystem.setFile_files_ne
      unfold Output.createPath at e2 ⊢
      by_cases hm : fs.mkpath (Output.dirPath env) = true
      · simpa [hm] using hp
      · simp [hm] at e2

theorem writeGlobal_files_same (env : Env) (fs : FileSystem) (o : Output)
    (hok : (Output.writeGlobalPart env o (Output.getGlobalData env fs o) none).1 = true)
    (hmk : fs.mkpath (Output.dirPath env) = true)
    (hw : fs.writable (Output.path env o.hash) = true) :
    (Output.writeGlobal env fs o).files (Output.path env o.hash) =
      some (.map (Output.writeGlobalPart env o (Output.getGlobalData env fs o) none).2) := by
  unfold Output.writeGlobal
  have hcp : Output.createPath env fs o.hash = Output.path env o.hash := by
    unfold Output.createPath
    simp [hmk]
  simp only [hok, Bool.not_true, Bool.false_eq_true, if_false, hcp]
  rw [FileSystem.write_of_writable _ _ _ (Output.path_ne_empty env _) hw]
  exact FileSystem.setFile_files_same _ _ _

theorem writeFileStep_files_other (env : Env) (old : List Output)
    (acc : FileSystem × QVariantList) (x : Output) (p : String)
    (h : x.connected = true → x.enabled = true →
      env.getOutputRetention x.hash x.name ≠ Retention.Individual →
      p ≠ Output.path env x.hash) :
    (writeFileStep env old acc x).1.files p = acc.1.files p := by
  unfold writeFileStep
  simp only []
  by_cases hc : x.isConnected = true
  · simp only [hc, Bool.not_true, Bool.false_eq_true, if_false]
    by_cases he : (x.isEnabled &&
        env.getOutputRetention x.hash x.name != Retention.Individual) = true
    · rw [if_pos he]
      simp only [Bool.and_eq_true, bne_iff_ne, ne_eq] at he
      exact writeGlobal_files_ne env acc.1 x p (h hc he.1 he.2)
    · rw [if_neg he]
  · simp [hc]

theorem writeFileLoop_files_other (env : Env) (old : List Output) (p : String)
    (outputs : List Output)
    (h : ∀ x ∈ outputs, x.connected = true → x.enabled = true →
      env.getOutputRetention x.hash x.name ≠ Retention.Individual →
      p ≠ Output.path env x.hash) :
    ∀ acc : FileSystem × QVariantList,
      (outputs.foldl (writeFileStep env old) acc).1.files p = acc.1.files p := by
  induction outputs with
  | nil => intro acc; rfl
  | cons x rest ih =>
    intro acc
    simp only [List.foldl_cons]
    rw [ih (fun y hy => h y (List.mem_cons_of_mem _ hy)),
      writeFileStep_files_other env old acc x p (h x (List.mem_cons_self _ _))]

theorem writeFileStep_files_own (env : Env) (old : List Output)
    (acc : FileSystem × QVariantList) (o : Output) (am : Mode)
    (hconn : o.connected = true) (hen : o.enabled = true)
    (hret : env.getOutputRetention o.hash o.name ≠ Retention.Individual)
    (hauto : env.auto_mode o = some am) (hnn : ¬ env.toFloat am.refresh < 0)
    (hvalid : am.size.isValid = true)
    (hmk : acc.1.mkpath (Output.dirPath env) = true)
    (hw : acc.1.writable (Output.path env o.hash) = true) :
    (writeFileStep env old acc o).1.files (Output.path env o.hash) =
      some (.map (Output.writeGlobalPart env o (Output.getGlobalData env acc.1 o) none).2) := by
  unfold writeFileStep
  have hc : o.isConnected = true := hconn
  have he : o.isEnabled = true := hen
  have hr : (env.getOutputRetention o.hash o.name != Retention.Individual) = true := by
    simpa using hret
  simp only [hc, he, hr, Bool.not_true, Bool.false_eq_true, if_false, Bool.and_self, if_true]
  apply writeGlobal_files_same env acc.1 o _ hmk hw
  rw [writeGlobalPart_valid env o _ none am hauto hen hnn hvalid]

theorem writeFileLoop_files_own (env : Env) (old : List Output) (pre post : List Output)
    (o : Output) (am : Mode) (acc : FileSystem × QVariantList)
    (hconn : o.connected = true) (hen : o.enabled = true)
    (hret : env.getOutputRetention o.hash o.name ≠ Retention.Individual)
    (hauto : env.auto_mode o = some am) (hnn : ¬ env.toFloat am.refresh < 0)
    (hvalid : am.size.isValid = true)
    (hmk : acc.1.mkpath (Output.dirPath env) = true)
    (hw : acc.1.writable (Output.path env o.hash) = true)
    (hpost : ∀ x ∈ post, x.hash = o.hash → x.connected = true → x.enabled = true →
      env.getOutputRetention x.hash x.name = Retention.Individual) :
    ∃ base, ((pre ++ o :: post).foldl (writeFileStep env old) acc).1.files
        (Output.path env o.hash) = some (.map (Output.writeGlobalPart env o base none).2) := by
  rw [List.foldl_append, List.foldl_cons]
  obtain ⟨a1, a2⟩ := writeFileLoop_attrs env old pre acc
  refine ⟨Output.getGlobalData env (pre.foldl (writeFileStep env old) acc).1 o, ?_⟩
  rw [writeFileLoop_files_other env old _ post]
  · exact writeFileStep_files_own env old _ o am hconn hen hret hauto hnn hvalid
      (by rw [a2]; exact hmk) (by rw [a1]; exact hw)
  · intro x hx hc he hr hp
    exact hr (hpost x hx (Output.path_injective env hp).symm hc he)

/-! ## Reading a written record back -/

theorem readInGlobalPartFromInfo_target (x : Output) (info : QVariantMap) (r : Int)
    (rf : ℚ) (am : Mode) (ht : InfoTarget info r am.size rf) (ham : am ∈ x.modes)
    (hf : qFuzzyCompare am.refresh rf = true) :
    (x.readInGlobalPartFromInfo info).rotation = r ∧
      (x.readInGlobalPartFromInfo info).position = x.position ∧
      (x.readInGlobalPartFromInfo info).enabled = x.enabled ∧
      ∃ m, (x.readInGlobalPartFromInfo info).mode = some m ∧ m ∈ x.modes ∧
        m.size = am.size ∧ qFuzzyCompare m.refresh rf = true := by
  obtain ⟨t1, t2, t3⟩ := ht
  have hfind : ∃ m, x.modes.find? (modeMatches (infoSize info) (infoRefresh info)) = some m := by
    cases hfd : x.modes.find? (modeMatches (infoSize info) (infoRefresh info)) with
    | some m => exact ⟨m, rfl⟩
    | none =>
      exact absurd ⟨t2.symm, by rw [t3]; exact hf⟩ (find?_modeMatches_none hfd am ham)
  obtain ⟨m, hm⟩ := hfind
  obtain ⟨m1, m2, m3⟩ := find?_modeMatches_some hm
  have hc : chosenMode x info = some m := by
    unfold chosenMode
    rw [hm]
  rw [readInGlobalPartFromInfo_eq, hc]
  refine ⟨t1, rfl, rfl, m, rfl, m1, ?_, ?_⟩
  · rw [m2, t2]
  · rw [← t3]; exact m3

theorem readIn_snd (env : Env) (fs : FileSystem) (o : Output) (info : QVariantMap)
    (r : Retention) : (Output.readIn env fs o info r).2 = (info.get "primary").toBool := by
  unfold Output.readIn
  simp only []
  split <;> rfl

theorem readIn_written (env : Env) (fs : FileSystem) (o : Output) (info : QVariantMap)
    (am : Mode) (rf : ℚ)
    (hinfo : InfoTarget info o.rotation am.size rf)
    (henabled : (info.get "enabled").toBool = true)
    (hx : (((info.get "pos").toMap).get "x").toInt = o.position.x)
    (hy : (((info.get "pos").toMap).get "y").toInt = o.position.y)
    (hglobal : o.retention = Retention.Individual ∨
      (Output.getGlobalData env fs o).isEmpty = true ∨
      InfoTarget (Output.getGlobalData env fs o) o.rotation am.size rf)
    (ham : am ∈ o.modes) (hf : qFuzzyCompare am.refresh rf = true) :
    (Output.readIn env fs o info o.retention).1.rotation = o.rotation ∧
      (Output.readIn env fs o info o.retention).1.position = o.position ∧
      (Output.readIn env fs o info o.retention).1.enabled = true ∧
      ∃ m, (Output.readIn env fs o info o.retention).1.mode = some m ∧ m ∈ o.modes ∧
        m.size = am.size ∧ qFuzzyCompare m.refresh rf = true := by
  have hpos : (⟨(((info.get "pos").toMap).get "x").toInt,
      (((info.get "pos").toMap).get "y").toInt⟩ : QPoint) = o.position := by
    rw [hx, hy]
  unfold Output.readIn
  simp only [hpos, henabled]
  have hg : Output.getGlobalData env fs ((o.set_position o.position).set_enabled true) =
      Output.getGlobalData env fs o := rfl
  by_cases hc : (o.retention != Retention.Individual &&
      (Output.readInGlobal env fs ((o.set_position o.position).set_enabled true)).2) = true
  · rw [if_pos hc]
    simp only [Bool.and_eq_true, bne_iff_ne, ne_eq] at hc
    obtain ⟨hr, h2⟩ := hc
    unfold Output.readInGlobal at h2 ⊢
    rw [hg] at h2 ⊢
    by_cases he : (Output.getGlobalData env fs o).isEmpty = true
    · rw [if_pos he] at h2
      cases h2
    · rw [if_neg he]
      rcases hglobal with h | h | h
      · exact absurd h hr
      · exact absurd h he
      · exact readInGlobalPartFromInfo_target _ _ _ _ am h ham hf
  · rw [if_neg hc]
    exact readInGlobalPartFromInfo_target _ _ _ _ am hinfo ham hf

theorem toMap_list_isEmpty (l : QVariantList) : (QVariant.list l).toMap.isEmpty = true := rfl

theorem readInOutput_snd_false (env : Env) (fs : FileSystem) (old : List Output)
    (pre post : List Output) (o x : Output) (hx : x ∈ pre ++ post)
    (hnames : ∀ y ∈ pre ++ post, y.hash = o.hash → o.name ≠ "" ∧ y.name ≠ "" ∧ y.name ≠ o.name)
    (hprim : ∀ y ∈ pre ++ post, y.connected = true → y.primary = false) :
    (readInOutput env fs (duplicateIds (pre ++ o :: post))
      (writtenRecords env old (pre ++ o :: post)) x).2 = false := by
  unfold readInOutput
  cases hfi : findInfo (duplicateIds (pre ++ o :: post)) x
      (writtenRecords env old (pre ++ o :: post)) with
  | none => simp only []; split <;> rfl
  | some info =>
    simp only []
    rw [readIn_snd]
    have h1 := List.find?_some hfi
    have h2 := List.mem_of_find?_eq_some hfi
    unfold writtenRecords at h2
    simp only [List.map_map, List.mem_map, List.mem_filter, Function.comp,
      QVariant.toMap] at h2
    obtain ⟨y, ⟨hy, hyc⟩, rfl⟩ := h2
    rcases List.mem_append.mp hy with hyp | hyo
    · rw [(writeFileInfo_id env _ y).2.2]
      exact hprim y (List.mem_append_left _ hyp) hyc
    · rcases List.mem_cons.mp hyo with rfl | hyq
      · rw [(infoMatches_other env none _ hx hnames).2] at h1
        cases h1
      · rw [(writeFileInfo_id env _ y).2.2]
        exact hprim y (List.mem_append_right _ hyq) hyc

/-! ## The fixed-config file is never written -/

theorem string_last (a b : String) (c : Char) (hb : b.data.reverse.head? = some c) :
    (a ++ b).data.reverse.head? = some c := by
  simp only [String.data_append, List.reverse_append]
  cases hr : b.data.reverse with
  | nil => rw [hr] at hb; cases hb
  | cons x rest => rw [hr] at hb; simpa using hb

theorem fixed_ne_lidOpened (a b : String) :
    a ++ Config.s_fixedConfigFileName ≠ b ++ "_lidOpened" := by
  intro e
  have h1 := string_last a Config.s_fixedConfigFileName 'g' (by decide)
  have h2 := string_last b "_lidOpened" 'd' (by decide)
  rw [e, h2] at h1
  revert h1
  decide

theorem fixed_ne_global (env : Env) (a h : String) :
    a ++ Config.s_fixedConfigFileName ≠ Output.path env h := by
  intro e
  have h1 := string_last a Config.s_fixedConfigFileName 'g' (by decide)
  have h2 := string_last (Output.dirPath env ++ h) ".json" 'n' (by decide)
  unfold Output.path at e
  rw [e, h2] at h1
  revert h1
  decide

theorem FileSystem.copy_files_ne {fs fs1 : FileSystem} {src dst : String}
    (h : fs.copy src dst = some fs1) (q : String) (hq : q ≠ dst) :
    fs1.files q = fs.files q := by
  unfold FileSystem.copy at h
  cases hr : fs.read src with
  | none => rw [hr] at h; cases h
  | some v =>
    rw [hr] at h
    simp only [] at h
    split at h
    · cases h; exact FileSystem.setFile_files_ne _ _ _ _ hq
    · cases h

theorem readFile0_files_fixed (env : Env) (fs : FileSystem) (data : DismanConfig)
    (hidfixed : data.connectedOutputsHash ≠ Config.s_fixedConfigFileName) :
    (Config.readFile0 env fs (some data)).1.files
        (Config.configsDirPath env ++ Config.s_fixedConfigFileName) =
      fs.files (Config.configsDirPath env ++ Config.s_fixedConfigFileName) := by
  have hF : Config.configsDirPath env ++ Config.s_fixedConfigFileName ≠ "" :=
    string_append_ne_empty (by decide)
  have hfp : ∀ fs1 : FileSystem, Config.configsDirPath env ++ Config.s_fixedConfigFileName ≠
      Config.filePath env fs1 (some data) := by
    intro fs1
    unfold Config.filePath
    split
    · exact hF
    · exact fun e => hidfixed (string_append_left_cancel e).symm
  unfold Config.readFile0
  simp only []
  split
  · split
    · split
      · rename_i fs2 h
        rw [FileSystem.remove_files_ne _ _ _ (fixed_ne_lidOpened _ _),
          FileSystem.copy_files_ne h _ (hfp _), FileSystem.remove_files_ne _ _ _ (hfp _)]
      · rw [FileSystem.remove_files_ne _ _ _ (hfp _)]
    · rfl
  · rfl

theorem writeFile_files_fixed (env : Env) (fs : FileSystem) (data : DismanConfig) (p : String)
    (hidfixed : data.connectedOutputsHash ≠ Config.s_fixedConfigFileName)
    (hp : Config.configsDirPath env ++ Config.s_fixedConfigFileName ≠ p) :
    (Config.writeFile env fs (some data) p).1.fileExists
        (Config.configsDirPath env ++ Config.s_fixedConfigFileName) =
      fs.fileExists (Config.configsDirPath env ++ Config.s_fixedConfigFileName) := by
  apply FileSystem.fileExists_congr
  have hloop : (Config.writeFileLoop env fs data).1.files
      (Config.configsDirPath env ++ Config.s_fixedConfigFileName) =
      fs.files (Config.configsDirPath env ++ Config.s_fixedConfigFileName) := by
    unfold Config.writeFileLoop
    simp only []
    rw [writeFileLoop_files_other env _ _ data.outputs
      (fun x _ _ _ _ => fixed_ne_global env _ x.hash)]
    exact readFile0_files_fixed env fs data hidfixed
  by_cases hid : data.connectedOutputsHash = ""
  · unfold Config.writeFile
    have h2 : Config.id (some data) = "" := hid
    rw [if_pos h2]
  · rw [writeFile_some env fs data p hid]
    cases hw : (Config.writeFileLoop env fs data).1.write p
        (.list (Config.writeFileLoop env fs data).2) with
    | none => exact hloop
    | some fs1 =>
      simp only []
      rw [(FileSystem.write_eq_some hw).1, FileSystem.setFile_files_ne _ _ _ _ hp]
      exact hloop

/-! ## The lid-opened flow -/

/-- C4, amended. On a laptop with the lid open, with no fixed-config file and a writable topology
file, after a successful `Config::writeOpenLidFile()` the first
`Config::readFile()` promotes the records of the lid-opened file to the topology file, deletes
the lid-opened file and returns the configuration read from those records. A second
`Config::readFile()` finds no lid-opened file, leaves the files as they are and reads the
topology file, which now holds the promoted records: it returns the same configuration. -/
theorem readFile_lid_opened_flow (env : Env) (fs : FileSystem) (dataW dataR : DismanConfig)
    (saved : FileSystem) (first second : FileSystem × Option DismanConfig)
    (hlaptop : env.isLaptop = true) (hopen : env.isLidClosed = false)
    (hsame : dataR.connectedOutputsHash = dataW.connectedOutputsHash)
    (hsaved : Config.writeOpenLidFile env fs (some dataW) = (saved, true))
    (hfirst : Config.readFile0 env saved (some dataR) = first)
    (hsecond : Config.readFile0 env first.1 (some dataR) = second)
    (hmk : fs.mkpath (Config.configsDirPath env) = true)
    (hwT : fs.writable (Config.configsDirPath env ++ dataW.connectedOutputsHash) = true)
    (hnofixed :
      fs.fileExists (Config.configsDirPath env ++ Config.s_fixedConfigFileName) = false)
    (hidfixed : dataW.connectedOutputsHash ≠ Config.s_fixedConfigFileName) :
    ∃ records,
      saved.files (Config.configsDirPath env ++ dataW.connectedOutputsHash ++ "_lidOpened") =
          some (.list records) ∧
        first.1.files (Config.configsDirPath env ++ dataW.connectedOutputsHash ++ "_lidOpened") =
          none ∧
        first.1.files (Config.configsDirPath env ++ dataW.connectedOutputsHash) =
          some (.list records) ∧
        first.2 = Config.applyRecords env first.1 dataR records ∧
        second.1 = first.1 ∧ second.2 = first.2 := by
  have hfp : Config.filePath env fs (some dataW) =
      Config.configsDirPath env ++ dataW.connectedOutputsHash := by
    unfold Config.filePath
    rw [hmk]
    rfl
  have hw2 : (Config.writeOpenLidFile env fs (some dataW)).2 = true := by rw [hsaved]
  have hw1 : (Config.writeOpenLidFile env fs (some dataW)).1 = saved := by rw [hsaved]
  unfold Config.writeOpenLidFile at hw1 hw2
  rw [hfp] at hw1 hw2
  obtain ⟨hid, hL, hwL, hfs⟩ := writeFile_eq_true hw2
  have hnofixed2 :
      saved.fileExists (Config.configsDirPath env ++ Config.s_fixedConfigFileName) = false := by
    rw [← hw1, writeFile_files_fixed env fs dataW _ hidfixed (fixed_ne_lidOpened _ _)]
    exact hnofixed
  obtain ⟨hattr1, hattr2⟩ := writeFile_attrs env fs (some dataW)
    (Config.configsDirPath env ++ dataW.connectedOutputsHash ++ "_lidOpened")
  rw [hw1] at hfs hattr1 hattr2
  have hlid : saved.files
      (Config.configsDirPath env ++ dataW.connectedOutputsHash ++ "_lidOpened") =
      some (.list (Config.writeFileLoop env fs dataW).2) := by
    rw [hfs, FileSystem.setFile_files_same]
  have hidR : dataR.connectedOutputsHash ≠ "" := by rw [hsame]; exact hid
  obtain ⟨p1, p2⟩ := readFile0_promotes env saved dataR
    (.list (Config.writeFileLoop env fs dataW).2) hlaptop hopen hidR
    (by rw [hattr2]; exact hmk) (by rw [hattr1, hsame]; exact hwT)
    (by rw [hattr1, hsame]; exact hwL) (by rw [hsame]; exact hlid) hnofixed2
    (by rw [hsame]; exact hidfixed)
  rw [hfirst] at p1 p2
  rw [hsame] at p1
  simp only [QVariant.toList] at p2
  have hLT : Config.configsDirPath env ++ dataW.connectedOutputsHash ++ "_lidOpened" ≠
      Config.configsDirPath env ++ dataW.connectedOutputsHash := lidOpened_ne_self _
  have hLnone : first.1.files
      (Config.configsDirPath env ++ dataW.connectedOutputsHash ++ "_lidOpened") = none := by
    rw [p1, FileSystem.setFile_files_same]
  have hTsome : first.1.files (Config.configsDirPath env ++ dataW.connectedOutputsHash) =
      some (.list (Config.writeFileLoop env fs dataW).2) := by
    rw [p1, FileSystem.setFile_files_ne _ _ _ _ (fun e => hLT e.symm),
      FileSystem.setFile_files_same]
  have hmk1 : first.1.mkpath = fs.mkpath := by
    rw [p1]
    simp only [FileSystem.setFile_mkpath, FileSystem.remove_mkpath]
    exact hattr2
  have hfpR : Config.filePath env first.1 (some dataR) =
      Config.configsDirPath env ++ dataW.connectedOutputsHash := by
    unfold Config.filePath
    rw [hmk1, hmk, ← hsame]
    rfl
  have hnolid : first.1.fileExists (Config.filePath env first.1 (some dataR) ++ "_lidOpened") =
      false := by
    rw [hfpR]
    unfold FileSystem.fileExists
    rw [hLnone]
    simp
  have hsec := readFile0_no_lid_file env first.1 (some dataR) hnolid
  rw [hsecond] at hsec
  have hfirst2 : first.2 = Config.readFile env first.1 (some dataR) (Config.id (some dataR)) := by
    rw [← hfirst]
    rfl
  refine ⟨(Config.writeFileLoop env fs dataW).2, hlid, hLnone, hTsome, p2, ?_, ?_⟩
  · rw [hsec]
  · rw [hsec, hfirst2]

/-- C4, as stated, fails. The topology file "t" holds a record placing the output at (0, 0),
the lid-opened snapshot places it at (10, 20). After `writeOpenLidFile()` the first
`readFile()` returns the snapshot and deletes the lid-opened file, and the second `readFile()`
returns the lid-opened snapshot again. -/
theorem readFile_lid_opened_twice :
    positionsOf (Config.readFile exEnv staleFs (some liveConfig) "t") = some [⟨0, 0⟩] ∧
      (Config.writeOpenLidFile exEnv staleFs (some lidConfig)).2 = true ∧
      positionsOf
          (Config.readFile0 exEnv (Config.writeOpenLidFile exEnv staleFs (some lidConfig)).1
            (some liveConfig)).2 = some [⟨10, 20⟩] ∧
      ((Config.readFile0 exEnv (Config.writeOpenLidFile exEnv staleFs (some lidConfig)).1
            (some liveConfig)).1.files "/kdisplay/t_lidOpened").isNone = true ∧
      positionsOf
          (Config.readFile0 exEnv
            (Config.readFile0 exEnv (Config.writeOpenLidFile exEnv staleFs (some lidConfig)).1
              (some liveConfig)).1
            (some liveConfig)).2 = some [⟨10, 20⟩] := by
  refine ⟨?_, ?_, ?_, ?_, ?_⟩ <;> with_unfolding_all decide

/-! ## Round trip -/

/-- C1, amended. Take a configuration with a non-empty topology id and a writable topology
file, no fixed-config file, and `canBeApplied` accepting every configuration.
Let `o` be a connected, enabled output such that every other output with the hash of `o` has a
non-empty name different from the non-empty name of `o`; if `o` is primary no other connected
output is; the current mode of `o` is one of its modes, has a valid size and a refresh rate
that is non-negative and fuzzily equal to itself after the narrowing to `float`; and either
the retention of `o` is Individual, or the global file of its hash is written for `o` and for
no later output. Then `Config::writeFile()` succeeds and `Config::readFile(id())` returns a
configuration in which the output at the place of `o` has the rotation, the position and the
primary flag of `o`, is enabled, and has a mode of `o` with the size of the current mode and a
refresh rate fuzzily equal to the narrowed one. -/
theorem writeFile_readFile_roundtrip (env : Env) (fs : FileSystem) (data : DismanConfig)
    (pre post : List Output) (o : Output) (am : Mode)
    (hdec : data.outputs = pre ++ o :: post)
    (hid : data.connectedOutputsHash ≠ "")
    (hmk : fs.mkpath (Config.configsDirPath env) = true)
    (hw : fs.writable (Config.configsDirPath env ++ data.connectedOutputsHash) = true)
    (hnofixed :
      fs.fileExists (Config.configsDirPath env ++ Config.s_fixedConfigFileName) = false)
    (hidfixed : data.connectedOutputsHash ≠ Config.s_fixedConfigFileName)
    (hca : ∀ c, env.canBeApplied c = true)
    (hconn : o.connected = true) (hen : o.enabled = true)
    (hnames : ∀ y ∈ pre ++ post, y.hash = o.hash → o.name ≠ "" ∧ y.name ≠ "" ∧ y.name ≠ o.name)
    (hprim : o.primary = true → ∀ y ∈ pre ++ post, y.connected = true → y.primary = false)
    (hauto : env.auto_mode o = some am) (ham : am ∈ o.modes)
    (hvalid : am.size.isValid = true) (hnn : ¬ env.toFloat am.refresh < 0)
    (hfuzzy : qFuzzyCompare am.refresh (env.toFloat am.refresh) = true)
    (hglobal : o.retention = Retention.Individual ∨
      (env.getOutputRetention o.hash o.name ≠ Retention.Individual ∧
        fs.mkpath (Output.dirPath env) = true ∧
        fs.writable (Output.path env o.hash) = true ∧
        ∀ x ∈ post, x.hash = o.hash → x.connected = true → x.enabled = true →
          env.getOutputRetention x.hash x.name = Retention.Individual)) :
    (Config.writeFile0 env fs (some data)).2 = true ∧
      ∃ config o1,
        Config.readFile env (Config.writeFile0 env fs (some data)).1 (some data)
          data.connectedOutputsHash = some config ∧
        config.outputs[pre.length]? = some o1 ∧
        o1.rotation = o.rotation ∧ o1.position = o.position ∧ o1.primary = o.primary ∧
        o1.enabled = true ∧
        ∃ m, o1.mode = some m ∧ m ∈ o.modes ∧ m.size = am.size ∧
          qFuzzyCompare m.refresh (env.toFloat am.refresh) = true := by
  -- the save
  have hT : Config.configsDirPath env ++ data.connectedOutputsHash ≠ "" :=
    string_append_ne_empty hid
  have hfp : Config.filePath env fs (some data) =
      Config.configsDirPath env ++ data.connectedOutputsHash := by
    unfold Config.filePath
    rw [hmk]
    rfl
  obtain ⟨la1, la2⟩ := writeFileLoop_fs_attrs env fs data
  have hnofixed2 : (Config.writeFile0 env fs (some data)).1.fileExists
      (Config.configsDirPath env ++ Config.s_fixedConfigFileName) = false := by
    unfold Config.writeFile0
    rw [writeFile_files_fixed env fs data _ hidfixed
      (by rw [hfp]; exact fun e => hidfixed (string_append_left_cancel e).symm)]
    exact hnofixed
  clear hnofixed
  have hwrite : Config.writeFile0 env fs (some data) =
      ((Config.writeFileLoop env fs data).1.setFile
        (Config.configsDirPath env ++ data.connectedOutputsHash)
        (some (.list (Config.writeFileLoop env fs data).2)), true) := by
    unfold Config.writeFile0
    rw [hfp, writeFile_some env fs data _ hid,
      FileSystem.write_of_writable _ _ _ hT (by rw [la1]; exact hw)]
  rw [hwrite] at hnofixed2 ⊢
  simp only [true_and]
  -- the records
  have hrecs : (Config.writeFileLoop env fs data).2 =
      writtenRecords env
        (match (Config.readFile0 env fs (some data)).2 with
          | some oldConfig => oldConfig.outputs
          | none => [])
        (pre ++ o :: post) := by
    unfold Config.writeFileLoop
    simp only []
    rw [writeFileLoop_records, hdec]
    rfl
  generalize hold : (match (Config.readFile0 env fs (some data)).2 with
          | some oldConfig => oldConfig.outputs
          | none => []) = old at hrecs
  generalize hW : (Config.writeFileLoop env fs data).1.setFile
        (Config.configsDirPath env ++ data.connectedOutputsHash)
        (some (.list (Config.writeFileLoop env fs data).2)) = W at hnofixed2 ⊢
  have hWT : W.read (Config.configsDirPath env ++ data.connectedOutputsHash) =
      some (.list (writtenRecords env old (pre ++ o :: post))) := by
    rw [← hW, ← hrecs]
    unfold FileSystem.read
    rw [if_neg hT, FileSystem.setFile_files_same]
  -- the global record of the output
  have hglob : o.retention = Retention.Individual ∨
      (Output.getGlobalData env W o).isEmpty = true ∨
      InfoTarget (Output.getGlobalData env W o) o.rotation am.size (env.toFloat am.refresh) := by
    rcases hglobal with h | ⟨g1, g2, g3, g4⟩
    · exact Or.inl h
    · right
      by_cases hTG : Output.path env o.hash =
          Config.configsDirPath env ++ data.connectedOutputsHash
      · left
        unfold Output.getGlobalData
        rw [hTG, hWT]
        rfl
      · right
        obtain ⟨ra1, ra2⟩ := readFile0_attrs env fs (some data)
        obtain ⟨base, hbase⟩ := writeFileLoop_files_own env old pre post o am
          ((Config.readFile0 env fs (some data)).1, []) hconn hen g1 hauto hnn hvalid
          (by rw [ra2]; exact g2) (by rw [ra1]; exact g3) g4
        have hloop : (Config.writeFileLoop env fs data).1 =
            ((pre ++ o :: post).foldl (writeFileStep env old)
              ((Config.readFile0 env fs (some data)).1, [])).1 := by
          unfold Config.writeFileLoop
          simp only []
          rw [hold, hdec]
        have hWG : W.read (Output.path env o.hash) =
            some (.map (Output.writeGlobalPart env o base none).2) := by
          rw [← hW]
          rw [FileSystem.read_setFile_ne _ _ _ _ hTG]
          unfold FileSystem.read
          rw [if_neg (Output.path_ne_empty env _), hloop, hbase]
        unfold Output.getGlobalData
        rw [hWG]
        exact writeGlobalPart_target env o base none am hauto hen hnn hvalid
  -- the read
  have hread : Config.readFile env W (some data) data.connectedOutputsHash =
      Config.applyRecords env W data (writtenRecords env old (pre ++ o :: post)) := by
    unfold Config.readFile
    simp only [hnofixed2, Bool.false_eq_true, if_false, hWT, QVariant.toList]
  have happly : Config.applyRecords env W data (writtenRecords env old (pre ++ o :: post)) =
      some { Output.readInOutputs env W data (writtenRecords env old (pre ++ o :: post)) with
        screenSize := screenSizeLoop env
          (Output.readInOutputs env W data
            (writtenRecords env old (pre ++ o :: post))).outputs } := by
    unfold Config.applyRecords
    simp only [hca, Bool.not_true, Bool.false_eq_true, if_false]
  rw [hread, happly]
  -- the output at the place of `o`
  have hi : data.outputs[pre.length]? = some o := by
    rw [hdec, List.getElem?_append_right (le_refl _)]
    simp
  obtain ⟨o1, h1, h2⟩ := readInOutputs_getElem? env W data
    (writtenRecords env old (pre ++ o :: post)) pre.length o hi
  rw [hdec] at h2
  have hstep : readInOutput env W (duplicateIds (pre ++ o :: post))
      (writtenRecords env old (pre ++ o :: post)) o =
      Output.readIn env W o (writeFileInfo env (old.find? (fun out => out.hashMd5 == o.hashMd5)) o)
        o.retention := by
    unfold readInOutput
    rw [findInfo_own_record env old pre post o hconn hnames]
  rw [hstep] at h2
  obtain ⟨i1, i2, i3, i4⟩ := writeFileInfo_enabled env
    (old.find? (fun out => out.hashMd5 == o.hashMd5)) o am hauto hen hnn hvalid
  obtain ⟨r1, r2, r3, m, r4, r5, r6, r7⟩ := readIn_written env W o _ am _ i1 i2 i3 i4 hglob ham
    hfuzzy
  obtain ⟨c1, c2, c3, c4⟩ := clearPrimary_fields h2
  -- the primary flag
  obtain ⟨o2, p1, p2⟩ := readInOutputsLoop_primary
    (readInOutput env W (duplicateIds (pre ++ o :: post))
      (writtenRecords env old (pre ++ o :: post)))
    (readInOutput_primary env W _ _) o post pre false []
  have hsame : o2 = o1 := by
    have e : (Output.readInOutputs env W data
        (writtenRecords env old (pre ++ o :: post))).outputs[pre.length]? = some o2 := by
      unfold Output.readInOutputs
      simp only []
      rw [hdec]
      simpa using p1
    rw [h1] at e
    exact (Option.some.inj e).symm
  rw [hsame, hstep, readIn_snd, (writeFileInfo_id env _ o).2.2] at p2
  have hprimary : o1.primary = o.primary := by
    rw [p2]
    by_cases hp : o.primary = true
    · have hpost : post.any (fun x =>
          (readInOutput env W (duplicateIds (pre ++ o :: post))
            (writtenRecords env old (pre ++ o :: post)) x).2) = false := by
        rw [List.any_eq_false]
        intro x hx
        rw [readInOutput_snd_false env W old pre post o x (List.mem_append_right _ hx) hnames
          (hprim hp)]
        simp
      rw [hpost, hp]
      simp
    · have hp2 : o.primary = false := by simpa using hp
      rw [hp2]
      simp
  exact ⟨_, o1, rfl, h1, c2.trans r1, c1.trans r2, hprimary, c4.trans r3, m, c3.trans r4, r5, r6,
    r7⟩

/-! ## Instances -/

/-- C1, as stated, fails. Two identical monitors, both connected, enabled and retained
globally, are saved with rotations 1 and 2; the save writes the one global record of their
hash twice, and reading the saved file back gives rotation 2 to both. -/
theorem roundtrip_twin_rotation :
    twinConfig.outputs.map (fun o => (o.connected, o.enabled, o.rotation)) =
        [(true, true, 1), (true, true, 2)] ∧
      exFs.fileExists "/kdisplay/fixed-config" = false ∧
      (Config.writeFile0 exEnv exFs (some twinConfig)).2 = true ∧
      rotationsOf (Config.readFile exEnv (Config.writeFile0 exEnv exFs (some twinConfig)).1
        (some twinConfig) (Config.id (some twinConfig))) = some [2, 2] := by
  refine ⟨?_, ?_, ?_, ?_⟩ <;> with_unfolding_all decide

/-- Witness for `writeFile_readFile_roundtrip`: `twinA` next to a monitor with another
hash. -/
theorem writeFile_readFile_roundtrip_witness :
    (Config.writeFile0 exEnv exFs (some pairConfig)).2 = true ∧
      ∃ config o1,
        Config.readFile exEnv (Config.writeFile0 exEnv exFs (some pairConfig)).1
          (some pairConfig) "p" = some config ∧
        config.outputs[0]? = some o1 ∧
        o1.rotation = 1 ∧ o1.position = ⟨0, 0⟩ ∧ o1.primary = true ∧ o1.enabled = true ∧
        ∃ m, o1.mode = some m ∧ m ∈ [fullMode] ∧ m.size = ⟨1920, 1080⟩ ∧
          qFuzzyCompare m.refresh 60 = true :=
  writeFile_readFile_roundtrip exEnv exFs pairConfig [] [otherOutput] twinA fullMode rfl
    (by decide) rfl rfl (by decide) (by decide) (fun _ => rfl) rfl rfl
    (by decide) (by decide) rfl (by decide) (by decide)
    (by with_unfolding_all decide) (by with_unfolding_all decide)
    (Or.inr ⟨by decide, rfl, rfl, by decide⟩)

/-- Witness for `readFile_fixed_config`: with a fixed-config file, a name that was never
saved reads like any other name. -/
theorem readFile_fixed_config_witness :
    fixedFs.fileExists (Config.configsDirPath exEnv ++ Config.s_fixedConfigFileName) = true ∧
      Config.readFile exEnv fixedFs (some plainConfig) "never-saved" =
        Config.readFile exEnv fixedFs (some plainConfig) "t" :=
  ⟨by decide, (readFile_fixed_config exEnv fixedFs (some plainConfig) "never-saved"
    (by decide)).2.1 "t"⟩

/-- C3, as stated, fails. With no fixed-config file and a topology file whose content is not
JSON, `readFile` returns a configuration: the one with the defaults read in. -/
theorem readFile_unparsable_returns_config :
    garbageFs.fileExists (Config.configsDirPath exEnv ++ Config.s_fixedConfigFileName) = false ∧
      (garbageFs.read (Config.configsDirPath exEnv ++ "t")).map (fun doc => doc.toList.length) =
        some 0 ∧
      (Config.readFile exEnv garbageFs (some plainConfig) "t").isSome = true ∧
      rotationsOf (Config.readFile exEnv garbageFs (some plainConfig) "t") = some [1] := by
  refine ⟨?_, ?_, ?_, ?_⟩ <;> with_unfolding_all decide

/-- Witness for `readFile_missing_or_unparsable`: the disk without any file. -/
theorem readFile_missing_or_unparsable_witness :
    exFs.fileExists (Config.configsDirPath exEnv ++ Config.s_fixedConfigFileName) = false ∧
      Config.readFile exEnv exFs (some plainConfig) "t" = none :=
  ⟨by decide, (readFile_missing_or_unparsable exEnv exFs plainConfig "t" (by decide)).1
    (by simp [FileSystem.read, exFs])⟩

/-- Witness for `readFile_lid_opened_flow`: the second `readFile()` returns what the first
returned. -/
theorem readFile_lid_opened_flow_witness :
    (Config.readFile0 exEnv
        (Config.readFile0 exEnv (Config.writeOpenLidFile exEnv staleFs (some lidConfig)).1
          (some liveConfig)).1 (some liveConfig)).2 =
      (Config.readFile0 exEnv (Config.writeOpenLidFile exEnv staleFs (some lidConfig)).1
        (some liveConfig)).2 :=
  (readFile_lid_opened_flow exEnv staleFs lidConfig liveConfig _ _ _ rfl rfl rfl
    (Prod.ext rfl (by with_unfolding_all decide)) rfl rfl (by decide) (by decide)
    (by decide) (by decide)).elim (fun _ h => h.2.2.2.2.2)

/-- Witness for `readInGlobalPartFromInfo_sets_mode`: `plainOutput` and the empty record. -/
theorem readInGlobalPartFromInfo_sets_mode_witness :
    plainOutput.modes ≠ [] ∧
      (∃ m, (plainOutput.readInGlobalPartFromInfo []).mode = some m) ∧
      (plainOutput.readInGlobalPartFromInfo []).enabled = plainOutput.enabled :=
  ⟨by decide, readInGlobalPartFromInfo_sets_mode plainOutput [] (by decide)⟩

/-- Witness for `readInGlobalPartFromInfo_no_modes`: an output without modes is disabled. -/
theorem readInGlobalPartFromInfo_no_modes_witness :
    noModeOutput.modes = [] ∧ (noModeOutput.readInGlobalPartFromInfo []).enabled = false :=
  ⟨rfl, (readInGlobalPartFromInfo_no_modes noModeOutput [] rfl).2.2⟩

/-- C8, as stated, fails. Of two live outputs with the hash "h" one has an empty name; the
only record with that hash carries the name "DP-2", and it is read in for the output with the
empty name, which takes its position. -/
theorem findInfo_unnamed_duplicate :
    2 ≤ (unnamedConfig.outputs.map Output.hash).count unnamedTwin.hash ∧
      unnamedTwin.name = "" ∧
      (findInfo (duplicateIds unnamedConfig.outputs) unnamedTwin [recordB]).map infoName =
        some "DP-2" ∧
      (Output.readInOutputs exEnv exFs unnamedConfig [recordB]).outputs.map
        (fun o => (o.name, o.position)) = [("", ⟨1920, 0⟩), ("DP-2", ⟨1920, 0⟩)] := by
  refine ⟨?_, ?_, ?_, ?_⟩ <;> with_unfolding_all decide

/-- Witness for `findInfo_duplicate_hash`: the record of DP-2 is not read in for DP-1. -/
theorem findInfo_duplicate_hash_witness :
    twinA.name ≠ "" ∧ 2 ≤ ([twinA, twinB].map Output.hash).count twinA.hash ∧
      (findInfo (duplicateIds [twinA, twinB]) twinA [recordB]).isNone = true :=
  ⟨by decide, by decide, by
    rw [Option.isNone_iff_eq_none,
      (findInfo_duplicate_hash [twinA, twinB] twinA [recordB] (by decide) (by decide)).2]
    intro info hinfo
    simp only [List.map_cons, List.map_nil, List.mem_singleton] at hinfo
    subst hinfo
    decide⟩

/-- Witness for `findInfo_order_independent`: the two identical monitors swapped. -/
theorem findInfo_order_independent_witness :
    [twinB, twinA].Perm twinConfig.outputs ∧
      findInfo (duplicateIds [twinB, twinA]) twinB [recordB] =
        findInfo (duplicateIds twinConfig.outputs) twinB [recordB] :=
  ⟨List.Perm.swap twinA twinB [],
    ((findInfo_order_independent exEnv exFs ⟨[twinB, twinA], "tt", ⟨0, 0⟩, false⟩ twinConfig
      (List.Perm.swap twinA twinB []) [recordB]).1 twinB).1⟩

/-! ## Adjusting positions: the side-by-side scenario -/

theorem truncToInt_intCast (n : Int) : truncToInt (n : ℚ) = n := by
  unfold truncToInt
  split <;> simp

theorem sideBySide_position :
    adjustedPosition ⟨0, 0, 2560, 1440⟩ ⟨1920, 0, 1920, 1080⟩ ⟨0, 0, 1920, 1080⟩
      ⟨1920, 0, 1920, 1080⟩ = ⟨2560, 360⟩ := by
  norm_num [adjustedPosition, truncToInt, Int.ceil_neg, Int.floor_neg]

theorem sideBySide_adjusted :
    (Output.adjustPositions geoEnv sideBySideConfig sideBySideRecords).outputs
      = [liveA, liveB.set_position ⟨2560, 360⟩] := by
  have hs : sortOutputs [liveA, liveB] = [(0, ⟨0, 0⟩), (1, ⟨1920, 0⟩)] := by
    with_unfolding_all decide
  have hA : getOutputInfoProperties sideBySideRecords liveA = some ⟨0, 0, 1920, 1080⟩ := by
    with_unfolding_all decide
  have hB : getOutputInfoProperties sideBySideRecords liveB = some ⟨1920, 0, 1920, 1080⟩ := by
    with_unfolding_all decide
  have hgA : geoEnv.geometry liveA = ⟨0, 0, 2560, 1440⟩ := by
    simp [geoEnv, modeGeometry, liveA, wideMode]
  have hgB : geoEnv.geometry liveB = ⟨1920, 0, 1920, 1080⟩ := by
    simp [geoEnv, modeGeometry, liveB, fullMode]
  simp only [Output.adjustPositions, sideBySideConfig, hs, adjustPositionsLoop, List.tail_cons,
    List.zip_cons_cons, List.zip_nil_right, List.foldl_cons, List.foldl_nil,
    adjustPositionsStep, List.getElem?_cons_zero, List.getElem?_cons_succ, hA, hB, hgA, hgB,
    sideBySide_position]
  rfl

/-- C14, amended. In the scenario of two outputs stored side by side at (0, 0) and
(1920, 0), both 1920×1080 at scale 1, with the live output A now 2560×1440 and the live output
B 1920×1080 at (1920, 0), `adjustPositions` leaves A at (0, 0) and sets the position of B to
(2560, 360): the stored top-to-top and bottom-to-bottom distances are both 0, the strict
comparison takes the bottom alignment, and the bottom edge of B is put on the bottom edge of
A. -/
theorem adjustPositions_side_by_side :
    (Output.adjustPositions geoEnv sideBySideConfig sideBySideRecords).outputs.map
      Output.position = [⟨0, 0⟩, ⟨2560, 360⟩] := by
  rw [sideBySide_adjusted]
  rfl

/-- C14, as stated, fails. In the scenario of the claim the position of B after
`adjustPositions` is not (2560, 0). -/
theorem adjustPositions_side_by_side_not_top :
    ((Output.adjustPositions geoEnv sideBySideConfig sideBySideRecords).outputs[1]?).map
      Output.position ≠ some ⟨2560, 0⟩ := by
  rw [sideBySide_adjusted]
  decide

/-! ## Device orientation -/

theorem Output.set_rotation_self (o : Output) : o.set_rotation o.rotation = o := by
  cases o
  rfl

theorem updateOrientation_panel (o : Output) (orientation : Orientation)
    (h : o.type = OutputType.Panel) :
    o.updateOrientation orientation
      = (o.set_rotation (orientationToRotation orientation o.rotation), true) := by
  unfold Output.updateOrientation
  simp only [h, bne_self_eq_false, Bool.false_eq_true, if_false]
  by_cases hr : orientationToRotation orientation o.rotation = o.rotation
  · simp [hr, Output.set_rotation_self]
  · simp [hr]

theorem updateOrientation_not_panel (o : Output) (orientation : Orientation)
    (h : o.type ≠ OutputType.Panel) :
    o.updateOrientation orientation = (o, false) := by
  unfold Output.updateOrientation
  simp [h]

/-- The orientation `Config::setDeviceOrientation` passes on for an output. -/
theorem setDeviceOrientationLoop_first (env : Env) (tablet : Bool) (orientation : Orientation)
    (o : Output) (post : List Output) (hauto : env.getAutoRotate o = true)
    (hpanel : o.type = OutputType.Panel) :
    ∀ pre : List Output,
      (∀ x ∈ pre, ¬ (env.getAutoRotate x = true ∧ x.type = OutputType.Panel)) →
      setDeviceOrientationLoop env tablet orientation (pre ++ o :: post)
        = pre ++ o.set_rotation (orientationToRotation
            (if env.getAutoRotateOnlyInTabletMode o && !tablet then Orientation.TopUp
              else orientation) o.rotation) :: post := by
  intro pre
  induction pre with
  | nil =>
    intro _
    simp only [List.nil_append, setDeviceOrientationLoop, hauto, Bool.not_true,
      Bool.false_eq_true, if_false, updateOrientation_panel _ _ hpanel, if_true]
  | cons x rest ih =>
    intro hpre
    have hrest := ih (fun y hy => hpre y (List.mem_cons_of_mem _ hy))
    have hx := hpre x (List.mem_cons_self _ _)
    simp only [List.cons_append, setDeviceOrientationLoop]
    by_cases ha : env.getAutoRotate x = true
    · have hp : x.type ≠ OutputType.Panel := fun hp => hx ⟨ha, hp⟩
      simp only [ha, Bool.not_true, Bool.false_eq_true, if_false,
        updateOrientation_not_panel _ _ hp, List.append_eq, hrest]
    · simp only [Bool.not_eq_true] at ha
      simp only [ha, Bool.not_false, if_true, List.append_eq, hrest]

theorem setDeviceOrientationLoop_cases (env : Env) (tablet : Bool) (orientation : Orientation) :
    ∀ l : List Output,
      setDeviceOrientationLoop env tablet orientation l = l ∨
      ∃ pre o post, l = pre ++ o :: post ∧
        (∀ x ∈ pre, ¬ (env.getAutoRotate x = true ∧ x.type = OutputType.Panel)) ∧
        env.getAutoRotate o = true ∧ o.type = OutputType.Panel := by
  intro l
  induction l with
  | nil => left; rfl
  | cons x rest ih =>
    by_cases hx : env.getAutoRotate x = true ∧ x.type = OutputType.Panel
    · right
      exact ⟨[], x, rest, rfl, fun _ h => absurd h (List.not_mem_nil _), hx.1, hx.2⟩
    · rcases ih with h | ⟨pre, o, post, hl, hpre, ha, hp⟩
      · left
        simp only [setDeviceOrientationLoop]
        by_cases ha : env.getAutoRotate x = true
        · have hp : x.type ≠ OutputType.Panel := fun hp => hx ⟨ha, hp⟩
          simp only [ha, Bool.not_true, Bool.false_eq_true, if_false,
            updateOrientation_not_panel _ _ hp, h]
        · simp only [Bool.not_eq_true] at ha
          simp only [ha, Bool.not_false, if_true, h]
      · right
        refine ⟨x :: pre, o, post, by rw [hl]; rfl, ?_, ha, hp⟩
        intro y hy
        rcases List.mem_cons.mp hy with rfl | hy
        · exact hx
        · exact hpre y hy

/-- C16. For a panel output `Output::updateOrientation` returns true and sets the rotation to
None for top-up, to Inverted for top-down, to Right for left-up and to Left for right-up,
changing nothing else; for an undefined, a face-up and a face-down reading it leaves the
output as it is. -/
theorem updateOrientation_mapping (output : Output) (h : output.type = OutputType.Panel) :
    output.updateOrientation .TopUp = (output.set_rotation Rotation.None, true) ∧
    output.updateOrientation .TopDown = (output.set_rotation Rotation.Inverted, true) ∧
    output.updateOrientation .LeftUp = (output.set_rotation Rotation.Right, true) ∧
    output.updateOrientation .RightUp = (output.set_rotation Rotation.Left, true) ∧
    output.updateOrientation .Undefined = (output, true) ∧
    output.updateOrientation .FaceUp = (output, true) ∧
    output.updateOrientation .FaceDown = (output, true) := by
  refine ⟨updateOrientation_panel _ _ h, updateOrientation_panel _ _ h,
    updateOrientation_panel _ _ h, updateOrientation_panel _ _ h, ?_, ?_, ?_⟩ <;>
  · rw [updateOrientation_panel _ _ h]
    simp only [orientationToRotation, Output.set_rotation_self]

/-- Witness for `updateOrientation_mapping`: the panel rotated to the left is turned upside
down by a top-down reading and keeps its rotation for a face-up reading. -/
theorem updateOrientation_mapping_witness :
    panelOutput.type = OutputType.Panel ∧
      (panelOutput.updateOrientation .TopDown).1.rotation = 4 ∧
      (panelOutput.updateOrientation .FaceUp).1.rotation = 2 :=
  ⟨rfl, by rw [(updateOrientation_mapping panelOutput rfl).2.1]; rfl,
    by rw [(updateOrientation_mapping panelOutput rfl).2.2.2.2.2.1]; rfl⟩

/-- C17. Let `o` be the first output in iteration order that has auto-rotate enabled and is
a panel. If `o` is to rotate in tablet mode only and tablet mode is not engaged,
`Config::setDeviceOrientation` sets its rotation to None for every orientation reading; if
tablet mode is engaged or the flag is not set, a top-down reading sets its rotation to
Inverted. No other output changes. -/
theorem setDeviceOrientation_tablet_mode (env : Env) (data : DismanConfig)
    (pre post : List Output) (o : Output) (hsplit : data.outputs = pre ++ o :: post)
    (hpre : ∀ x ∈ pre, ¬ (env.getAutoRotate x = true ∧ x.type = OutputType.Panel))
    (hauto : env.getAutoRotate o = true) (hpanel : o.type = OutputType.Panel) :
    (env.getAutoRotateOnlyInTabletMode o = true → data.tabletModeEngaged = false →
      ∀ orientation, (Config.setDeviceOrientation env data orientation).outputs
        = pre ++ o.set_rotation Rotation.None :: post) ∧
    (data.tabletModeEngaged = true ∨ env.getAutoRotateOnlyInTabletMode o = false →
      (Config.setDeviceOrientation env data .TopDown).outputs
        = pre ++ o.set_rotation Rotation.Inverted :: post) := by
  constructor
  · intro honly htablet orientation
    unfold Config.setDeviceOrientation
    simp only [hsplit, setDeviceOrientationLoop_first env _ _ o post hauto hpanel pre hpre,
      honly, htablet, Bool.not_false, Bool.and_self, if_true, orientationToRotation]
  · intro h
    unfold Config.setDeviceOrientation
    simp only [hsplit, setDeviceOrientationLoop_first env _ _ o post hauto hpanel pre hpre]
    rcases h with h | h
    · simp only [h, Bool.not_true, Bool.and_false, Bool.false_eq_true, if_false,
        orientationToRotation]
    · simp only [h, Bool.false_and, Bool.false_eq_true, if_false, orientationToRotation]

/-- Witness for `setDeviceOrientation_tablet_mode`: the panel behind a monitor, tablet mode
not engaged. Where the panel rotates in tablet mode only a top-down reading sets its rotation
to None (1), where the flag is not set it sets it to Inverted (4). -/
theorem setDeviceOrientation_tablet_mode_witness :
    ((Config.setDeviceOrientation tabletEnv panelConfig .TopDown).outputs.map Output.rotation
        = [4, 1]) ∧
      ((Config.setDeviceOrientation exEnv panelConfig .TopDown).outputs.map Output.rotation
        = [4, 4]) :=
  ⟨by rw [(setDeviceOrientation_tablet_mode tabletEnv panelConfig [lidOutput] [] panelOutput
        rfl (by decide) rfl rfl).1 rfl rfl .TopDown]; rfl,
    by rw [(setDeviceOrientation_tablet_mode exEnv panelConfig [lidOutput] [] panelOutput
        rfl (by decide) rfl rfl).2 (Or.inr rfl)]; rfl⟩

/-- C18. `Config::setDeviceOrientation` leaves the configuration as it is, or it changes one
output and of that output the rotation only: the first output in iteration order that has
auto-rotate enabled and is a panel. The outputs before it (none of which is a panel with
auto-rotate), the outputs after it and the other members of the configuration are
unchanged. -/
theorem setDeviceOrientation_at_most_one (env : Env) (data : DismanConfig)
    (orientation : Orientation) :
    (Config.setDeviceOrientation env data orientation).connectedOutputsHash
        = data.connectedOutputsHash ∧
    (Config.setDeviceOrientation env data orientation).screenSize = data.screenSize ∧
    (Config.setDeviceOrientation env data orientation).tabletModeEngaged
        = data.tabletModeEngaged ∧
    ((Config.setDeviceOrientation env data orientation).outputs = data.outputs ∨
      ∃ pre o post rotation, data.outputs = pre ++ o :: post ∧
        (∀ x ∈ pre, ¬ (env.getAutoRotate x = true ∧ x.type = OutputType.Panel)) ∧
        env.getAutoRotate o = true ∧ o.type = OutputType.Panel ∧
        (Config.setDeviceOrientation env data orientation).outputs
          = pre ++ o.set_rotation rotation :: post) := by
  refine ⟨rfl, rfl, rfl, ?_⟩
  rcases setDeviceOrientationLoop_cases env data.tabletModeEngaged orientation data.outputs
    with h | ⟨pre, o, post, hl, hpre, ha, hp⟩
  · exact Or.inl h
  · right
    refine ⟨pre, o, post, orientationToRotation
      (if env.getAutoRotateOnlyInTabletMode o && !data.tabletModeEngaged then Orientation.TopUp
        else orientation) o.rotation, hl, hpre, ha, hp, ?_⟩
    unfold Config.setDeviceOrientation
    simp only [hl]
    exact setDeviceOrientationLoop_first env _ _ o post ha hp pre hpre

/-! ## Enabled outputs have a mode -/

theorem readInGlobalPartFromInfo_enabled_mode (o : Output) (info : QVariantMap)
    (h : (o.readInGlobalPartFromInfo info).enabled = true) :
    ∃ m, (o.readInGlobalPartFromInfo info).mode = some m := by
  rw [readInGlobalPartFromInfo_eq] at h ⊢
  cases hc : chosenMode o info with
  | none => rw [hc] at h; simp at h
  | some m => exact ⟨m, by simp⟩

theorem readInGlobal_of_true (env : Env) (fs : FileSystem) (o : Output)
    (h : (Output.readInGlobal env fs o).2 = true) :
    (Output.readInGlobal env fs o).1
      = o.readInGlobalPartFromInfo (Output.getGlobalData env fs o) := by
  unfold Output.readInGlobal at h ⊢
  by_cases he : (Output.getGlobalData env fs o).isEmpty = true
  · simp [he] at h
  · simp [he]

theorem readInOutput_enabled_mode (env : Env) (fs : FileSystem) (dup : List String)
    (outputsInfo : QVariantList) (o : Output)
    (h : (readInOutput env fs dup outputsInfo o).1.enabled = true) :
    ∃ m, (readInOutput env fs dup outputsInfo o).1.mode = some m := by
  unfold readInOutput at h ⊢
  cases hf : findInfo dup o outputsInfo with
  | none =>
    rw [hf] at h
    simp only [] at h ⊢
    by_cases hg : (Output.readInGlobal env fs o).2 = true
    · simp only [hg, if_true] at h ⊢
      rw [readInGlobal_of_true env fs o hg] at h ⊢
      exact readInGlobalPartFromInfo_enabled_mode _ _ h
    · simp only [hg, if_false] at h ⊢
      exact readInGlobalPartFromInfo_enabled_mode _ _ h
  | some info =>
    rw [hf] at h
    simp only [] at h ⊢
    unfold Output.readIn at h ⊢
    simp only [] at h ⊢
    split at h
    · rename_i hc
      rw [if_pos hc]
      simp only [Bool.and_eq_true] at hc
      rw [readInGlobal_of_true env fs _ hc.2] at h ⊢
      exact readInGlobalPartFromInfo_enabled_mode _ _ h
    · rename_i hc
      rw [if_neg hc]
      exact readInGlobalPartFromInfo_enabled_mode _ _ h

/-- C13. For every configuration, every record list and every state of the disk, each output
that is enabled after `Output::readInOutputs` has a mode. -/
theorem readInOutputs_enabled_has_mode (env : Env) (fs : FileSystem) (config : DismanConfig)
    (outputsInfo : QVariantList) (o1 : Output)
    (hmem : o1 ∈ (Output.readInOutputs env fs config outputsInfo).outputs)
    (henabled : o1.enabled = true) : ∃ m, o1.mode = some m := by
  have hm : Output.clearPrimary o1 ∈
      (Output.readInOutputs env fs config outputsInfo).outputs.map Output.clearPrimary :=
    List.mem_map_of_mem _ hmem
  rw [readInOutputs_map] at hm
  obtain ⟨o, _, ho⟩ := List.mem_map.mp hm
  obtain ⟨_, _, hmode, hen⟩ := clearPrimary_fields ho
  rw [← hmode]
  apply readInOutput_enabled_mode
  rw [hen]
  exact henabled

/-- Witness for `readInOutputs_enabled_has_mode`: `plainOutput`, which has no mode before, is
enabled and in the mode 1920×1080 after the defaults are read in. -/
theorem readInOutputs_enabled_has_mode_witness :
    ∃ o1, (Output.readInOutputs exEnv exFs plainConfig []).outputs = [o1] ∧
      o1.enabled = true ∧ ∃ m, o1.mode = some m :=
  ⟨(Output.readInOutputs exEnv exFs plainConfig []).outputs.head (by decide),
    by decide, by decide,
    readInOutputs_enabled_has_mode exEnv exFs plainConfig [] _ (by decide) (by decide)⟩

/-! ## The primary output after `readInOutputs` -/

theorem readInOutput_snd (env : Env) (fs : FileSystem) (dup : List String)
    (outputsInfo : QVariantList) (o : Output) :
    (readInOutput env fs dup outputsInfo o).2 = matchedPrimary dup outputsInfo o := by
  unfold readInOutput matchedPrimary
  cases findInfo dup o outputsInfo with
  | none => simp only []; split <;> rfl
  | some info => simp only []; rw [readIn_snd]

theorem exists_last_true {α : Type} (p : α → Bool) :
    ∀ l : List α, (∃ x ∈ l, p x = true) →
      ∃ pre o post, l = pre ++ o :: post ∧ p o = true ∧ ∀ x ∈ post, p x = false := by
  intro l
  induction l with
  | nil => rintro ⟨x, hx, _⟩; exact absurd hx (List.not_mem_nil _)
  | cons a t ih =>
    intro h
    by_cases ht : ∃ x ∈ t, p x = true
    · obtain ⟨pre, o, post, hl, ho, hpost⟩ := ih ht
      exact ⟨a :: pre, o, post, by rw [hl]; rfl, ho, hpost⟩
    · obtain ⟨x, hx, hpx⟩ := h
      rcases List.mem_cons.mp hx with rfl | hx
      · refine ⟨[], x, t, rfl, hpx, ?_⟩
        intro y hy
        cases hpy : p y with
        | false => rfl
        | true => exact absurd ⟨y, hy, hpy⟩ ht
      · exact absurd ⟨x, hx, hpx⟩ ht

theorem getElem?_split {α : Type} (l : List α) (j : Nat) (a : α) (h : l[j]? = some a) :
    l = l.take j ++ a :: l.drop (j + 1) ∧ (l.take j).length = j := by
  obtain ⟨hlt, hget⟩ := List.getElem?_eq_some.mp h
  constructor
  · rw [← hget, ← List.drop_eq_getElem_cons hlt, List.take_append_drop]
  · rw [List.length_take]
    omega

/-- The primary flag of the output at place `j` after `Output::readInOutputs`. -/
theorem readInOutputs_primary_at (env : Env) (fs : FileSystem) (config : DismanConfig)
    (outputsInfo : QVariantList) (j : Nat) (o : Output) (hj : config.outputs[j]? = some o) :
    ∃ o1, (Output.readInOutputs env fs config outputsInfo).outputs[j]? = some o1 ∧
      o1.primary =
        ((if matchedPrimary (duplicateIds config.outputs) outputsInfo o then true
          else if (config.outputs.take j).any
              (matchedPrimary (duplicateIds config.outputs) outputsInfo) then false
            else o.primary) &&
          !((config.outputs.drop (j + 1)).any
            (matchedPrimary (duplicateIds config.outputs) outputsInfo))) := by
  obtain ⟨hsplit, hlen⟩ := getElem?_split _ _ _ hj
  have h := readInOutputsLoop_primary
    (readInOutput env fs (duplicateIds config.outputs) outputsInfo)
    (readInOutput_primary env fs _ outputsInfo) o (config.outputs.drop (j + 1))
    (config.outputs.take j) false []
  rw [← hsplit, hlen] at h
  simp only [List.length_nil, Nat.zero_add, Bool.false_or, readInOutput_snd] at h
  have hf : (fun x => matchedPrimary (duplicateIds config.outputs) outputsInfo x)
      = matchedPrimary (duplicateIds config.outputs) outputsInfo := rfl
  rw [hf] at h
  exact h

theorem readInOutputs_primary_of (env : Env) (fs : FileSystem) (config : DismanConfig)
    (outputsInfo : QVariantList) (j : Nat) (o1 : Output)
    (hj : (Output.readInOutputs env fs config outputsInfo).outputs[j]? = some o1) :
    ∃ o, config.outputs[j]? = some o ∧
      o1.primary =
        ((if matchedPrimary (duplicateIds config.outputs) outputsInfo o then true
          else if (config.outputs.take j).any
              (matchedPrimary (duplicateIds config.outputs) outputsInfo) then false
            else o.primary) &&
          !((config.outputs.drop (j + 1)).any
            (matchedPrimary (duplicateIds config.outputs) outputsInfo))) := by
  have hlen := congrArg List.length (readInOutputs_map env fs config outputsInfo)
  simp only [List.length_map] at hlen
  obtain ⟨hlt, _⟩ := List.getElem?_eq_some.mp hj
  rw [hlen] at hlt
  have ho : config.outputs[j]? = some (config.outputs[j]) := List.getElem?_eq_getElem hlt
  obtain ⟨o2, h2, hp⟩ := readInOutputs_primary_at env fs config outputsInfo j _ ho
  rw [hj] at h2
  cases h2
  exact ⟨_, ho, hp⟩

theorem any_true_of_getElem? {α : Type} (p : α → Bool) (l : List α) (i : Nat) (a : α)
    (h : l[i]? = some a) (hp : p a = true) : l.any p = true := by
  rw [List.any_eq_true]
  exact ⟨a, List.getElem?_mem h, hp⟩

theorem any_false_of_all {α : Type} (p : α → Bool) (l : List α)
    (h : ∀ x ∈ l, p x = false) : l.any p = false := by
  rw [List.any_eq_false]
  intro x hx
  simp [h x hx]

/-- Where some live output is matched to a record with `primary` true, exactly one output is
primary after `Output::readInOutputs`: the last such output in iteration order. -/
theorem readInOutputs_primary_matched (env : Env) (fs : FileSystem) (config : DismanConfig)
    (outputsInfo : QVariantList)
    (h : ∃ o ∈ config.outputs,
      matchedPrimary (duplicateIds config.outputs) outputsInfo o = true) :
    ∃ i o, config.outputs[i]? = some o ∧
      matchedPrimary (duplicateIds config.outputs) outputsInfo o = true ∧
      ∀ (j : Nat) (o1 : Output),
        (Output.readInOutputs env fs config outputsInfo).outputs[j]? = some o1 →
        (o1.primary = true ↔ j = i) := by
  obtain ⟨pre, o, post, hl, ho, hpost⟩ := exists_last_true _ _ h
  have hi : config.outputs[pre.length]? = some o := by
    rw [hl, List.getElem?_append_right (le_refl _)]
    simp
  refine ⟨pre.length, o, hi, ho, ?_⟩
  intro j o1 hj
  obtain ⟨oj, hoj, hp⟩ := readInOutputs_primary_of env fs config outputsInfo j o1 hj
  rw [hp]
  rcases Nat.lt_trichotomy j pre.length with hlt | heq | hgt
  · have hd : (config.outputs.drop (j + 1))[pre.length - (j + 1)]? = some o := by
      rw [List.getElem?_drop, ← hi]
      congr 1
      omega
    rw [any_true_of_getElem? _ _ _ _ hd ho]
    simp only [Bool.not_true, Bool.and_false, Bool.false_eq_true, false_iff]
    omega
  · subst heq
    rw [hi] at hoj
    cases hoj
    have hd : config.outputs.drop (pre.length + 1) = post := by
      rw [hl]
      simp
    rw [hd, any_false_of_all _ _ hpost, ho]
    simp
  · have hmem : oj ∈ post := by
      rw [hl, List.getElem?_append_right (le_of_lt hgt)] at hoj
      obtain ⟨k, hk⟩ : ∃ k, j - pre.length = k + 1 := ⟨j - pre.length - 1, by omega⟩
      rw [hk, List.getElem?_cons_succ] at hoj
      exact List.getElem?_mem hoj
    have ht : (config.outputs.take j)[pre.length]? = some o := by
      rw [List.getElem?_take_of_lt hgt]
      exact hi
    rw [hpost oj hmem, any_true_of_getElem? _ _ _ _ ht ho]
    simp only [Bool.false_eq_true, if_false, if_true, Bool.false_and, false_iff]
    omega

/-- Where no live output is matched to a record with `primary` true, every output keeps its
primary flag in `Output::readInOutputs`. -/
theorem readInOutputs_primary_unmatched (env : Env) (fs : FileSystem) (config : DismanConfig)
    (outputsInfo : QVariantList)
    (h : ∀ o ∈ config.outputs,
      matchedPrimary (duplicateIds config.outputs) outputsInfo o = false)
    (j : Nat) (o1 : Output)
    (hj : (Output.readInOutputs env fs config outputsInfo).outputs[j]? = some o1) :
    ∃ o, config.outputs[j]? = some o ∧ o1.primary = o.primary := by
  obtain ⟨oj, hoj, hp⟩ := readInOutputs_primary_of env fs config outputsInfo j o1 hj
  refine ⟨oj, hoj, ?_⟩
  rw [hp, h oj (List.getElem?_mem hoj),
    any_false_of_all _ _ (fun x hx => h x (List.mem_of_mem_take hx)),
    any_false_of_all _ _ (fun x hx => h x (List.mem_of_mem_drop hx))]
  simp

/-- C12. After `Output::readInOutputs` at most one output of the configuration is marked
primary, given that at most one was before. More precisely: whenever some live output is
matched to a record with `primary` true, exactly one output is marked primary afterwards,
whatever the flags were before, and it is one whose matched record has `primary` true (the
last such output in iteration order); whenever no live output is matched to such a record,
every output keeps its flag. -/
theorem readInOutputs_one_primary (env : Env) (fs : FileSystem) (config : DismanConfig)
    (outputsInfo : QVariantList) :
    (AtMostOnePrimary config.outputs →
      AtMostOnePrimary (Output.readInOutputs env fs config outputsInfo).outputs) ∧
    ((∃ o ∈ config.outputs,
        matchedPrimary (duplicateIds config.outputs) outputsInfo o = true) →
      ∃ (i : Nat) (o o1 : Output), config.outputs[i]? = some o ∧
        matchedPrimary (duplicateIds config.outputs) outputsInfo o = true ∧
        (Output.readInOutputs env fs config outputsInfo).outputs[i]? = some o1 ∧
        o1.primary = true ∧
        ∀ (j : Nat) (o2 : Output),
          (Output.readInOutputs env fs config outputsInfo).outputs[j]? = some o2 →
          o2.primary = true → j = i) ∧
    ((∀ o ∈ config.outputs,
        matchedPrimary (duplicateIds config.outputs) outputsInfo o = false) →
      ∀ (j : Nat) (o1 : Output),
        (Output.readInOutputs env fs config outputsInfo).outputs[j]? = some o1 →
        ∃ o, config.outputs[j]? = some o ∧ o1.primary = o.primary) := by
  have hmatched : (∃ o ∈ config.outputs,
        matchedPrimary (duplicateIds config.outputs) outputsInfo o = true) →
      ∃ (i : Nat) (o o1 : Output), config.outputs[i]? = some o ∧
        matchedPrimary (duplicateIds config.outputs) outputsInfo o = true ∧
        (Output.readInOutputs env fs config outputsInfo).outputs[i]? = some o1 ∧
        o1.primary = true ∧
        ∀ (j : Nat) (o2 : Output),
          (Output.readInOutputs env fs config outputsInfo).outputs[j]? = some o2 →
          o2.primary = true → j = i := by
    intro hex
    obtain ⟨i, o, hi, ho, hiff⟩ := readInOutputs_primary_matched env fs config outputsInfo hex
    obtain ⟨o1, h1, _⟩ := readInOutputs_primary_at env fs config outputsInfo i o hi
    exact ⟨i, o, o1, hi, ho, h1, (hiff i o1 h1).mpr rfl, fun j o2 h2 hp => (hiff j o2 h2).mp hp⟩
  refine ⟨?_, hmatched, readInOutputs_primary_unmatched env fs config outputsInfo⟩
  intro hin
  by_cases hex : ∃ o ∈ config.outputs,
      matchedPrimary (duplicateIds config.outputs) outputsInfo o = true
  · obtain ⟨i, _, _, _, _, _, _, huniq⟩ := hmatched hex
    intro j k a b ha hb hpa hpb
    rw [huniq j a ha hpa, huniq k b hb hpb]
  · have hall : ∀ o ∈ config.outputs,
        matchedPrimary (duplicateIds config.outputs) outputsInfo o = false := by
      intro o ho
      cases hp : matchedPrimary (duplicateIds config.outputs) outputsInfo o with
      | false => rfl
      | true => exact absurd ⟨o, ho, hp⟩ hex
    intro j k a b ha hb hpa hpb
    obtain ⟨oa, hoa, hea⟩ := readInOutputs_primary_unmatched env fs config outputsInfo hall j a ha
    obtain ⟨ob, hob, heb⟩ := readInOutputs_primary_unmatched env fs config outputsInfo hall k b hb
    exact hin j k oa ob hoa hob (by rw [← hea]; exact hpa) (by rw [← heb]; exact hpb)

/-- Witness for `readInOutputs_one_primary`: a monitor and the panel, none of them primary,
with a record that marks the panel primary: afterwards at most one output is primary and the
panel is. -/
theorem readInOutputs_one_primary_witness :
    AtMostOnePrimary panelConfig.outputs ∧
      AtMostOnePrimary (Output.readInOutputs exEnv exFs panelConfig [primaryRecord]).outputs ∧
      ∃ (i : Nat) (o o1 : Output), panelConfig.outputs[i]? = some o ∧
        matchedPrimary (duplicateIds panelConfig.outputs) [primaryRecord] o = true ∧
        (Output.readInOutputs exEnv exFs panelConfig [primaryRecord]).outputs[i]? = some o1 ∧
        o1.primary = true ∧
        ∀ (j : Nat) (o2 : Output),
          (Output.readInOutputs exEnv exFs panelConfig [primaryRecord]).outputs[j]? = some o2 →
          o2.primary = true → j = i :=
  have hin : AtMostOnePrimary panelConfig.outputs := fun _ _ a _ ha _ hpa _ =>
    absurd hpa (by
      have h : ∀ x ∈ panelConfig.outputs, x.primary = false := by decide
      rw [h a (List.getElem?_mem ha)]
      decide)
  ⟨hin, (readInOutputs_one_primary exEnv exFs panelConfig [primaryRecord]).1 hin,
    (readInOutputs_one_primary exEnv exFs panelConfig [primaryRecord]).2.1
      ⟨panelOutput, by decide, by decide⟩⟩

/-! ## The records of a saved configuration -/

theorem writtenRecords_ids (env : Env) (old : List Output) (outputs : List Output) :
    (writtenRecords env old outputs).length = (outputs.filter Output.isConnected).length ∧
    (writtenRecords env old outputs).map (fun r => infoId r.toMap)
      = (outputs.filter Output.isConnected).map Output.hash ∧
    (writtenRecords env old outputs).map (fun r => infoName r.toMap)
      = (outputs.filter Output.isConnected).map Output.name := by
  unfold writtenRecords
  refine ⟨by simp, ?_, ?_⟩
  · rw [List.map_map]
    apply List.map_congr_left
    intro x _
    exact (writeFileInfo_id env _ x).1
  · rw [List.map_map]
    apply List.map_congr_left
    intro x _
    exact (writeFileInfo_id env _ x).2.1

theorem writeFileLoop_snd (env : Env) (fs : FileSystem) (data : DismanConfig) :
    ∃ old, (Config.writeFileLoop env fs data).2 = writtenRecords env old data.outputs := by
  unfold Config.writeFileLoop
  simp only []
  rw [writeFileLoop_records]
  exact ⟨_, List.nil_append _⟩

/-- C20. For a configuration with a non-empty id and a destination that can be written,
`Config::writeFile` returns true and the list it writes holds one record for each connected
output, in the iteration order of the outputs, and nothing else: the records are those the loop
body builds for the connected outputs, and the `id` and the stored name of the k-th record are
the hash and the name of the k-th connected output. A disconnected output has no record. -/
theorem writeFile_records (env : Env) (fs : FileSystem) (data : DismanConfig) (filePath : String)
    (hid : Config.id (some data) ≠ "") (hpath : filePath ≠ "")
    (hwritable : fs.writable filePath = true) :
    (Config.writeFile env fs (some data) filePath).2 = true ∧
    ∃ (old : List Output) (records : QVariantList),
      (Config.writeFile env fs (some data) filePath).1.files filePath = some (.list records) ∧
      records = (data.outputs.filter Output.isConnected).map (fun x =>
        QVariant.map (writeFileInfo env (old.find? (fun out => out.hashMd5 == x.hashMd5)) x)) ∧
      records.length = (data.outputs.filter Output.isConnected).length ∧
      records.map (fun r => infoId r.toMap)
        = (data.outputs.filter Output.isConnected).map Output.hash ∧
      records.map (fun r => infoName r.toMap)
        = (data.outputs.filter Output.isConnected).map Output.name := by
  have hid2 : data.connectedOutputsHash ≠ "" := hid
  obtain ⟨old, hold⟩ := writeFileLoop_snd env fs data
  have hw : (Config.writeFileLoop env fs data).1.writable filePath = true := by
    rw [(writeFileLoop_fs_attrs env fs data).1]
    exact hwritable
  rw [writeFile_some env fs data filePath hid2,
    FileSystem.write_of_writable _ _ _ hpath hw]
  refine ⟨rfl, old, writtenRecords env old data.outputs, ?_, rfl, writtenRecords_ids env old _⟩
  simp only []
  rw [FileSystem.setFile_files_same, hold]

/-- Witness for `writeFile_records`: a connected monitor and a disconnected one; the file holds
the record of the connected monitor only. -/
theorem writeFile_records_witness :
    (Config.writeFile exEnv exFs (some halfConfig) "/kdisplay/t").2 = true ∧
      ∃ (old : List Output) (records : QVariantList),
        (Config.writeFile exEnv exFs (some halfConfig) "/kdisplay/t").1.files "/kdisplay/t"
          = some (.list records) ∧
        records = [QVariant.map (writeFileInfo exEnv
          (old.find? (fun out => out.hashMd5 == lidOutput.hashMd5)) lidOutput)] ∧
        records.length = 1 ∧
        records.map (fun r => infoId r.toMap) = ["a"] ∧
        records.map (fun r => infoName r.toMap) = ["DP-1"] :=
  writeFile_records exEnv exFs halfConfig "/kdisplay/t"
    (by decide) (by decide) rfl

/-! ## Files a save leaves alone -/

theorem readFile0_files_ne (env : Env) (fs : FileSystem) (m_data : Option DismanConfig)
    (q : String) (h1 : ∀ fs1 : FileSystem, q ≠ Config.filePath env fs1 m_data)
    (h2 : ∀ fs1 : FileSystem, q ≠ Config.filePath env fs1 m_data ++ "_lidOpened") :
    (Config.readFile0 env fs m_data).1.files q = fs.files q := by
  unfold Config.readFile0
  simp only []
  split
  · split
    · split
      · rename_i fs2 h
        rw [FileSystem.remove_files_ne _ _ _ (h2 _), FileSystem.copy_files_ne h _ (h1 _),
          FileSystem.remove_files_ne _ _ _ (h1 _)]
      · rw [FileSystem.remove_files_ne _ _ _ (h1 _)]
    · rfl
  · rfl

theorem global_ne_lidOpened (env : Env) (h a : String) :
    Output.path env h ≠ a ++ "_lidOpened" := by
  intro e
  have h1 := string_last (Output.dirPath env ++ h) ".json" 'n' (by decide)
  have h2 := string_last a "_lidOpened" 'd' (by decide)
  unfold Output.path at e
  rw [e, h2] at h1
  revert h1
  decide

theorem FileSystem.fileExists_empty (fs : FileSystem) : fs.fileExists "" = false := by
  unfold FileSystem.fileExists
  simp

theorem FileSystem.remove_files_locked (fs : FileSystem) (p q : String)
    (hq : q = "" ∨ fs.writable q = false) : (fs.remove p).files q = fs.files q := by
  unfold FileSystem.remove
  by_cases hc : (fs.fileExists p && fs.writable p) = true
  · rw [if_pos hc]
    simp only [Bool.and_eq_true] at hc
    apply FileSystem.setFile_files_ne
    rintro rfl
    rcases hq with rfl | hq
    · rw [FileSystem.fileExists_empty] at hc
      exact absurd hc.1 (by decide)
    · rw [hq] at hc
      exact absurd hc.2 (by decide)
  · rw [if_neg hc]

theorem FileSystem.write_files_locked {fs fs1 : FileSystem} {p : String} {v : QVariant}
    (h : fs.write p v = some fs1) (q : String) (hq : q = "" ∨ fs.writable q = false) :
    fs1.files q = fs.files q := by
  obtain ⟨e1, e2, e3⟩ := FileSystem.write_eq_some h
  rw [e1]
  apply FileSystem.setFile_files_ne
  rintro rfl
  rcases hq with rfl | hq
  · exact e2 rfl
  · rw [hq] at e3
    exact absurd e3 (by decide)

theorem FileSystem.copy_files_locked {fs fs1 : FileSystem} {src dst : String}
    (h : fs.copy src dst = some fs1) (q : String) (hq : q = "" ∨ fs.writable q = false) :
    fs1.files q = fs.files q := by
  apply FileSystem.copy_files_ne h
  rintro rfl
  unfold FileSystem.copy at h
  cases hr : fs.read src with
  | none => rw [hr] at h; cases h
  | some v =>
    rw [hr] at h
    simp only [] at h
    by_cases hc : (q != "" && !fs.fileExists q && fs.writable q) = true
    · simp only [Bool.and_eq_true, bne_iff_ne, ne_eq] at hc
      rcases hq with rfl | hq
      · exact hc.1.1 rfl
      · rw [hq] at hc
        exact absurd hc.2 (by decide)
    · rw [if_neg hc] at h
      cases h

theorem readFile0_files_locked (env : Env) (fs : FileSystem) (m_data : Option DismanConfig)
    (q : String) (hq : q = "" ∨ fs.writable q = false) :
    (Config.readFile0 env fs m_data).1.files q = fs.files q := by
  have hq1 : ∀ p, q = "" ∨ (fs.remove p).writable q = false := by
    intro p
    rw [FileSystem.remove_writable]
    exact hq
  unfold Config.readFile0
  simp only []
  split
  · split
    · split
      · rename_i fs2 h
        have hq2 : q = "" ∨ fs2.writable q = false := by
          rw [(FileSystem.copy_eq_some h).1]
          exact hq1 _
        rw [FileSystem.remove_files_locked _ _ _ hq2, FileSystem.copy_files_locked h _ (hq1 _),
          FileSystem.remove_files_locked _ _ _ hq]
      · rw [FileSystem.remove_files_locked _ _ _ hq]
    · rfl
  · rfl

theorem writeGlobal_files_locked (env : Env) (fs : FileSystem) (x : Output) (q : String)
    (hq : q = "" ∨ fs.writable q = false) :
    (Output.writeGlobal env fs x).files q = fs.files q := by
  unfold Output.writeGlobal
  simp only []
  split
  · rfl
  · split
    · rfl
    · rename_i fs1 hw
      exact FileSystem.write_files_locked hw q hq

theorem writeFileStep_files_locked (env : Env) (old : List Output)
    (acc : FileSystem × QVariantList) (x : Output) (q : String)
    (hq : q = "" ∨ acc.1.writable q = false) :
    (writeFileStep env old acc x).1.files q = acc.1.files q := by
  unfold writeFileStep
  simp only []
  split
  · rfl
  · simp only []
    split
    · exact writeGlobal_files_locked env acc.1 x q hq
    · rfl

theorem writeFileLoop_files_locked (env : Env) (old : List Output) (q : String)
    (outputs : List Output) :
    ∀ acc : FileSystem × QVariantList, (q = "" ∨ acc.1.writable q = false) →
      (outputs.foldl (writeFileStep env old) acc).1.files q = acc.1.files q := by
  induction outputs with
  | nil => intro acc _; rfl
  | cons x rest ih =>
    intro acc hq
    simp only [List.foldl_cons]
    have hq1 : q = "" ∨ (writeFileStep env old acc x).1.writable q = false := by
      rw [(writeFileStep_attrs env old acc x).1]
      exact hq
    rw [ih _ hq1, writeFileStep_files_locked env old acc x q hq]

theorem writeFileLoop_fs_files_locked (env : Env) (fs : FileSystem) (data : DismanConfig)
    (q : String) (hq : q = "" ∨ fs.writable q = false) :
    (Config.writeFileLoop env fs data).1.files q = fs.files q := by
  unfold Config.writeFileLoop
  simp only []
  have hq1 : q = "" ∨ (Config.readFile0 env fs (some data)).1.writable q = false := by
    rw [(readFile0_attrs env fs (some data)).1]
    exact hq
  rw [writeFileLoop_files_locked env _ q data.outputs _ hq1]
  exact readFile0_files_locked env fs (some data) q hq

theorem writeFileLoop_fs_files_ne (env : Env) (fs : FileSystem) (data : DismanConfig)
    (q : String) (h1 : ∀ fs1 : FileSystem, q ≠ Config.filePath env fs1 (some data))
    (h2 : ∀ fs1 : FileSystem, q ≠ Config.filePath env fs1 (some data) ++ "_lidOpened")
    (h3 : ∀ x ∈ data.outputs, x.connected = true → x.enabled = true →
      env.getOutputRetention x.hash x.name ≠ Retention.Individual →
      q ≠ Output.path env x.hash) :
    (Config.writeFileLoop env fs data).1.files q = fs.files q := by
  unfold Config.writeFileLoop
  simp only []
  rw [writeFileLoop_files_other env _ q data.outputs h3]
  exact readFile0_files_ne env fs (some data) q h1 h2

theorem writeFile_of_locked (env : Env) (fs : FileSystem) (data : DismanConfig) (p : String)
    (hid : data.connectedOutputsHash ≠ "") (hfail : p = "" ∨ fs.writable p = false) :
    Config.writeFile env fs (some data) p = ((Config.writeFileLoop env fs data).1, false) := by
  rw [writeFile_some env fs data p hid]
  cases hw : (Config.writeFileLoop env fs data).1.write p
      (.list (Config.writeFileLoop env fs data).2) with
  | none => rfl
  | some fs1 =>
    obtain ⟨_, e2, e3⟩ := FileSystem.write_eq_some hw
    rw [(writeFileLoop_fs_attrs env fs data).1] at e3
    rcases hfail with rfl | hfail
    · exact absurd rfl e2
    · rw [hfail] at e3
      exact absurd e3 (by decide)

/-- C19, amended. When `Config::writeFile(filePath)` cannot open the destination
for writing, it returns false and the destination file is left as it was. What the call did
before it tried to open the destination stays done: the state of the disk is the one after
`readFile()`, which may have promoted a lid-opened file, and after the loop over the outputs,
which has written the global record of each connected, enabled output that is not retained
individually. Every file other than the topology file, the lid-opened file and those global
records is left as it was. -/
theorem writeFile_open_fails (env : Env) (fs : FileSystem) (data : DismanConfig)
    (filePath : String) (hfail : filePath = "" ∨ fs.writable filePath = false) :
    (Config.writeFile env fs (some data) filePath).2 = false ∧
    (Config.writeFile env fs (some data) filePath).1.files filePath = fs.files filePath ∧
    (Config.id (some data) ≠ "" →
      (Config.writeFile env fs (some data) filePath).1 = (Config.writeFileLoop env fs data).1) ∧
    ∀ q : String, (∀ fs1 : FileSystem, q ≠ Config.filePath env fs1 (some data)) →
      (∀ fs1 : FileSystem, q ≠ Config.filePath env fs1 (some data) ++ "_lidOpened") →
      (∀ x ∈ data.outputs, x.connected = true → x.enabled = true →
        env.getOutputRetention x.hash x.name ≠ Retention.Individual →
        q ≠ Output.path env x.hash) →
      (Config.writeFile env fs (some data) filePath).1.files q = fs.files q := by
  by_cases hid : data.connectedOutputsHash = ""
  · have h2 : Config.id (some data) = "" := hid
    have hw : Config.writeFile env fs (some data) filePath = (fs, false) := by
      unfold Config.writeFile
      rw [if_pos h2]
    rw [hw]
    exact ⟨rfl, rfl, fun h => absurd h2 h, fun _ _ _ _ => rfl⟩
  · rw [writeFile_of_locked env fs data filePath hid hfail]
    exact ⟨rfl, writeFileLoop_fs_files_locked env fs data filePath hfail, fun _ => rfl,
      fun q h1 h2 h3 => writeFileLoop_fs_files_ne env fs data q h1 h2 h3⟩

/-- Witness for `writeFile_open_fails`: the topology file "/kdisplay/t" cannot be opened;
`writeFile()` returns false and there is no topology file afterwards. -/
theorem writeFile_open_fails_witness :
    lockedFs.writable "/kdisplay/t" = false ∧
      (Config.writeFile exEnv lockedFs (some lidConfig) "/kdisplay/t").2 = false ∧
      (Config.writeFile exEnv lockedFs (some lidConfig) "/kdisplay/t").1.files "/kdisplay/t"
        = none :=
  ⟨by decide,
    (writeFile_open_fails exEnv lockedFs lidConfig "/kdisplay/t" (Or.inr (by decide))).1,
    (writeFile_open_fails exEnv lockedFs lidConfig "/kdisplay/t" (Or.inr (by decide))).2.1⟩

/-- C19, as stated, fails. The topology file cannot be opened for writing and `writeFile()`
returns false, yet the global record of the output, which did not exist before the call, has
been created. -/
theorem writeFile_open_fails_writes_global :
    (Config.writeFile0 exEnv lockedFs (some lidConfig)).2 = false ∧
      lockedFs.fileExists (Output.path exEnv lidOutput.hash) = false ∧
      (Config.writeFile0 exEnv lockedFs (some lidConfig)).1.fileExists
        (Output.path exEnv lidOutput.hash) = true := by
  with_unfolding_all decide

/-! ## Outputs retained individually -/

theorem Output.eq_of_clearPrimary {a b : Output}
    (h : Output.clearPrimary a = Output.clearPrimary b) (hp : a.primary = b.primary) :
    a = b := by
  cases a
  cases b
  simp only [Output.clearPrimary, Output.set_primary, Output.mk.injEq] at h hp ⊢
  obtain ⟨h1, h2, h3, h4, h5, h6, h7, _, h9, h10, h11, h12, h13, h14⟩ := h
  exact ⟨h1, h2, h3, h4, h5, h6, h7, hp, h9, h10, h11, h12, h13, h14⟩

theorem readInOutput_individual (env : Env) (fs1 fs2 : FileSystem) (dup : List String)
    (outputsInfo : QVariantList) (o : Output) (info : QVariantMap)
    (hret : o.retention = Retention.Individual)
    (hf : findInfo dup o outputsInfo = some info) :
    readInOutput env fs1 dup outputsInfo o = readInOutput env fs2 dup outputsInfo o := by
  unfold readInOutput
  rw [hf]
  simp only []
  unfold Output.readIn
  simp [hret]

theorem readInOutputs_individual (env : Env) (fs1 fs2 : FileSystem) (config : DismanConfig)
    (outputsInfo : QVariantList) (i : Nat) (o : Output) (info : QVariantMap)
    (hi : config.outputs[i]? = some o) (hret : o.retention = Retention.Individual)
    (hf : findInfo (duplicateIds config.outputs) o outputsInfo = some info) :
    (Output.readInOutputs env fs1 config outputsInfo).outputs[i]?
      = (Output.readInOutputs env fs2 config outputsInfo).outputs[i]? := by
  obtain ⟨a, ha, hca⟩ := readInOutputs_getElem? env fs1 config outputsInfo i o hi
  obtain ⟨b, hb, hcb⟩ := readInOutputs_getElem? env fs2 config outputsInfo i o hi
  obtain ⟨a1, ha1, hpa⟩ := readInOutputs_primary_at env fs1 config outputsInfo i o hi
  obtain ⟨b1, hb1, hpb⟩ := readInOutputs_primary_at env fs2 config outputsInfo i o hi
  rw [ha] at ha1
  rw [hb] at hb1
  cases ha1
  cases hb1
  rw [ha, hb]
  congr 1
  apply Output.eq_of_clearPrimary
  · rw [hca, hcb, readInOutput_individual env fs1 fs2 _ _ o info hret hf]
  · rw [hpa, hpb]

theorem writeFile_files_ne (env : Env) (fs : FileSystem) (data : DismanConfig) (p q : String)
    (hp : q ≠ p) (h1 : ∀ fs1 : FileSystem, q ≠ Config.filePath env fs1 (some data))
    (h2 : ∀ fs1 : FileSystem, q ≠ Config.filePath env fs1 (some data) ++ "_lidOpened")
    (h3 : ∀ x ∈ data.outputs, x.connected = true → x.enabled = true →
      env.getOutputRetention x.hash x.name ≠ Retention.Individual →
      q ≠ Output.path env x.hash) :
    (Config.writeFile env fs (some data) p).1.files q = fs.files q := by
  have hloop := writeFileLoop_fs_files_ne env fs data q h1 h2 h3
  by_cases hid : data.connectedOutputsHash = ""
  · unfold Config.writeFile
    have hid2 : Config.id (some data) = "" := hid
    rw [if_pos hid2]
  · rw [writeFile_some env fs data p hid]
    cases hw : (Config.writeFileLoop env fs data).1.write p
        (.list (Config.writeFileLoop env fs data).2) with
    | none => exact hloop
    | some fs1 =>
      simp only []
      rw [(FileSystem.write_eq_some hw).1, FileSystem.setFile_files_ne _ _ _ _ hp]
      exact hloop

/-- C11, amended. Let `o` be an output of the configuration. If the retention of
`o` is Individual and `Output::readInOutputs` matches `o` to a record, the state of `o` after
the load is the same for every state of the disk, so the global record is not read. If the
control file retains individually every connected, enabled output with the hash of `o`, then
`Config::writeFile` leaves the global record of that hash as it was, provided the path of the
record is neither the destination nor the topology file. (An output that is matched to no
record reads the global record whatever its retention is.) -/
theorem individual_retention (env : Env) (fs1 fs2 : FileSystem) (config : DismanConfig)
    (outputsInfo : QVariantList) (filePath : String) (i : Nat) (o : Output)
    (hi : config.outputs[i]? = some o) :
    (o.retention = Retention.Individual →
      (findInfo (duplicateIds config.outputs) o outputsInfo).isSome = true →
      (Output.readInOutputs env fs1 config outputsInfo).outputs[i]?
        = (Output.readInOutputs env fs2 config outputsInfo).outputs[i]?) ∧
    ((∀ x ∈ config.outputs, x.hash = o.hash → x.connected = true → x.enabled = true →
        env.getOutputRetention x.hash x.name = Retention.Individual) →
      Output.path env o.hash ≠ filePath →
      Output.path env o.hash ≠ Config.configsDirPath env ++ Config.id (some config) →
      (Config.writeFile env fs1 (some config) filePath).1.files (Output.path env o.hash)
        = fs1.files (Output.path env o.hash)) := by
  constructor
  · intro hret hf
    cases hfi : findInfo (duplicateIds config.outputs) o outputsInfo with
    | none => rw [hfi] at hf; cases hf
    | some info => exact readInOutputs_individual env fs1 fs2 config outputsInfo i o info hi hret hfi
  · intro hctl hp hT
    apply writeFile_files_ne env fs1 config filePath _ hp
    · intro fs
      unfold Config.filePath
      split
      · exact Output.path_ne_empty env _
      · exact hT
    · intro fs
      exact global_ne_lidOpened env _ _
    · intro x hx hc he hr e
      exact hr (hctl x hx (Output.path_injective env e).symm hc he)

/-- Witness for `individual_retention`: an output retained individually with a record in the
topology file. The load gives the same output whether the global record exists or not, and a
save leaves the global record as it was. -/
theorem individual_retention_witness :
    (Output.readInOutputs individualEnv exFs individualConfig [staleRecord]).outputs[0]?
        = (Output.readInOutputs individualEnv globalFs individualConfig [staleRecord]).outputs[0]? ∧
      (Config.writeFile individualEnv globalFs (some individualConfig) "/kdisplay/t").1.files
          "/kdisplay/outputs/a.json"
        = globalFs.files "/kdisplay/outputs/a.json" :=
  ⟨(individual_retention individualEnv exFs globalFs individualConfig [staleRecord]
      "/kdisplay/t" 0 individualOutput rfl).1 rfl (by decide),
    (individual_retention individualEnv globalFs globalFs individualConfig [staleRecord]
      "/kdisplay/t" 0 individualOutput rfl).2 (fun _ _ _ _ _ => rfl) (by decide) (by decide)⟩

/-- C11, as stated, fails. An output whose retention is Individual and for which the topology
file has no record is loaded with the rotation of its global record: without a global record
its rotation becomes None (1), with the global record of rotation Right (8) it becomes 8. -/
theorem readInOutputs_individual_reads_global :
    individualOutput.retention = Retention.Individual ∧
      individualEnv.getOutputRetention individualOutput.hash individualOutput.name
        = Retention.Individual ∧
      (Output.readInOutputs individualEnv exFs individualConfig []).outputs.map Output.rotation
        = [1] ∧
      (Output.readInOutputs individualEnv globalFs individualConfig []).outputs.map
        Output.rotation = [8] := by
  with_unfolding_all decide

/-! ## Adjusting positions that need no adjustment -/

theorem adjustedPosition_stored (prev cur : QRect) :
    adjustedPosition ⟨prev.x, prev.y, prev.width, prev.height⟩
      ⟨cur.x, cur.y, cur.width, cur.height⟩ prev cur = ⟨cur.x, cur.y⟩ := by
  unfold adjustedPosition
  simp only [← Int.cast_add, ← Int.cast_sub, truncToInt_intCast]
  split_ifs <;> simp_all

theorem Output.set_position_self (o : Output) : o.set_position o.position = o := by
  cases o
  rfl

theorem set_of_getElem? {α : Type} (l : List α) (i : Nat) (a : α) (h : l[i]? = some a) :
    l.set i a = l := by
  apply List.ext_getElem?
  intro j
  rw [List.getElem?_set]
  by_cases hij : i = j
  · subst hij
    rw [if_pos rfl, h]
    obtain ⟨hlt, _⟩ := List.getElem?_eq_some.mp h
    rw [if_pos hlt]
  · rw [if_neg hij]

theorem adjustPositionsStep_stored (env : Env) (outputsInfo : QVariantList)
    (outputs : List Output)
    (hstored : ∀ o ∈ outputs, ∀ geo, getOutputInfoProperties outputsInfo o = some geo →
      env.geometry o = ⟨geo.x, geo.y, geo.width, geo.height⟩ ∧ o.position = ⟨geo.x, geo.y⟩)
    (prev cur : Nat) : adjustPositionsStep env outputsInfo outputs prev cur = outputs := by
  unfold adjustPositionsStep
  cases hp : outputs[prev]? with
  | none => rfl
  | some prevPtr =>
    cases hc : outputs[cur]? with
    | none => rfl
    | some curPtr =>
      simp only []
      cases hpi : getOutputInfoProperties outputsInfo prevPtr with
      | none => rfl
      | some prevInfoGeo =>
        cases hci : getOutputInfoProperties outputsInfo curPtr with
        | none => rfl
        | some curInfoGeo =>
          simp only []
          obtain ⟨hg1, _⟩ := hstored prevPtr (List.getElem?_mem hp) prevInfoGeo hpi
          obtain ⟨hg2, hpos⟩ := hstored curPtr (List.getElem?_mem hc) curInfoGeo hci
          rw [hg1, hg2, adjustedPosition_stored, ← hpos, Output.set_position_self]
          exact set_of_getElem? _ _ _ hc

theorem adjustPositionsLoop_stored (env : Env) (outputsInfo : QVariantList)
    (outputs : List Output)
    (hstored : ∀ o ∈ outputs, ∀ geo, getOutputInfoProperties outputsInfo o = some geo →
      env.geometry o = ⟨geo.x, geo.y, geo.width, geo.height⟩ ∧ o.position = ⟨geo.x, geo.y⟩)
    (sortedOutputs : List (Nat × QPoint)) :
    adjustPositionsLoop env outputsInfo sortedOutputs outputs = outputs := by
  unfold adjustPositionsLoop
  induction sortedOutputs.zip sortedOutputs.tail with
  | nil => rfl
  | cons pair rest ih =>
    rw [List.foldl_cons, adjustPositionsStep_stored env outputsInfo outputs hstored]
    exact ih

/-- C15. In a configuration in which the live geometry of each output is the rectangle
`adjustPositions` derives from its stored record, with its corner at the position of the
output, `Output::adjustPositions` leaves the configuration as it is: no position changes. This
holds for every order in which the outputs are visited, so also for the order `std::sort`
gives to outputs at the same position. -/
theorem adjustPositions_idempotent (env : Env) (config : DismanConfig)
    (outputsInfo : QVariantList)
    (hstored : ∀ o ∈ config.outputs, ∀ geo,
      getOutputInfoProperties outputsInfo o = some geo →
      env.geometry o = ⟨geo.x, geo.y, geo.width, geo.height⟩ ∧ o.position = ⟨geo.x, geo.y⟩) :
    Output.adjustPositions env config outputsInfo = config ∧
    ∀ sortedOutputs : List (Nat × QPoint),
      adjustPositionsLoop env outputsInfo sortedOutputs config.outputs = config.outputs := by
  constructor
  · unfold Output.adjustPositions
    rw [adjustPositionsLoop_stored env outputsInfo config.outputs hstored]
  · exact adjustPositionsLoop_stored env outputsInfo config.outputs hstored

/-- Witness for `adjustPositions_idempotent`: A and B with the geometries of their stored
records stay where they are. -/
theorem adjustPositions_idempotent_witness :
    Output.adjustPositions geoEnv storedConfig sideBySideRecords = storedConfig :=
  (adjustPositions_idempotent geoEnv storedConfig sideBySideRecords (by
    have hA : getOutputInfoProperties sideBySideRecords (liveA.set_mode fullMode)
        = some ⟨0, 0, 1920, 1080⟩ := by
      with_unfolding_all decide
    have hB : getOutputInfoProperties sideBySideRecords liveB
        = some ⟨1920, 0, 1920, 1080⟩ := by
      with_unfolding_all decide
    intro o ho geo hg
    simp only [storedConfig, List.mem_cons, List.mem_singleton, List.not_mem_nil,
      or_false] at ho
    rcases ho with rfl | rfl
    · rw [hA] at hg
      cases hg
      constructor
      · simp [geoEnv, modeGeometry, liveA, Output.set_mode, fullMode]
      · rfl
    · rw [hB] at hg
      cases hg
      constructor
      · simp [geoEnv, modeGeometry, liveB, fullMode]
      · rfl)).1

/-! ## The two axes of `adjustPositions` -/

theorem adjustedPosition_eq (prevGeo curGeo : QRectF) (prevInfoGeo curInfoGeo : QRect) :
    adjustedPosition prevGeo curGeo prevInfoGeo curInfoGeo =
      ⟨if xDiff prevGeo curGeo = xInfoDiff prevInfoGeo curInfoGeo then truncToInt curGeo.x
        else xCorrected prevGeo prevInfoGeo curInfoGeo,
       if (verticalCorrection prevGeo curGeo prevInfoGeo curInfoGeo).2.1
            = (verticalCorrection prevGeo curGeo prevInfoGeo curInfoGeo).1
        then truncToInt curGeo.y
        else (verticalCorrection prevGeo curGeo prevInfoGeo curInfoGeo).2.2⟩ := by
  unfold adjustedPosition verticalCorrection
  by_cases h : yTopAligned prevInfoGeo curInfoGeo = true
  · have h2 := h
    unfold yTopAligned at h2
    simp only [] at h2
    simp only [h, h2, if_true]
    rfl
  · have h2 := h
    unfold yTopAligned at h2
    simp only [] at h2
    simp only [h, h2, if_false]
    rfl

theorem yTopAligned_iff (prevInfoGeo curInfoGeo : QRect) :
    yTopAligned prevInfoGeo curInfoGeo = true ↔
      (|prevInfoGeo.y - curInfoGeo.y|
          < |prevInfoGeo.y + prevInfoGeo.height - curInfoGeo.y - curInfoGeo.height| ∧
        |prevInfoGeo.y - curInfoGeo.y| ≤ |prevInfoGeo.y + prevInfoGeo.height - curInfoGeo.y|) ∨
      |prevInfoGeo.y - curInfoGeo.y - curInfoGeo.height|
        < |prevInfoGeo.y + prevInfoGeo.height - curInfoGeo.y - curInfoGeo.height| := by
  unfold yTopAligned
  simp only [Bool.or_eq_true, Bool.and_eq_true, decide_eq_true_eq]

/-- C22, amended. In `Output::adjustPositions` the stored layout of a pair is treated as
top-aligned exactly when topToTopDiffAbs < bottomToBottomDiffAbs and
topToTopDiffAbs <= bottomToTopDiffAbs, or topToBottomDiffAbs < bottomToBottomDiffAbs (computed
on the stored rectangles), and as bottom-aligned in every other case: in the first case the
new y is the one of the branch "align to previous top", in the second the one of the branch
"align previous bottom". -/
theorem adjustPositions_alignment (prevGeo curGeo : QRectF) (prevInfoGeo curInfoGeo : QRect) :
    (((|prevInfoGeo.y - curInfoGeo.y|
            < |prevInfoGeo.y + prevInfoGeo.height - curInfoGeo.y - curInfoGeo.height| ∧
          |prevInfoGeo.y - curInfoGeo.y|
            ≤ |prevInfoGeo.y + prevInfoGeo.height - curInfoGeo.y|) ∨
        |prevInfoGeo.y - curInfoGeo.y - curInfoGeo.height|
          < |prevInfoGeo.y + prevInfoGeo.height - curInfoGeo.y - curInfoGeo.height|) →
      (adjustedPosition prevGeo curGeo prevInfoGeo curInfoGeo).y =
        if (alignTop prevGeo curGeo prevInfoGeo curInfoGeo).2.1
            = (alignTop prevGeo curGeo prevInfoGeo curInfoGeo).1
        then truncToInt curGeo.y else (alignTop prevGeo curGeo prevInfoGeo curInfoGeo).2.2) ∧
    (¬ ((|prevInfoGeo.y - curInfoGeo.y|
            < |prevInfoGeo.y + prevInfoGeo.height - curInfoGeo.y - curInfoGeo.height| ∧
          |prevInfoGeo.y - curInfoGeo.y|
            ≤ |prevInfoGeo.y + prevInfoGeo.height - curInfoGeo.y|) ∨
        |prevInfoGeo.y - curInfoGeo.y - curInfoGeo.height|
          < |prevInfoGeo.y + prevInfoGeo.height - curInfoGeo.y - curInfoGeo.height|) →
      (adjustedPosition prevGeo curGeo prevInfoGeo curInfoGeo).y =
        if (alignBottom prevGeo curGeo prevInfoGeo curInfoGeo).2.1
            = (alignBottom prevGeo curGeo prevInfoGeo curInfoGeo).1
        then truncToInt curGeo.y
        else (alignBottom prevGeo curGeo prevInfoGeo curInfoGeo).2.2) := by
  rw [adjustedPosition_eq, ← yTopAligned_iff]
  unfold verticalCorrection
  constructor
  · intro h
    simp only [h, if_true]
  · intro h
    simp only [h, Bool.false_eq_true, if_false]

/-- C22, as stated, fails. The stored pair has the top of the previous output at the bottom
of the current one: topToTopDiffAbs = bottomToBottomDiffAbs = 100, so the condition of the
claim is false, but topToBottomDiffAbs = 0 < 100 and the code treats the pair as top-aligned.
With the previous output grown from a height of 100 to 200 the current output stays at
y = -100; the bottom-aligned branch would put it at y = -200. -/
theorem adjustPositions_alignment_top_to_bottom :
    claimedTopAligned ⟨0, 0, 100, 100⟩ ⟨100, -100, 100, 100⟩ = false ∧
      yTopAligned ⟨0, 0, 100, 100⟩ ⟨100, -100, 100, 100⟩ = true ∧
      (adjustedPosition ⟨0, 0, 100, 200⟩ ⟨100, -100, 100, 100⟩ ⟨0, 0, 100, 100⟩
        ⟨100, -100, 100, 100⟩).y = -100 ∧
      (alignBottom ⟨0, 0, 100, 200⟩ ⟨100, -100, 100, 100⟩ ⟨0, 0, 100, 100⟩
        ⟨100, -100, 100, 100⟩).2.2 = -200 ∧
      (alignBottom ⟨0, 0, 100, 200⟩ ⟨100, -100, 100, 100⟩ ⟨0, 0, 100, 100⟩
        ⟨100, -100, 100, 100⟩).2.1 ≠
        (alignBottom ⟨0, 0, 100, 200⟩ ⟨100, -100, 100, 100⟩ ⟨0, 0, 100, 100⟩
          ⟨100, -100, 100, 100⟩).1 := by
  refine ⟨by decide, by decide, ?_, ?_, ?_⟩
  · norm_num [adjustedPosition, truncToInt, Int.ceil_neg, Int.floor_neg]
  · norm_num [alignBottom, yOverlap, truncToInt, Int.ceil_neg, Int.floor_neg]
  · norm_num [alignBottom, yOverlap, truncToInt, Int.ceil_neg, Int.floor_neg]

/-- C23, amended. For a pair with both stored rectangles found and a positive stored width of
the previous output A, the new x of the current output B is its current x (the x of its live
geometry) when the live gap B.x - A.right equals the stored gap, and otherwise
A.right + A.width * storedGap / storedWidthOfA truncated to an integer; x does not depend on
any vertical coordinate or height. The new y is the current y whenever the values `yDiff` and
`yInfoDiff` of the alignment branch are equal, and otherwise the value `yCorrected` of that
branch; y does not depend on any horizontal coordinate or width. -/
theorem adjustedPosition_axes (prevGeo curGeo : QRectF) (prevInfoGeo curInfoGeo : QRect)
    (hwidth : 0 < prevInfoGeo.width) :
    (truncToInt (curGeo.x - (truncToInt (prevGeo.x + prevGeo.width) : ℚ))
        = curInfoGeo.x - (prevInfoGeo.x + prevInfoGeo.width) →
      (adjustedPosition prevGeo curGeo prevInfoGeo curInfoGeo).x = truncToInt curGeo.x) ∧
    (truncToInt (curGeo.x - (truncToInt (prevGeo.x + prevGeo.width) : ℚ))
        ≠ curInfoGeo.x - (prevInfoGeo.x + prevInfoGeo.width) →
      (adjustedPosition prevGeo curGeo prevInfoGeo curInfoGeo).x =
        truncToInt ((truncToInt (prevGeo.x + prevGeo.width) : ℚ)
          + prevGeo.width * ((curInfoGeo.x - (prevInfoGeo.x + prevInfoGeo.width) : Int) : ℚ)
            / (prevInfoGeo.width : ℚ))) ∧
    (∀ (py ph cy ch : ℚ) (piy pih ciy cih : Int),
      (adjustedPosition ⟨prevGeo.x, py, prevGeo.width, ph⟩ ⟨curGeo.x, cy, curGeo.width, ch⟩
          ⟨prevInfoGeo.x, piy, prevInfoGeo.width, pih⟩
          ⟨curInfoGeo.x, ciy, curInfoGeo.width, cih⟩).x
        = (adjustedPosition prevGeo curGeo prevInfoGeo curInfoGeo).x) ∧
    ((verticalCorrection prevGeo curGeo prevInfoGeo curInfoGeo).2.1
        = (verticalCorrection prevGeo curGeo prevInfoGeo curInfoGeo).1 →
      (adjustedPosition prevGeo curGeo prevInfoGeo curInfoGeo).y = truncToInt curGeo.y) ∧
    ((verticalCorrection prevGeo curGeo prevInfoGeo curInfoGeo).2.1
        ≠ (verticalCorrection prevGeo curGeo prevInfoGeo curInfoGeo).1 →
      (adjustedPosition prevGeo curGeo prevInfoGeo curInfoGeo).y
        = (verticalCorrection prevGeo curGeo prevInfoGeo curInfoGeo).2.2) ∧
    (∀ (px pw cx cw : ℚ) (pix piw cix ciw : Int),
      (adjustedPosition ⟨px, prevGeo.y, pw, prevGeo.height⟩ ⟨cx, curGeo.y, cw, curGeo.height⟩
          ⟨pix, prevInfoGeo.y, piw, prevInfoGeo.height⟩
          ⟨cix, curInfoGeo.y, ciw, curInfoGeo.height⟩).y
        = (adjustedPosition prevGeo curGeo prevInfoGeo curInfoGeo).y) := by
  have _hw := hwidth
  refine ⟨?_, ?_, ?_, ?_, ?_, ?_⟩
  · intro h
    rw [adjustedPosition_eq]
    simp only [xDiff, xInfoDiff, prevRight, h, if_true]
  · intro h
    rw [adjustedPosition_eq]
    simp only [xDiff, xInfoDiff, prevRight, xCorrected, h, if_false]
  · intro py ph cy ch piy pih ciy cih
    rw [adjustedPosition_eq, adjustedPosition_eq]
    rfl
  · intro h
    rw [adjustedPosition_eq]
    simp only [h, if_true]
  · intro h
    rw [adjustedPosition_eq]
    simp only [h, if_false]
  · intro px pw cx cw pix piw cix ciw
    rw [adjustedPosition_eq, adjustedPosition_eq]
    rfl

/-- Witness for `adjustedPosition_axes`: the previous output grows from 1920 to 2560 in width;
the live gap is -640, the stored gap 0, and the new x is 2560 + 2560 * 0 / 1920 = 2560. -/
theorem adjustedPosition_axes_witness :
    (adjustedPosition ⟨0, 0, 2560, 1440⟩ ⟨1920, 0, 1920, 1080⟩ ⟨0, 0, 1920, 1080⟩
      ⟨1920, 0, 1920, 1080⟩).x = 2560 := by
  rw [(adjustedPosition_axes ⟨0, 0, 2560, 1440⟩ ⟨1920, 0, 1920, 1080⟩ ⟨0, 0, 1920, 1080⟩
    ⟨1920, 0, 1920, 1080⟩ (by decide)).2.1
    (by norm_num [truncToInt, Int.ceil_neg, Int.floor_neg])]
  norm_num [truncToInt]

/-- C23, as stated, fails for the vertical axis. First pair: the live vertical delta
B.y - A.y is 0 and so is the stored one, yet y changes from 0 to 360, because the code
compares the distance of the bottom edges. Second pair: the values `yDiff` = 20 and
`yInfoDiff` = 10 the code compares differ, yet the corrected y is the current y, 20. -/
theorem adjustedPosition_vertical_not_exact :
    ((QRectF.mk 1920 0 1920 1080).y - (QRectF.mk 0 0 2560 1440).y
        = (((QRect.mk 1920 0 1920 1080).y - (QRect.mk 0 0 1920 1080).y : Int) : ℚ) ∧
      (adjustedPosition ⟨0, 0, 2560, 1440⟩ ⟨1920, 0, 1920, 1080⟩ ⟨0, 0, 1920, 1080⟩
        ⟨1920, 0, 1920, 1080⟩).y = 360) ∧
    ((verticalCorrection ⟨0, 0, 100, 300⟩ ⟨100, 20, 100, 200⟩ ⟨0, 0, 100, 300⟩
        ⟨100, 10, 100, 100⟩).2.1 = 20 ∧
      (verticalCorrection ⟨0, 0, 100, 300⟩ ⟨100, 20, 100, 200⟩ ⟨0, 0, 100, 300⟩
        ⟨100, 10, 100, 100⟩).1 = 10 ∧
      (adjustedPosition ⟨0, 0, 100, 300⟩ ⟨100, 20, 100, 200⟩ ⟨0, 0, 100, 300⟩
        ⟨100, 10, 100, 100⟩).y = 20) := by
  have ht : yTopAligned ⟨0, 0, 100, 300⟩ ⟨100, 10, 100, 100⟩ = true := by decide
  refine ⟨⟨by norm_num, ?_⟩, ?_, ?_, ?_⟩
  · rw [sideBySide_position]
  · norm_num [verticalCorrection, ht, alignTop, yOverlap, truncToInt]
  · norm_num [verticalCorrection, ht, alignTop, yOverlap, truncToInt]
  · norm_num [adjustedPosition, truncToInt, Int.ceil_neg, Int.floor_neg]

/-! ## The records `adjustPositions` accepts -/

theorem truncToInt_pos (d : ℚ) (h : 1 ≤ d) : 0 < truncToInt d := by
  unfold truncToInt
  have h0 : (0 : ℚ) ≤ d := le_trans (by norm_num) h
  rw [if_pos h0]
  have h1 : (1 : Int) ≤ ⌊d⌋ := Int.le_floor.mpr (by simpa using h)
  omega

/-- C27, amended. For every stored record that `getOutputInfoProperties` accepts the scale is
strictly positive, so the division by the scale does not divide by zero. The derived stored
rectangle has the stored extents divided by the scale and truncated (transposed for a portrait
rotation); its width and height are strictly positive when the stored width and height are at
least the scale. The extents themselves are not checked. -/
theorem getOutputInfoProperties_accepts (outputsInfo : QVariantList) (output : Output)
    (geo : QRect) (h : getOutputInfoProperties outputsInfo output = some geo) :
    ∃ it ∈ outputsInfo,
      (it.toMap.get "id").toString = output.hash ∧
      0 < (it.toMap.get "scale").toDouble ∧
      geo.x = (((it.toMap.get "pos").toMap).get "x").toInt ∧
      geo.y = (((it.toMap.get "pos").toMap).get "y").toInt ∧
      ((geo.width = truncToInt (((infoSize it.toMap).width : ℚ) / (it.toMap.get "scale").toDouble)
          ∧ geo.height
            = truncToInt (((infoSize it.toMap).height : ℚ) / (it.toMap.get "scale").toDouble)) ∨
        (geo.height
            = truncToInt (((infoSize it.toMap).width : ℚ) / (it.toMap.get "scale").toDouble)
          ∧ geo.width
            = truncToInt (((infoSize it.toMap).height : ℚ) / (it.toMap.get "scale").toDouble))) ∧
      ((it.toMap.get "scale").toDouble ≤ ((infoSize it.toMap).width : ℚ) →
        (it.toMap.get "scale").toDouble ≤ ((infoSize it.toMap).height : ℚ) →
        0 < geo.width ∧ 0 < geo.height) := by
  unfold getOutputInfoProperties at h
  cases hf : outputsInfo.find? (fun v => (v.toMap.get "id").toString == output.hash) with
  | none => rw [hf] at h; cases h
  | some it =>
    rw [hf] at h
    simp only [] at h
    have hmem := List.mem_of_find?_eq_some hf
    have hid := List.find?_some hf
    simp only [beq_iff_eq] at hid
    split at h
    · cases h
    · split at h
      · cases h
      · rename_i hscale
        have hpos : 0 < (it.toMap.get "scale").toDouble := lt_of_not_ge hscale
        have hw : ∀ v : Int, (it.toMap.get "scale").toDouble ≤ (v : ℚ) →
            0 < truncToInt ((v : ℚ) / (it.toMap.get "scale").toDouble) := by
          intro v hv
          apply truncToInt_pos
          rw [le_div_iff₀ hpos]
          simpa using hv
        simp only [Option.some.injEq] at h
        subst h
        refine ⟨it, hmem, hid, hpos, rfl, rfl, ?_, ?_⟩
        · by_cases hp : isPortrait (it.toMap.get "rotation") = true
          · right
            simp only [hp, if_true]
            exact ⟨rfl, rfl⟩
          · left
            simp only [hp, if_false, Bool.false_eq_true]
            exact ⟨rfl, rfl⟩
        · intro h1 h2
          by_cases hp : isPortrait (it.toMap.get "rotation") = true
          · simp only [hp, if_true]
            exact ⟨hw _ h2, hw _ h1⟩
          · simp only [hp, if_false, Bool.false_eq_true]
            exact ⟨hw _ h1, hw _ h2⟩

/-- Witness for `getOutputInfoProperties_accepts`: the record of A, 1920×1080 at scale 1. -/
theorem getOutputInfoProperties_accepts_witness :
    ∃ it ∈ sideBySideRecords,
      (it.toMap.get "id").toString = liveA.hash ∧
      0 < (it.toMap.get "scale").toDouble ∧
      (0 : Int) = (((it.toMap.get "pos").toMap).get "x").toInt ∧
      (0 : Int) = (((it.toMap.get "pos").toMap).get "y").toInt ∧
      (((1920 : Int)
            = truncToInt (((infoSize it.toMap).width : ℚ) / (it.toMap.get "scale").toDouble)
          ∧ (1080 : Int)
            = truncToInt (((infoSize it.toMap).height : ℚ) / (it.toMap.get "scale").toDouble)) ∨
        ((1080 : Int)
            = truncToInt (((infoSize it.toMap).width : ℚ) / (it.toMap.get "scale").toDouble)
          ∧ (1920 : Int)
            = truncToInt (((infoSize it.toMap).height : ℚ) / (it.toMap.get "scale").toDouble))) ∧
      ((it.toMap.get "scale").toDouble ≤ ((infoSize it.toMap).width : ℚ) →
        (it.toMap.get "scale").toDouble ≤ ((infoSize it.toMap).height : ℚ) →
        (0 : Int) < 1920 ∧ (0 : Int) < 1080) :=
  getOutputInfoProperties_accepts sideBySideRecords liveA ⟨0, 0, 1920, 1080⟩
    (by with_unfolding_all decide)

/-- C27, as stated, fails. A record with a stored mode size of 0×0 and scale 1 is accepted
and the derived stored rectangle has width 0 and height 0. -/
theorem getOutputInfoProperties_accepts_empty_size :
    getOutputInfoProperties [storedRecord "A" 0 0 0 0] liveA = some ⟨0, 0, 0, 0⟩ := by
  with_unfolding_all decide

/-! ## Written records carry no scale -/

theorem QVariantMap.hasKey_insert_same (m : QVariantMap) (k : String) (v : QVariant) :
    QVariantMap.hasKey (QVariantMap.insert m k v) k = true := by
  unfold QVariantMap.hasKey
  rw [QVariantMap.lookup_insert_same]
  rfl

theorem QVariantMap.hasKey_insert_ne (m : QVariantMap) (k k2 : String) (v : QVariant)
    (hne : k2 ≠ k) :
    QVariantMap.hasKey (QVariantMap.insert m k v) k2 = QVariantMap.hasKey m k2 := by
  unfold QVariantMap.hasKey
  rw [QVariantMap.lookup_insert_ne _ _ _ _ hne]

theorem QVariantMap.get_of_hasKey_false (m : QVariantMap) (k : String)
    (h : QVariantMap.hasKey m k = false) : QVariantMap.get m k = .invalid := by
  unfold QVariantMap.hasKey at h
  unfold QVariantMap.get
  cases hl : m.lookup k with
  | none => rfl
  | some v => rw [hl] at h; cases h

theorem writeGlobalPart_hasKey_ne (env : Env) (output : Output) (info : QVariantMap)
    (fallback : Option Output) (k : String) (h1 : k ≠ "id") (h2 : k ≠ "metadata")
    (h3 : k ≠ "rotation") (h4 : k ≠ "mode") :
    QVariantMap.hasKey (Output.writeGlobalPart env output info fallback).2 k
      = QVariantMap.hasKey info k := by
  rcases writeGlobalPart_cases env output info fallback with h | ⟨r, s, h⟩
  · rw [h]
    unfold globalPartBase
    rw [QVariantMap.hasKey_insert_ne _ _ _ _ h3, QVariantMap.hasKey_insert_ne _ _ _ _ h2,
      QVariantMap.hasKey_insert_ne _ _ _ _ h1]
  · rw [h]
    unfold globalPartBase
    rw [QVariantMap.hasKey_insert_ne _ _ _ _ h4, QVariantMap.hasKey_insert_ne _ _ _ _ h3,
      QVariantMap.hasKey_insert_ne _ _ _ _ h2, QVariantMap.hasKey_insert_ne _ _ _ _ h1]

theorem writeFileInfo_no_scale (env : Env) (old : Option Output) (output : Output) :
    QVariantMap.hasKey (writeFileInfo env old output) "scale" = false := by
  have hb : QVariantMap.hasKey (Output.writeGlobalPart env output [] old).2 "scale" = false := by
    rw [writeGlobalPart_hasKey_ne env output [] old "scale" (by decide) (by decide)
      (by decide) (by decide)]
    rfl
  unfold writeFileInfo
  simp only []
  split
  · rw [QVariantMap.hasKey_insert_ne _ _ _ _ (by decide),
      QVariantMap.hasKey_insert_ne _ _ _ _ (by decide)]
    exact hb
  · rw [QVariantMap.hasKey_insert_ne _ _ _ _ (by decide),
      QVariantMap.hasKey_insert_ne _ _ _ _ (by decide),
      QVariantMap.hasKey_insert_ne _ _ _ _ (by decide)]
    exact hb

theorem writtenRecords_no_scale (env : Env) (old : List Output) (outputs : List Output)
    (r : QVariant) (hr : r ∈ writtenRecords env old outputs) :
    QVariantMap.hasKey r.toMap "scale" = false := by
  unfold writtenRecords at hr
  obtain ⟨x, _, rfl⟩ := List.mem_map.mp hr
  exact writeFileInfo_no_scale env _ x

theorem getOutputInfoProperties_no_scale (outputsInfo : QVariantList)
    (h : ∀ r ∈ outputsInfo, QVariantMap.hasKey r.toMap "scale" = false) (output : Output) :
    getOutputInfoProperties outputsInfo output = none := by
  unfold getOutputInfoProperties
  cases hf : outputsInfo.find? (fun v => (v.toMap.get "id").toString == output.hash) with
  | none => rfl
  | some it =>
    simp only []
    have hs := QVariantMap.get_of_hasKey_false _ _ (h it (List.mem_of_find?_eq_some hf))
    rw [hs]
    simp [QVariant.canConvertInt]

theorem adjustPositionsStep_rejected (env : Env) (outputsInfo : QVariantList)
    (h : ∀ o : Output, getOutputInfoProperties outputsInfo o = none)
    (outputs : List Output) (prev cur : Nat) :
    adjustPositionsStep env outputsInfo outputs prev cur = outputs := by
  unfold adjustPositionsStep
  cases outputs[prev]? with
  | none => rfl
  | some prevPtr =>
    cases outputs[cur]? with
    | none => rfl
    | some curPtr =>
      simp only [h]

theorem adjustPositionsLoop_rejected (env : Env) (outputsInfo : QVariantList)
    (h : ∀ o : Output, getOutputInfoProperties outputsInfo o = none)
    (sortedOutputs : List (Nat × QPoint)) (outputs : List Output) :
    adjustPositionsLoop env outputsInfo sortedOutputs outputs = outputs := by
  unfold adjustPositionsLoop
  induction sortedOutputs.zip sortedOutputs.tail with
  | nil => rfl
  | cons pair rest ih =>
    rw [List.foldl_cons, adjustPositionsStep_rejected env outputsInfo h]
    exact ih

theorem writeFileLoop_snd_old (env : Env) (fs : FileSystem) (data : DismanConfig) :
    (Config.writeFileLoop env fs data).2
      = writtenRecords env (Config.oldOutputs env fs data) data.outputs := by
  unfold Config.writeFileLoop Config.oldOutputs
  simp only []
  rw [writeFileLoop_records]
  exact List.nil_append _

/-- C28. No record of the list `Config::writeFile` builds contains a key `scale`; the list is
what a successful call writes to the destination. Consequently `getOutputInfoProperties`
rejects the record of every output, and `Output::adjustPositions` called with that list leaves
every configuration as it is, in whatever order the outputs are visited. -/
theorem adjustPositions_written_records (env : Env) (fs : FileSystem) (data : DismanConfig)
    (filePath : String) :
    ((Config.writeFile env fs (some data) filePath).2 = true →
      (Config.writeFile env fs (some data) filePath).1.files filePath
        = some (.list (Config.writeFileLoop env fs data).2)) ∧
    (∀ r ∈ (Config.writeFileLoop env fs data).2, QVariantMap.hasKey r.toMap "scale" = false) ∧
    (∀ output : Output,
      getOutputInfoProperties (Config.writeFileLoop env fs data).2 output = none) ∧
    (∀ (env2 : Env) (config : DismanConfig),
      Output.adjustPositions env2 config (Config.writeFileLoop env fs data).2 = config) ∧
    (∀ (env2 : Env) (sortedOutputs : List (Nat × QPoint)) (outputs : List Output),
      adjustPositionsLoop env2 (Config.writeFileLoop env fs data).2 sortedOutputs outputs
        = outputs) := by
  have hs : ∀ r ∈ (Config.writeFileLoop env fs data).2,
      QVariantMap.hasKey r.toMap "scale" = false := by
    intro r hr
    rw [writeFileLoop_snd_old] at hr
    exact writtenRecords_no_scale env _ _ r hr
  have hn := getOutputInfoProperties_no_scale _ hs
  refine ⟨?_, hs, hn, ?_, ?_⟩
  · intro h
    rw [(writeFile_eq_true h).2.2.2]
    exact FileSystem.setFile_files_same _ _ _
  · intro env2 config
    unfold Output.adjustPositions
    rw [adjustPositionsLoop_rejected env2 _ hn]
  · intro env2 sortedOutputs outputs
    exact adjustPositionsLoop_rejected env2 _ hn sortedOutputs outputs

/-! ## The shape of a written record -/

theorem writeGlobalPart_mode_shape (env : Env) (output : Output) (fallback : Option Output) :
    QVariantMap.hasKey (Output.writeGlobalPart env output [] fallback).2 "mode"
        = (Output.writeGlobalPart env output [] fallback).1 ∧
      hasModeShape (Output.writeGlobalPart env output [] fallback).2
        = (Output.writeGlobalPart env output [] fallback).1 := by
  unfold Output.writeGlobalPart
  simp only []
  split
  · constructor
    · rw [QVariantMap.hasKey_insert_ne _ _ _ _ (by decide),
        QVariantMap.hasKey_insert_ne _ _ _ _ (by decide),
        QVariantMap.hasKey_insert_ne _ _ _ _ (by decide)]
      rfl
    · unfold hasModeShape
      rw [QVariantMap.hasKey_insert_ne _ _ _ _ (by decide),
        QVariantMap.hasKey_insert_ne _ _ _ _ (by decide),
        QVariantMap.hasKey_insert_ne _ _ _ _ (by decide)]
      rfl
  · constructor
    · exact QVariantMap.hasKey_insert_same _ _ _
    · unfold hasModeShape
      rw [QVariantMap.hasKey_insert_same, QVariantMap.get_insert_same]
      simp only [QVariant.toMap, QVariantMap.hasKey_insert_same, QVariantMap.get_insert_same,
        QVariantMap.hasKey_insert_ne _ "size" "refresh" _ (by decide),
        QVariantMap.hasKey_insert_ne _ "height" "width" _ (by decide), Bool.and_self]

theorem writeGlobalPart_base_shape (env : Env) (output : Output) (info : QVariantMap)
    (fallback : Option Output) :
    QVariantMap.hasKey (Output.writeGlobalPart env output info fallback).2 "id" = true ∧
      QVariantMap.hasKey (Output.writeGlobalPart env output info fallback).2 "metadata" = true ∧
      QVariantMap.get (Output.writeGlobalPart env output info fallback).2 "metadata"
        = .map (metadata output) ∧
      QVariantMap.hasKey (Output.writeGlobalPart env output info fallback).2 "rotation" = true ∧
      QVariantMap.get (Output.writeGlobalPart env output info fallback).2 "rotation"
        = .int output.rotation := by
  rcases writeGlobalPart_cases env output info fallback with h | ⟨r, s, h⟩
  · rw [h]
    unfold globalPartBase
    refine ⟨?_, ?_, ?_, ?_, ?_⟩
    · rw [QVariantMap.hasKey_insert_ne _ _ _ _ (by decide),
        QVariantMap.hasKey_insert_ne _ _ _ _ (by decide), QVariantMap.hasKey_insert_same]
    · rw [QVariantMap.hasKey_insert_ne _ _ _ _ (by decide), QVariantMap.hasKey_insert_same]
    · rw [QVariantMap.get_insert_ne _ _ _ _ (by decide), QVariantMap.get_insert_same]
    · rw [QVariantMap.hasKey_insert_same]
    · rw [QVariantMap.get_insert_same]
  · rw [h]
    unfold globalPartBase
    refine ⟨?_, ?_, ?_, ?_, ?_⟩
    · rw [QVariantMap.hasKey_insert_ne _ _ _ _ (by decide),
        QVariantMap.hasKey_insert_ne _ _ _ _ (by decide),
        QVariantMap.hasKey_insert_ne _ _ _ _ (by decide), QVariantMap.hasKey_insert_same]
    · rw [QVariantMap.hasKey_insert_ne _ _ _ _ (by decide),
        QVariantMap.hasKey_insert_ne _ _ _ _ (by decide), QVariantMap.hasKey_insert_same]
    · rw [QVariantMap.get_insert_ne _ _ _ _ (by decide),
        QVariantMap.get_insert_ne _ _ _ _ (by decide), QVariantMap.get_insert_same]
    · rw [QVariantMap.hasKey_insert_ne _ _ _ _ (by decide), QVariantMap.hasKey_insert_same]
    · rw [QVariantMap.get_insert_ne _ _ _ _ (by decide), QVariantMap.get_insert_same]

theorem metadata_shape (output : Output) :
    QVariantMap.hasKey (metadata output) "name" = true ∧
      QVariantMap.hasKey (metadata output) "description" = true := by
  unfold metadata
  exact ⟨by rw [QVariantMap.hasKey_insert_ne _ _ _ _ (by decide),
    QVariantMap.hasKey_insert_same], QVariantMap.hasKey_insert_same _ _ _⟩

theorem QVariant.toMap_map (m : QVariantMap) : (QVariant.map m).toMap = m := rfl

theorem writeFileInfo_shape (env : Env) (old : Option Output) (output : Output) :
    hasBaseShape (writeFileInfo env old output) = true ∧
      QVariantMap.get (writeFileInfo env old output) "rotation" = .int output.rotation ∧
      QVariantMap.hasKey (writeFileInfo env old output) "mode"
        = (Output.writeGlobalPart env output [] old).1 ∧
      hasModeShape (writeFileInfo env old output)
        = (Output.writeGlobalPart env output [] old).1 ∧
      QVariantMap.hasKey (writeFileInfo env old output) "pos"
        = (output.enabled || old.isSome) ∧
      hasPosShape (writeFileInfo env old output) = (output.enabled || old.isSome) := by
  obtain ⟨b1, b2, b3, b4, b5⟩ := writeGlobalPart_base_shape env output [] old
  obtain ⟨m1, m2⟩ := writeGlobalPart_mode_shape env output old
  obtain ⟨n1, n2⟩ := metadata_shape output
  unfold hasModeShape at m2
  rw [m1] at m2
  unfold writeFileInfo hasBaseShape hasModeShape hasPosShape
  simp only []
  cases ht : (if output.isEnabled = true then some output else old) with
  | none =>
    have he : output.enabled = false := by
      cases hen : output.enabled with
      | false => rfl
      | true => simp [Output.isEnabled, hen] at ht
    have ho : old = none := by
      simpa [Output.isEnabled, he] using ht
    subst ho
    have hk : QVariantMap.hasKey (Output.writeGlobalPart env output [] none).2 "pos" = false := by
      rw [writeGlobalPart_hasKey_ne env output [] none "pos" (by decide) (by decide)
        (by decide) (by decide)]
      rfl
    simp [QVariantMap.hasKey_insert_ne, QVariantMap.hasKey_insert_same,
      QVariantMap.get_insert_ne, QVariantMap.get_insert_same, b1, b2, b3, b4, b5, m1, m2, n1, n2,
      QVariant.toMap_map, he, hk]
  | some out =>
    have hs : (output.enabled || old.isSome) = true := by
      cases hen : output.enabled with
      | true => rfl
      | false =>
        have : old = some out := by simpa [Output.isEnabled, hen] using ht
        simp [this]
    simp [QVariantMap.hasKey_insert_ne, QVariantMap.hasKey_insert_same,
      QVariantMap.get_insert_ne, QVariantMap.get_insert_same, b1, b2, b3, b4, b5, m1, m2, n1, n2,
      QVariant.toMap_map, hs]

/-- C21, amended. Every record of the list `Config::writeFile` builds is the record of a
connected output and has the keys `id`, `metadata` (with `name` and `description`), `rotation`
(the rotation of the output), `enabled` and `primary`. The key `mode` (with `refresh` and
`size.width`, `size.height`) is present exactly when `Output::writeGlobalPart` returns true,
and the key `pos` (with `x` and `y`) exactly when the output is enabled or the old
configuration has an output with its hash. -/
theorem writeFile_record_shape (env : Env) (fs : FileSystem) (data : DismanConfig)
    (r : QVariant) (hr : r ∈ (Config.writeFileLoop env fs data).2) :
    ∃ x ∈ data.outputs, x.connected = true ∧
      r = .map (writeFileInfo env
        ((Config.oldOutputs env fs data).find? (fun out => out.hashMd5 == x.hashMd5)) x) ∧
      hasBaseShape r.toMap = true ∧
      QVariantMap.get r.toMap "rotation" = .int x.rotation ∧
      QVariantMap.hasKey r.toMap "mode"
        = (Output.writeGlobalPart env x []
            ((Config.oldOutputs env fs data).find? (fun out => out.hashMd5 == x.hashMd5))).1 ∧
      hasModeShape r.toMap
        = (Output.writeGlobalPart env x []
            ((Config.oldOutputs env fs data).find? (fun out => out.hashMd5 == x.hashMd5))).1 ∧
      QVariantMap.hasKey r.toMap "pos"
        = (x.enabled ||
            ((Config.oldOutputs env fs data).find? (fun out => out.hashMd5 == x.hashMd5)).isSome) ∧
      hasPosShape r.toMap
        = (x.enabled ||
            ((Config.oldOutputs env fs data).find?
              (fun out => out.hashMd5 == x.hashMd5)).isSome) := by
  rw [writeFileLoop_snd_old] at hr
  unfold writtenRecords at hr
  obtain ⟨x, hx, rfl⟩ := List.mem_map.mp hr
  obtain ⟨hmem, hconn⟩ := List.mem_filter.mp hx
  refine ⟨x, hmem, hconn, rfl, ?_⟩
  rw [QVariant.toMap_map]
  exact writeFileInfo_shape env _ x

/-- Witness for `writeFile_record_shape`: the record of a monitor running 1920×1080 has all
keys of the persisted shape. -/
theorem writeFile_record_shape_witness :
    QVariant.map (writeFileInfo exEnv none lidOutput)
        ∈ (Config.writeFileLoop exEnv exFs lidConfig).2 ∧
      hasBaseShape (writeFileInfo exEnv none lidOutput) = true ∧
      hasModeShape (writeFileInfo exEnv none lidOutput) = true ∧
      hasPosShape (writeFileInfo exEnv none lidOutput) = true := by
  have hr : QVariant.map (writeFileInfo exEnv none lidOutput)
      ∈ (Config.writeFileLoop exEnv exFs lidConfig).2 := List.mem_singleton.mpr rfl
  obtain ⟨x, hx, _, _, hb, _, _, hm, _, hp⟩ :=
    writeFile_record_shape exEnv exFs lidConfig _ hr
  have hx2 : x = lidOutput := by simpa [lidConfig] using hx
  subst hx2
  rw [QVariant.toMap_map] at hb hm hp
  exact ⟨hr, hb, hm.trans (by with_unfolding_all decide), hp.trans (by decide)⟩

/-- C21, as stated, fails. Saved to an empty disk, the record of an enabled output without a
current mode has no key `mode`, and the record of a disabled output has neither `mode` nor
`pos`. -/
theorem writeFile_record_without_mode :
    ((Config.writeFile0 exEnv exFs (some plainConfig)).1.files "/kdisplay/t").map
        (fun doc => doc.toList.map
          (fun r => (hasBaseShape r.toMap, hasModeShape r.toMap, hasPosShape r.toMap)))
      = some [(true, false, true)] ∧
    ((Config.writeFile0 exEnv exFs (some disabledConfig)).1.files "/kdisplay/t").map
        (fun doc => doc.toList.map
          (fun r => (hasBaseShape r.toMap, hasModeShape r.toMap, hasPosShape r.toMap)))
      = some [(true, false, false)] := by
  constructor <;> with_unfolding_all decide

/-! ## The position a save writes -/

theorem writeFileInfo_pos (env : Env) (old : Option Output) (output out : Output)
    (h : (if output.isEnabled = true then some output else old) = some out) :
    infoPos (writeFileInfo env old output) = out.position := by
  unfold writeFileInfo infoPos
  simp only [h]
  rw [QVariantMap.get_insert_same]
  simp only [QVariant.toMap_map, QVariantMap.get_insert_same,
    QVariantMap.get_insert_ne _ "y" "x" _ (by decide), QVariant.toInt]

theorem readInGlobalPartFromInfo_hash (o : Output) (info : QVariantMap) :
    (o.readInGlobalPartFromInfo info).hash = o.hash := by
  rw [readInGlobalPartFromInfo_eq]
  cases chosenMode o info <;> rfl

theorem readInOutput_hash (env : Env) (fs : FileSystem) (dup : List String)
    (outputsInfo : QVariantList) (o : Output) :
    (readInOutput env fs dup outputsInfo o).1.hash = o.hash := by
  unfold readInOutput
  cases findInfo dup o outputsInfo with
  | none =>
    simp only []
    split
    · rename_i hg
      rw [readInGlobal_of_true env fs o hg, readInGlobalPartFromInfo_hash]
    · exact readInGlobalPartFromInfo_hash _ _
  | some info =>
    simp only []
    unfold Output.readIn
    simp only []
    split
    · rename_i hc
      simp only [Bool.and_eq_true] at hc
      rw [readInGlobal_of_true env fs _ hc.2, readInGlobalPartFromInfo_hash]
      rfl
    · rw [readInGlobalPartFromInfo_hash]
      rfl

theorem readInOutput_position (env : Env) (fs : FileSystem) (dup : List String)
    (outputsInfo : QVariantList) (o : Output) :
    (readInOutput env fs dup outputsInfo o).1.position =
      match findInfo dup o outputsInfo with
      | some info => infoPos info
      | none => o.position := by
  unfold readInOutput
  cases findInfo dup o outputsInfo with
  | none =>
    simp only []
    split
    · rename_i hg
      rw [readInGlobal_of_true env fs o hg, readInGlobalPartFromInfo_position]
    · exact readInGlobalPartFromInfo_position _ _
  | some info =>
    simp only []
    unfold Output.readIn
    simp only []
    split
    · rename_i hc
      simp only [Bool.and_eq_true] at hc
      rw [readInGlobal_of_true env fs _ hc.2, readInGlobalPartFromInfo_position]
      rfl
    · rw [readInGlobalPartFromInfo_position]
      rfl

theorem readInOutputs_hash_position (env : Env) (fs : FileSystem) (config : DismanConfig)
    (outputsInfo : QVariantList) (i : Nat) (o : Output) (hi : config.outputs[i]? = some o) :
    ∃ o1, (Output.readInOutputs env fs config outputsInfo).outputs[i]? = some o1 ∧
      o1.hash = o.hash ∧
      o1.position =
        match findInfo (duplicateIds config.outputs) o outputsInfo with
        | some info => infoPos info
        | none => o.position := by
  obtain ⟨o1, h1, hc⟩ := readInOutputs_getElem? env fs config outputsInfo i o hi
  refine ⟨o1, h1, ?_, ?_⟩
  · have h := congrArg Output.hash hc
    exact h.trans (readInOutput_hash env fs _ outputsInfo o)
  · have h := congrArg Output.position hc
    exact h.trans (readInOutput_position env fs _ outputsInfo o)

theorem find?_of_first {α : Type} (p : α → Bool) (l : List α) (i : Nat) (a : α)
    (hi : l[i]? = some a) (hp : p a = true)
    (hfirst : ∀ (j : Nat) (b : α), l[j]? = some b → p b = true → j = i) :
    l.find? p = some a := by
  induction l generalizing i with
  | nil => simp at hi
  | cons b rest ih =>
    cases i with
    | zero =>
      simp only [List.getElem?_cons_zero, Option.some.injEq] at hi
      subst hi
      simp [List.find?, hp]
    | succ k =>
      have hb : p b = false := by
        cases hpb : p b with
        | false => rfl
        | true => exact absurd (hfirst 0 b (List.getElem?_cons_zero) hpb) (by omega)
      simp only [List.find?, hb]
      apply ih k
      · simpa using hi
      · intro j c hj hc
        have := hfirst (j + 1) c (by simpa using hj) hc
        omega

theorem oldOutputs_cases (env : Env) (fs : FileSystem) (data : DismanConfig) :
    Config.oldOutputs env fs data = [] ∨
      ∃ doc, (Config.readFile0 env fs (some data)).1.read
          (Config.fileToRead env (Config.readFile0 env fs (some data)).1 (Config.id (some data)))
          = some doc ∧
        Config.oldOutputs env fs data
          = (Output.readInOutputs env (Config.readFile0 env fs (some data)).1 data
              doc.toList).outputs := by
  unfold Config.oldOutputs
  have h2 : (Config.readFile0 env fs (some data)).2
      = Config.readFile env (Config.readFile0 env fs (some data)).1 (some data)
          (Config.id (some data)) := rfl
  rw [h2]
  unfold Config.readFile Config.fileToRead
  simp only []
  cases hr : (Config.readFile0 env fs (some data)).1.read
      (if (Config.readFile0 env fs (some data)).1.fileExists
          (Config.configsDirPath env ++ Config.s_fixedConfigFileName) = true then
        Config.configsDirPath env ++ Config.s_fixedConfigFileName
      else Config.configsDirPath env ++ Config.id (some data)) with
  | none => left; rfl
  | some doc =>
    simp only []
    unfold Config.applyRecords
    simp only []
    by_cases hc : (!env.canBeApplied
        { Output.readInOutputs env (Config.readFile0 env fs (some data)).1 data doc.toList with
          screenSize := screenSizeLoop env
            (Output.readInOutputs env (Config.readFile0 env fs (some data)).1 data
              doc.toList).outputs }) = true
    · left
      rw [if_pos hc]
    · right
      rw [if_neg hc]
      exact ⟨doc, rfl, rfl⟩

theorem readFile0_some_outputs (env : Env) (fs : FileSystem) (data old : DismanConfig)
    (h : (Config.readFile0 env fs (some data)).2 = some old) :
    Config.oldOutputs env fs data = old.outputs ∧
      ∃ doc, (Config.readFile0 env fs (some data)).1.read
          (Config.fileToRead env (Config.readFile0 env fs (some data)).1 (Config.id (some data)))
          = some doc ∧
        old.outputs
          = (Output.readInOutputs env (Config.readFile0 env fs (some data)).1 data
              doc.toList).outputs := by
  have ho : Config.oldOutputs env fs data = old.outputs := by
    unfold Config.oldOutputs
    rw [h]
  refine ⟨ho, ?_⟩
  have h2 : Config.readFile env (Config.readFile0 env fs (some data)).1 (some data)
      (Config.id (some data)) = some old := h
  unfold Config.readFile at h2
  simp only [] at h2
  unfold Config.fileToRead
  cases hr : (Config.readFile0 env fs (some data)).1.read
      (if (Config.readFile0 env fs (some data)).1.fileExists
          (Config.configsDirPath env ++ Config.s_fixedConfigFileName) = true then
        Config.configsDirPath env ++ Config.s_fixedConfigFileName
      else Config.configsDirPath env ++ Config.id (some data)) with
  | none => rw [hr] at h2; cases h2
  | some doc =>
    rw [hr] at h2
    simp only [] at h2
    unfold Config.applyRecords at h2
    simp only [] at h2
    split at h2
    · cases h2
    · simp only [Option.some.injEq] at h2
      refine ⟨doc, rfl, ?_⟩
      rw [← h2]

/-- C24. In `Config::writeFile` the record of a connected output carries, as `pos`, the live
position of the output when it is enabled. When it is disabled, `pos` is the position of the
first output with the same hash in the configuration `readFile()` returns, and there is no
`pos` when that configuration has no such output. So a stored position is carried forward:
for a disabled output whose hash no other output has, when `readFile()` returns a
configuration and matches the output to a record, the `pos` written is the `pos` of that
record. -/
theorem writeFile_pos (env : Env) (fs : FileSystem) (data : DismanConfig) (i : Nat)
    (x : Output) (hi : data.outputs[i]? = some x) (hconn : x.connected = true) :
    QVariant.map (writeFileInfo env
        ((Config.oldOutputs env fs data).find? (fun out => out.hashMd5 == x.hashMd5)) x)
      ∈ (Config.writeFileLoop env fs data).2 ∧
    (x.enabled = true →
      infoPos (writeFileInfo env
        ((Config.oldOutputs env fs data).find? (fun out => out.hashMd5 == x.hashMd5)) x)
        = x.position) ∧
    (x.enabled = false → ∀ o,
      (Config.oldOutputs env fs data).find? (fun out => out.hashMd5 == x.hashMd5) = some o →
      o ∈ Config.oldOutputs env fs data ∧ o.hash = x.hash ∧
        infoPos (writeFileInfo env
          ((Config.oldOutputs env fs data).find? (fun out => out.hashMd5 == x.hashMd5)) x)
          = o.position) ∧
    (x.enabled = false →
      (Config.oldOutputs env fs data).find? (fun out => out.hashMd5 == x.hashMd5) = none →
      QVariantMap.hasKey (writeFileInfo env
        ((Config.oldOutputs env fs data).find? (fun out => out.hashMd5 == x.hashMd5)) x) "pos"
        = false) ∧
    (x.enabled = false →
      (∀ (j : Nat) (y : Output), data.outputs[j]? = some y → y.hash = x.hash → j = i) →
      ∀ (old : DismanConfig) (doc : QVariant) (info : QVariantMap),
        (Config.readFile0 env fs (some data)).2 = some old →
        (Config.readFile0 env fs (some data)).1.read
          (Config.fileToRead env (Config.readFile0 env fs (some data)).1 (Config.id (some data)))
          = some doc →
        findInfo (duplicateIds data.outputs) x doc.toList = some info →
        infoPos (writeFileInfo env
          ((Config.oldOutputs env fs data).find? (fun out => out.hashMd5 == x.hashMd5)) x)
          = infoPos info) := by
  refine ⟨?_, ?_, ?_, ?_, ?_⟩
  · rw [writeFileLoop_snd_old]
    unfold writtenRecords
    exact List.mem_map.mpr ⟨x, List.mem_filter.mpr ⟨List.getElem?_mem hi, hconn⟩, rfl⟩
  · intro hen
    exact writeFileInfo_pos env _ x x (by simp [Output.isEnabled, hen])
  · intro hen o ho
    refine ⟨List.mem_of_find?_eq_some ho, ?_, ?_⟩
    · have h := List.find?_some ho
      simpa [Output.hashMd5] using h
    · exact writeFileInfo_pos env _ x o (by simp [Output.isEnabled, hen, ho])
  · intro hen ho
    rw [(writeFileInfo_shape env _ x).2.2.2.2.1, hen, ho]
    rfl
  · intro hen huniq old doc info hold hdoc hfind
    obtain ⟨ho, doc2, hdoc2, hout⟩ := readFile0_some_outputs env fs data old hold
    rw [hdoc] at hdoc2
    cases hdoc2
    obtain ⟨o1, h1, hhash, hpos⟩ := readInOutputs_hash_position env
      (Config.readFile0 env fs (some data)).1 data doc.toList i x hi
    rw [hfind] at hpos
    simp only [] at hpos
    have hf : (Config.oldOutputs env fs data).find? (fun out => out.hashMd5 == x.hashMd5)
        = some o1 := by
      rw [ho, hout]
      apply find?_of_first _ _ i o1 h1
      · simp [Output.hashMd5, hhash]
      · intro j b hj hb
        have hlen := congrArg List.length
          (readInOutputs_map env (Config.readFile0 env fs (some data)).1 data doc.toList)
        simp only [List.length_map] at hlen
        obtain ⟨hlt, _⟩ := List.getElem?_eq_some.mp hj
        rw [hlen] at hlt
        obtain ⟨b1, hb1, hbh, _⟩ := readInOutputs_hash_position env
          (Config.readFile0 env fs (some data)).1 data doc.toList j _
          (List.getElem?_eq_getElem hlt)
        rw [hj] at hb1
        cases hb1
        apply huniq j _ (List.getElem?_eq_getElem hlt)
        rw [← hbh]
        simpa [Output.hashMd5] using hb
    rw [hf, writeFileInfo_pos env _ x o1 (by simp [Output.isEnabled, hen]), hpos]

/-- Witness for `writeFile_pos`: the monitor at (10, 20) is switched off and the topology file
has it at (0, 0); the position written is (0, 0). -/
theorem writeFile_pos_witness :
    infoPos (writeFileInfo exEnv
      ((Config.oldOutputs exEnv staleFs disabledConfig).find?
        (fun out => out.hashMd5 == (lidOutput.set_enabled false).hashMd5))
      (lidOutput.set_enabled false)) = ⟨0, 0⟩ := by
  have h := (writeFile_pos exEnv staleFs disabledConfig 0 (lidOutput.set_enabled false) rfl
    rfl).2.2.2.2 rfl (by
      intro j y hj _
      cases j with
      | zero => rfl
      | succ k => simp [disabledConfig] at hj)
  cases hold : (Config.readFile0 exEnv staleFs (some disabledConfig)).2 with
  | none =>
    have hs : (Config.readFile0 exEnv staleFs (some disabledConfig)).2.isSome = true := by
      with_unfolding_all decide
    rw [hold] at hs
    cases hs
  | some old =>
    rw [h old (.list [staleRecord]) staleRecord.toMap hold (by
      simp [Config.readFile0, Config.fileToRead, FileSystem.read, FileSystem.fileExists,
        staleFs, exFs, exEnv, FileSystem.setFile, Config.filePath, Config.configsDirPath,
        Config.id, Config.s_configsDirName, Config.s_fixedConfigFileName, disabledConfig,
        FileSystem.remove, FileSystem.copy]) (by rfl)]
    decide

/-! ## A matched output with a global record -/

theorem readIn_of_global (env : Env) (fs : FileSystem) (o : Output) (info : QVariantMap)
    (retention : Retention) (hret : retention ≠ Retention.Individual)
    (hglobal : (Output.getGlobalData env fs o).isEmpty = false) :
    Output.readIn env fs o info retention =
      (((o.set_position (infoPos info)).set_enabled (info.get "enabled").toBool).readInGlobalPartFromInfo
          (Output.getGlobalData env fs o),
        (info.get "primary").toBool) := by
  have hg : Output.getGlobalData env fs
      ((o.set_position (infoPos info)).set_enabled (info.get "enabled").toBool)
      = Output.getGlobalData env fs o := rfl
  unfold Output.readIn
  simp only []
  have h2 : (Output.readInGlobal env fs
      ((o.set_position (infoPos info)).set_enabled (info.get "enabled").toBool))
      = (((o.set_position (infoPos info)).set_enabled
          (info.get "enabled").toBool).readInGlobalPartFromInfo
            (Output.getGlobalData env fs o), true) := by
    unfold Output.readInGlobal
    simp only [hg, hglobal, Bool.false_eq_true, if_false]
  have h3 : (retention != Retention.Individual) = true := by
    simpa using hret
  unfold infoPos at h2
  rw [h2]
  simp only [h3, Bool.and_self, if_true]
  rfl

/-- C26, amended. In `Output::readIn`, for a matched output whose retention is not Individual
and for which a non-empty global record exists, rotation and mode after the call are
determined by the global record alone: they are the same for every snapshot record. The
position is taken from the snapshot record and the primary flag reported is the one of the
snapshot record. The enabled state is taken from the snapshot record when a mode is resolved
from the global record; when none is resolved (the output has no modes) the output is
disabled and keeps its mode. -/
theorem readIn_global_record (env : Env) (fs : FileSystem) (o : Output) (info : QVariantMap)
    (retention : Retention) (hret : retention ≠ Retention.Individual)
    (hglobal : (Output.getGlobalData env fs o).isEmpty = false) :
    (∀ info2 : QVariantMap,
      (Output.readIn env fs o info2 retention).1.rotation
          = (Output.readIn env fs o info retention).1.rotation ∧
        (Output.readIn env fs o info2 retention).1.mode
          = (Output.readIn env fs o info retention).1.mode) ∧
    (Output.readIn env fs o info retention).1.rotation
      = ((Output.getGlobalData env fs o).value "rotation" (.int 1)).toInt ∧
    (Output.readIn env fs o info retention).1.position = infoPos info ∧
    (Output.readIn env fs o info retention).2 = (info.get "primary").toBool ∧
    (∀ m, chosenMode o (Output.getGlobalData env fs o) = some m →
      (Output.readIn env fs o info retention).1.mode = some m ∧
      (Output.readIn env fs o info retention).1.enabled = (info.get "enabled").toBool) ∧
    (chosenMode o (Output.getGlobalData env fs o) = none →
      (Output.readIn env fs o info retention).1.mode = o.mode ∧
      (Output.readIn env fs o info retention).1.enabled = false) := by
  have hc : ∀ i2 : QVariantMap,
      chosenMode ((o.set_position (infoPos i2)).set_enabled (i2.get "enabled").toBool)
        (Output.getGlobalData env fs o) = chosenMode o (Output.getGlobalData env fs o) :=
    fun _ => rfl
  have hform : ∀ i2 : QVariantMap,
      (Output.readIn env fs o i2 retention).1.rotation
          = ((Output.getGlobalData env fs o).value "rotation" (.int 1)).toInt ∧
        (Output.readIn env fs o i2 retention).1.mode
          = (match chosenMode o (Output.getGlobalData env fs o) with
            | some m => some m
            | none => o.mode) ∧
        (Output.readIn env fs o i2 retention).1.enabled
          = (match chosenMode o (Output.getGlobalData env fs o) with
            | some _ => (i2.get "enabled").toBool
            | none => false) := by
    intro i2
    rw [readIn_of_global env fs o i2 retention hret hglobal]
    simp only []
    rw [readInGlobalPartFromInfo_eq, hc i2]
    cases chosenMode o (Output.getGlobalData env fs o) with
    | none => exact ⟨rfl, rfl, rfl⟩
    | some m => exact ⟨rfl, rfl, rfl⟩
  refine ⟨?_, (hform info).1, ?_, ?_, ?_, ?_⟩
  · intro info2
    exact ⟨(hform info2).1.trans (hform info).1.symm,
      (hform info2).2.1.trans (hform info).2.1.symm⟩
  · rw [readIn_of_global env fs o info retention hret hglobal]
    simp only []
    rw [readInGlobalPartFromInfo_position]
    rfl
  · exact readIn_snd env fs o info retention
  · intro m hm
    obtain ⟨_, h2, h3⟩ := hform info
    rw [hm] at h2 h3
    exact ⟨h2, h3⟩
  · intro hn
    obtain ⟨_, h2, h3⟩ := hform info
    rw [hn] at h2 h3
    exact ⟨h2, h3⟩

/-- Witness for `readIn_global_record`: the monitor with a global record of rotation 8 and a
snapshot record of rotation 1 at (0, 0) is read in with rotation 8 at (0, 0). -/
theorem readIn_global_record_witness :
    (Output.readIn exEnv globalFs plainOutput staleRecord.toMap Retention.Global).1.rotation
        = 8 ∧
      (Output.readIn exEnv globalFs plainOutput staleRecord.toMap Retention.Global).1.position
        = ⟨0, 0⟩ :=
  ⟨(readIn_global_record exEnv globalFs plainOutput staleRecord.toMap Retention.Global
      (by decide) (by decide)).2.1.trans (by decide),
    (readIn_global_record exEnv globalFs plainOutput staleRecord.toMap Retention.Global
      (by decide) (by decide)).2.2.1.trans (by decide)⟩

/-- C26, as stated, fails. An output without modes is matched to a snapshot record with
`enabled` true; its global record is not empty and its retention is Global. After
`Output::readIn` the output is disabled. -/
theorem readIn_global_record_disables :
    (staleRecord.toMap.get "enabled").toBool = true ∧
      (Output.getGlobalData exEnv globalFs noModeOutput).isEmpty = false ∧
      noModeOutput.retention = Retention.Global ∧
      (Output.readIn exEnv globalFs noModeOutput staleRecord.toMap
        Retention.Global).1.enabled = false := by
  with_unfolding_all decide

/-! ## The apply cycle of the daemon -/

theorem updateOrientation_operations (env : Env) (sensor : Sensor) (d : Daemon) :
    (KDisplayDaemon.updateOrientation env sensor d).setConfigOperations = d.setConfigOperations ∧
      (KDisplayDaemon.updateOrientation env sensor d).m_monitoring = d.m_monitoring := by
  unfold KDisplayDaemon.updateOrientation
  cases d.m_monitoredConfig with
  | none => exact ⟨rfl, rfl⟩
  | some config =>
    simp only []
    split
    · exact ⟨rfl, rfl⟩
    · split
      · exact ⟨rfl, rfl⟩
      · split
        · exact ⟨rfl, rfl⟩
        · split
          · exact ⟨rfl, rfl⟩
          · split <;> exact ⟨rfl, rfl⟩

theorem applied_operations (d : Daemon) :
    (KDisplayDaemon.applied d).setConfigOperations = d.setConfigOperations ∧
      (d.m_monitoring = true → (KDisplayDaemon.applied d).m_monitoring = true) := by
  unfold KDisplayDaemon.applied KDisplayDaemon.doApplyConfig KDisplayDaemon.setMonitorForChanges
  by_cases hd : d.m_configDirty = true
  · rw [if_pos hd]
    exact ⟨rfl, fun h => h⟩
  · simp only [hd, if_false, Bool.false_eq_true]
    by_cases hm : d.m_monitoring = true
    · simp [hm]
    · simp [hm]

theorem run_monitoring (env : Env) (events : List DaemonEvent) :
    ∀ d : Daemon, d.m_monitoring = true →
      (KDisplayDaemon.run env d events).m_monitoring = true ∧
        (KDisplayDaemon.run env d events).setConfigOperations = d.setConfigOperations := by
  induction events with
  | nil => intro d h; exact ⟨h, rfl⟩
  | cons ev rest ih =>
    intro d h
    unfold KDisplayDaemon.run
    rw [List.foldl_cons]
    have hstep : (KDisplayDaemon.step env d ev).m_monitoring = true ∧
        (KDisplayDaemon.step env d ev).setConfigOperations = d.setConfigOperations := by
      cases ev with
      | orientation sensor =>
        obtain ⟨h1, h2⟩ := updateOrientation_operations env sensor d
        exact ⟨h2.trans h, h1⟩
      | applied =>
        obtain ⟨h1, h2⟩ := applied_operations d
        exact ⟨h2 h, h1⟩
    obtain ⟨i1, i2⟩ := ih _ hstep.1
    exact ⟨i1, i2.trans hstep.2⟩

/-- C25, amended. As a step relation over (monitoring, configDirty): an orientation event
never creates an apply request; while monitoring is false it leaves monitoring false and, when
the reading passes the checks of `updateOrientation`, sets configDirty. When an outstanding
request completes and configDirty is not set, monitoring is resumed. When configDirty is set,
`doApplyConfig` is called with the monitored configuration, but it returns at once ("all
KDisplay daemon config control is disabled"): no follow-up request is created and the state is
left as it is. From the state after the constructor no sequence of events creates an apply
request or makes monitoring false. -/
theorem daemon_apply_cycle (env : Env) (sensor : Sensor) (d : Daemon) :
    ((KDisplayDaemon.updateOrientation env sensor d).setConfigOperations
        = d.setConfigOperations ∧
      (KDisplayDaemon.updateOrientation env sensor d).m_monitoring = d.m_monitoring) ∧
    (d.m_monitoring = false → d.m_monitoredConfig.isSome = true →
      sensor.featureAutoRotation = true → sensor.featureTabletMode = true →
      sensor.available = true → sensor.enabled = true →
      sensor.value ≠ Orientation.Undefined → sensor.value ≠ Orientation.FaceUp →
      sensor.value ≠ Orientation.FaceDown →
      (KDisplayDaemon.updateOrientation env sensor d).m_configDirty = true) ∧
    (d.m_configDirty = true → KDisplayDaemon.applied d = d) ∧
    (d.m_configDirty = false →
      (KDisplayDaemon.applied d).m_monitoring = true ∧
      (KDisplayDaemon.applied d).m_configDirty = false ∧
      (KDisplayDaemon.applied d).setConfigOperations = d.setConfigOperations ∧
      (KDisplayDaemon.applied d).m_monitoredConfig = d.m_monitoredConfig) ∧
    (∀ events : List DaemonEvent,
      (KDisplayDaemon.run env KDisplayDaemon.initial events).m_monitoring = true ∧
      (KDisplayDaemon.run env KDisplayDaemon.initial events).setConfigOperations = []) := by
  refine ⟨updateOrientation_operations env sensor d, ?_, ?_, ?_, ?_⟩
  · intro hm hc h1 h2 h3 h4 h5 h6 h7
    unfold KDisplayDaemon.updateOrientation
    cases hcfg : d.m_monitoredConfig with
    | none => rw [hcfg] at hc; cases hc
    | some config =>
      simp [h1, h2, h3, h4, h5, h6, h7, hm]
  · intro hd
    unfold KDisplayDaemon.applied KDisplayDaemon.doApplyConfig
    rw [if_pos hd]
  · intro hd
    unfold KDisplayDaemon.applied KDisplayDaemon.setMonitorForChanges
    simp only [hd, Bool.false_eq_true, if_false]
    by_cases hm : d.m_monitoring = true
    · simp [hm, hd]
    · simp [hm, hd]
  · intro events
    exact run_monitoring env events KDisplayDaemon.initial rfl

/-- C25, as stated, fails. An apply request is outstanding and configDirty is set; when the
request completes no follow-up request is created: the list of requests is the one before, and
monitoring stays false. -/
theorem daemon_no_follow_up :
    dirtyDaemon.m_monitoring = false ∧ dirtyDaemon.m_configDirty = true ∧
      (KDisplayDaemon.applied dirtyDaemon).setConfigOperations.length
        = dirtyDaemon.setConfigOperations.length ∧
      (KDisplayDaemon.applied dirtyDaemon).m_monitoring = false ∧
      (KDisplayDaemon.applied dirtyDaemon).m_configDirty = true :=
  ⟨rfl, rfl, rfl, rfl, rfl⟩

end KDisplay
